import Mathlib

/-!
# nCine: the ImGui render-command pool, the draw-list submission loop,
# the render queue ordering and the timer

A shallow embedding of

* `src/src/graphics/ImGuiDrawing.cpp`: `retrieveCommandFromPool`,
  `resetCommandPool`, `setupRenderCmd`, `draw(RenderQueue &)`,
  `setupBuffersAndShader`, `draw()`;
* `src/include/ncRenderCommand.h`: `ncRenderCommand` and its sort key;
* `src/src/ncTimer.cpp`: `Reset`, `Start`, `Stop`, `Continue`, `GetTotal`.

Conventions of the embedding.

* A `RenderCommand` lives on the heap.  The heap is the list of all commands
  ever created with `nctl::makeUnique<RenderCommand>()`; the address of a
  command is its position in that list, so a new command gets the address
  `heap.length`.
* A `nctl::UniquePtr<RenderCommand>` is an `Option Addr` (`none` is the null
  pointer, also the state of a pointer that has been moved from).
* A function that dereferences a pointer returns an `Option`: `none` when the
  pointer is null.
* `GLfloat` arithmetic is not interpreted: the type `F` of floats and the
  operations the code applies to it are a parameter (`GLfloatOps F`).
* Machine integers are `Nat`/`Int`; the places where the code narrows a
  value (`GLushort firstIndex`, `unsigned int numCmd`) reduce it explicitly.
-/

namespace ncine

/-! ## OpenGL and ImGui constants used by `setupRenderCmd` -/

/-- Value of the OpenGL enumerator of the same name. -/
def GL_TRIANGLES : Nat := 4
/-- Value of the OpenGL enumerator of the same name. -/
def GL_UNSIGNED_BYTE : Nat := 5121
/-- Value of the OpenGL enumerator of the same name. -/
def GL_FLOAT : Nat := 5126
/-- Size in bytes of a `GLfloat`. -/
def sizeofGLfloat : Nat := 4
/-- Size in bytes of an `ImDrawVert` (`ImVec2 pos; ImVec2 uv; ImU32 col`). -/
def sizeofImDrawVert : Nat := 20
/-- Byte offset of `ImDrawVert::pos`. -/
def offsetofPos : Nat := 0
/-- Byte offset of `ImDrawVert::uv`. -/
def offsetofUv : Nat := 8
/-- Byte offset of `ImDrawVert::col`. -/
def offsetofCol : Nat := 16

/-- Address of a heap-allocated `RenderCommand`. -/
abbrev Addr := Nat

/-! ## The render command (the parts `ImGuiDrawing.cpp` reads and writes) -/

/-- One vertex attribute of a material (`GLVertexFormat::Attribute`). -/
structure VertexAttribute where
  stride : Nat
  pointer : Nat
  type : Nat
  normalized : Bool
deriving DecidableEq, Repr

/-- The material of a command: the fields reached through `material()`. -/
structure Material (F : Type) where
  shaderProgram : Option Nat
  uniformsDataPointer : Option Nat
  uTexture : Option Int
  projection : Option (List F)
  aPosition : Option VertexAttribute
  aTexCoords : Option VertexAttribute
  aColor : Option VertexAttribute
  isTransparent : Bool
  texture : Option Nat
deriving DecidableEq, Repr

/-- The geometry of a command: the fields reached through `geometry()`.
`sharedVbo`/`sharedIbo` hold the address of the command whose geometry
was passed to `shareVbo`/`shareIbo` (`none` after `shareVbo(nullptr)`). -/
structure Geometry where
  numElementsPerVertex : Nat
  primitiveType : Nat
  firstVertex : Int
  numVertices : Nat
  numIndices : Nat
  firstIndex : Nat
  sharedVbo : Option Addr
  sharedIbo : Option Addr
deriving DecidableEq, Repr

/-- Profiling type of a command (`RenderCommand::CommandTypes`). -/
inductive CommandTypes where
  | UNSPECIFIED
  | IMGUI
deriving DecidableEq, Repr

/-- A render command. -/
structure RenderCommand (F : Type) where
  profilingType : CommandTypes
  material : Material F
  geometry : Geometry
  scissor : Option (Int × Int × Int × Int)
  layer : Nat
deriving DecidableEq, Repr

/-- Modelled from the spec: the state of a freshly constructed
`RenderCommand` (the class is not among the sources): no shader program, no
texture ("unset/default"), no uniform or attribute set, empty geometry that
shares nothing, no scissor rectangle. -/
def RenderCommand.new (F : Type) : RenderCommand F :=
  { profilingType := CommandTypes.UNSPECIFIED
    material :=
      { shaderProgram := none, uniformsDataPointer := none, uTexture := none,
        projection := none, aPosition := none, aTexCoords := none,
        aColor := none, isTransparent := false, texture := none }
    geometry :=
      { numElementsPerVertex := 2, primitiveType := GL_TRIANGLES, firstVertex := 0,
        numVertices := 0, numIndices := 0, firstIndex := 0,
        sharedVbo := none, sharedIbo := none }
    scissor := none
    layer := 0 }

/-! ## Events observable outside the drawing object -/

/-- Calls made by `draw(RenderQueue &)` on the scratch buffers of a
command's geometry and on the render queue, in program order. -/
inductive Event where
  | acquireVertexPointer (cmd : Addr) (numFloats : Nat) (numElements : Nat)
  | memcpyVertices (cmd : Addr) (numBytes : Nat)
  | releaseVertexPointer (cmd : Addr)
  | acquireIndexPointer (cmd : Addr) (numIndices : Nat)
  | memcpyIndices (cmd : Addr) (numBytes : Nat)
  | releaseIndexPointer (cmd : Addr)
  | addCommand (cmd : Addr)
deriving DecidableEq, Repr

/-! ## The drawing object -/

/-- The members of `ImGuiDrawing` used by the pool, by `draw(RenderQueue &)`
and by `draw()`, together with the heap of commands its pools own.  The
members `vbo_`, `ibo_`, `imguiShaderUniforms_` and `imguiShaderAttributes_`
are owning pointers to objects whose contents the embedded functions do not
read: `none` is the null pointer, `some ()` an object. -/
structure ImGuiDrawing (F : Type) where
  withSceneGraph_ : Bool
  freeCommandsPool_ : List (Option Addr)
  usedCommandsPool_ : List (Option Addr)
  lastFrameWidth_ : F
  lastFrameHeight_ : F
  imguiShaderProgram_ : Option Nat
  projectionMatrix_ : List F
  heap : List (RenderCommand F)
  events : List Event
  vbo_ : Option Unit
  ibo_ : Option Unit
  imguiShaderUniforms_ : Option Unit
  imguiShaderAttributes_ : Option Unit

variable {F : Type}

/-- The loop condition of `retrieveCommandFromPool` on one pool entry:
`command && command->material().shaderProgram() == imguiShaderProgram_.get()`.
An address outside the heap (which no owning pointer can hold) matches
nothing. -/
def isCompatible (self : ImGuiDrawing F) (command : Option Addr) : Bool :=
  match command with
  | none => false
  | some a =>
    match self.heap[a]? with
    | none => false
    | some c => decide (c.material.shaderProgram = self.imguiShaderProgram_)

/-- The `for` loop of `retrieveCommandFromPool`, up to the `break`: the
first index `i`, counted from `i0`, whose entry is compatible. -/
def scanFreePool (self : ImGuiDrawing F) : List (Option Addr) → Nat → Option Nat
  | [], _ => none
  | command :: rest, i =>
    if isCompatible self command then some i else scanFreePool self rest (i + 1)

/-- `ImGuiDrawing::setupRenderCmd`. -/
def setupRenderCmd (self : ImGuiDrawing F) (cmd : RenderCommand F) : RenderCommand F :=
  let cmd1 := { cmd with profilingType := CommandTypes.IMGUI }
  let m0 := cmd1.material
  let m1 := { m0 with shaderProgram := self.imguiShaderProgram_ }
  let m2 := { m1 with uniformsDataPointer := none }
  let m3 := { m2 with uTexture := some 0 }
  let m4 := { m3 with aPosition := some ⟨sizeofImDrawVert, offsetofPos, GL_FLOAT, false⟩ }
  let m5 := { m4 with aTexCoords := some ⟨sizeofImDrawVert, offsetofUv, GL_FLOAT, false⟩ }
  let m6 := { m5 with aColor := some ⟨sizeofImDrawVert, offsetofCol, GL_FLOAT, false⟩ }
  let m7 := { m6 with aColor := m6.aColor.map (fun (a : VertexAttribute) => { a with type := GL_UNSIGNED_BYTE }) }
  let m8 := { m7 with aColor := m7.aColor.map (fun (a : VertexAttribute) => { a with normalized := true }) }
  let m9 := { m8 with isTransparent := true }
  let g0 := cmd1.geometry
  let g1 := { g0 with numElementsPerVertex := sizeofImDrawVert / sizeofGLfloat }
  let g2 := { g1 with primitiveType := GL_TRIANGLES, firstVertex := 0, numVertices := 0 }
  { cmd1 with material := m9, geometry := g2 }

/-- `ImGuiDrawing::retrieveCommandFromPool`: the returned pointer and the
object after the call. -/
def retrieveCommandFromPool (self : ImGuiDrawing F) : Option Addr × ImGuiDrawing F :=
  let afterLoop : Option Addr × ImGuiDrawing F :=
    match scanFreePool self self.freeCommandsPool_ 0 with
    | none => (none, self)
    | some i =>
      let poolSize := self.freeCommandsPool_.length
      let command := self.freeCommandsPool_.getD i none
      -- retrievedCommand = command.get();
      let retrievedCommand := command
      -- usedCommandsPool_.pushBack(nctl::move(command));
      let used1 := self.usedCommandsPool_ ++ [command]
      let free1 := self.freeCommandsPool_.set i none
      -- command = nctl::move(freeCommandsPool_[poolSize - 1]);
      let last := free1.getD (poolSize - 1) none
      let free2 := (free1.set (poolSize - 1) none).set i last
      -- freeCommandsPool_.setSize(poolSize - 1);
      let free3 := free2.take (poolSize - 1)
      (retrievedCommand, { self with freeCommandsPool_ := free3, usedCommandsPool_ := used1 })
  match afterLoop.1 with
  | some a => (some a, afterLoop.2)
  | none =>
    let self1 := afterLoop.2
    let newCommand := setupRenderCmd self1 (RenderCommand.new F)
    let addr := self1.heap.length
    (some addr,
      { self1 with
        heap := self1.heap ++ [newCommand]
        usedCommandsPool_ := self1.usedCommandsPool_ ++ [some addr] })

/-- `ImGuiDrawing::resetCommandPool`. -/
def resetCommandPool (self : ImGuiDrawing F) : ImGuiDrawing F :=
  let free1 := self.usedCommandsPool_.foldl (fun free command => free ++ [command])
    self.freeCommandsPool_
  { self with freeCommandsPool_ := free1, usedCommandsPool_ := [] }

/-- `ImGuiDrawing::setupBuffersAndShader` (lines 242 to 257): the buffer
objects, the shader uniforms and the shader attributes are created. -/
def setupBuffersAndShader (self : ImGuiDrawing F) : ImGuiDrawing F :=
  { self with
    vbo_ := some ()
    ibo_ := some ()
    imguiShaderUniforms_ := some ()
    imguiShaderAttributes_ := some () }

/-- The object right after construction (lines 31 to 65): both pools empty,
nothing allocated; the buffers and shader attributes of the immediate-mode
path are set up only when `withSceneGraph == false`. -/
def ImGuiDrawing.init (withSceneGraph : Bool) (shader : Option Nat) (zero : F) :
    ImGuiDrawing F :=
  let self : ImGuiDrawing F :=
    { withSceneGraph_ := withSceneGraph
      freeCommandsPool_ := []
      usedCommandsPool_ := []
      lastFrameWidth_ := zero
      lastFrameHeight_ := zero
      imguiShaderProgram_ := shader
      projectionMatrix_ := []
      heap := []
      events := []
      vbo_ := none
      ibo_ := none
      imguiShaderUniforms_ := none
      imguiShaderAttributes_ := none }
  if withSceneGraph = false then setupBuffersAndShader self else self

/-- `K` consecutive calls of `retrieveCommandFromPool`, results dropped. -/
def retrieveMany : Nat → ImGuiDrawing F → ImGuiDrawing F
  | 0, self => self
  | K + 1, self => retrieveMany K (retrieveCommandFromPool self).2

/-- Whether a call of `retrieveCommandFromPool` in this state reaches
`nctl::makeUnique<RenderCommand>()`. -/
def allocatesNew (self : ImGuiDrawing F) : Bool :=
  (scanFreePool self self.freeCommandsPool_ 0).isNone

/-- Number of calls, among `K` consecutive ones, that allocate. -/
def countAllocations : Nat → ImGuiDrawing F → Nat
  | 0, _ => 0
  | K + 1, self =>
    (if allocatesNew self then 1 else 0) + countAllocations K (retrieveCommandFromPool self).2

/-! ## Predicates on the pools -/

/-- The pool membership predicate: `free` and `used` contain no null entry
and no command occurs more than once in `free ++ used`. -/
def PoolInv (self : ImGuiDrawing F) : Prop :=
  none ∉ self.freeCommandsPool_ ++ self.usedCommandsPool_ ∧
    (self.freeCommandsPool_ ++ self.usedCommandsPool_).Nodup

/-- Every owning pointer held by a pool points to an allocated command.
In C++ this holds by construction of `nctl::UniquePtr`: the only non-null
values ever stored come from `nctl::makeUnique`. -/
def Live (self : ImGuiDrawing F) : Prop :=
  ∀ p ∈ self.freeCommandsPool_ ++ self.usedCommandsPool_, ∀ a ∈ p, a < self.heap.length

/-- A pool entry that is non-null, points into the heap, and whose command
has the ImGui shader program and is transparent (as `setupRenderCmd`
leaves it). -/
def isImGuiCommand (self : ImGuiDrawing F) (p : Option Addr) : Bool :=
  match p with
  | none => false
  | some a =>
    match self.heap[a]? with
    | none => false
    | some c =>
      decide (c.material.shaderProgram = self.imguiShaderProgram_) && c.material.isTransparent

/-- Every pooled command is an ImGui command. -/
def AllImGui (self : ImGuiDrawing F) : Prop :=
  ∀ p ∈ self.freeCommandsPool_ ++ self.usedCommandsPool_, isImGuiCommand self p = true

instance (self : ImGuiDrawing F) : Decidable (PoolInv self) := by
  unfold PoolInv; infer_instance

instance (self : ImGuiDrawing F) : Decidable (Live self) := by
  unfold Live; infer_instance

instance (self : ImGuiDrawing F) : Decidable (AllImGui self) := by
  unfold AllImGui; infer_instance

/-- Both pools are empty. -/
def EmptyPools (self : ImGuiDrawing F) : Prop :=
  self.freeCommandsPool_ = [] ∧ self.usedCommandsPool_ = []

/-- States reachable from one with empty pools and an empty heap by calls of
`retrieveCommandFromPool` and `resetCommandPool`. -/
inductive Reachable : ImGuiDrawing F → Prop where
  | start (self : ImGuiDrawing F) : EmptyPools self → self.heap = [] → Reachable self
  | retrieve (self : ImGuiDrawing F) :
      Reachable self → Reachable (retrieveCommandFromPool self).2
  | reset (self : ImGuiDrawing F) : Reachable self → Reachable (resetCommandPool self)

/-- One frame of pool use: `resetCommandPool`, then `K` acquisitions. -/
def frame (K : Nat) (self : ImGuiDrawing F) : ImGuiDrawing F :=
  retrieveMany K (resetCommandPool self)

/-- A sequence of frames, given by the number of acquisitions of each. -/
def frames : List Nat → ImGuiDrawing F → ImGuiDrawing F
  | [], self => self
  | K :: rest, self => frames rest (frame K self)

/-- The pool entries after the swap-with-last removal of entry `i`, as
`retrieveCommandFromPool` computes them. -/
def swapRemoveAt (l : List (Option Addr)) (i : Nat) : List (Option Addr) :=
  let free1 := l.set i none
  let last := free1.getD (l.length - 1) none
  ((free1.set (l.length - 1) none).set i last).take (l.length - 1)

/-- The state after a call that recycles the entry at index `i`. -/
def recycled (self : ImGuiDrawing F) (i : Nat) (a : Addr) : ImGuiDrawing F :=
  { self with
    freeCommandsPool_ := swapRemoveAt self.freeCommandsPool_ i
    usedCommandsPool_ := self.usedCommandsPool_ ++ [some a] }

/-- The state after a call that allocates. -/
def grown (self : ImGuiDrawing F) : ImGuiDrawing F :=
  { self with
    heap := self.heap ++ [setupRenderCmd self (RenderCommand.new F)]
    usedCommandsPool_ := self.usedCommandsPool_ ++ [some self.heap.length] }

/-! ## Writing to a command through a reference -/

/-- Apply `f` to the command at address `a` (a write through
`RenderCommand &`); the pools are untouched. -/
def updateCommand (self : ImGuiDrawing F) (a : Addr) (f : RenderCommand F → RenderCommand F) :
    ImGuiDrawing F :=
  match self.heap[a]? with
  | some c => { self with heap := self.heap.set a (f c) }
  | none => self

/-- Append calls to the event log. -/
def logEvents (self : ImGuiDrawing F) (es : List Event) : ImGuiDrawing F :=
  { self with events := self.events ++ es }

/-- The address held by a pointer that the code dereferences.  The pointers
dereferenced by `draw` come from `retrieveCommandFromPool`, which never
returns null. -/
def deref (p : Option Addr) : Addr := p.getD 0

/-- `material().setTexture(texture)`. -/
def setTexture (texture : Option Nat) (c : RenderCommand F) : RenderCommand F :=
  { c with material := { c.material with texture := texture } }

/-- `material().uniform("projection")->setFloatVector(data)`. -/
def setProjection (data : List F) (c : RenderCommand F) : RenderCommand F :=
  { c with material := { c.material with projection := some data } }

/-- `geometry().shareVbo(other)`. -/
def shareVbo (other : Option Addr) (c : RenderCommand F) : RenderCommand F :=
  { c with geometry := { c.geometry with sharedVbo := other } }

/-- `geometry().shareIbo(other)`. -/
def shareIbo (other : Option Addr) (c : RenderCommand F) : RenderCommand F :=
  { c with geometry := { c.geometry with sharedIbo := other } }

/-- `geometry().setNumIndices(numIndices)`. -/
def setNumIndices (numIndices : Nat) (c : RenderCommand F) : RenderCommand F :=
  { c with geometry := { c.geometry with numIndices := numIndices } }

/-- `geometry().setFirstIndex(firstIndex)`. -/
def setFirstIndex (firstIndex : Nat) (c : RenderCommand F) : RenderCommand F :=
  { c with geometry := { c.geometry with firstIndex := firstIndex } }

/-- `setLayer(layer)`. -/
def setLayer (layer : Nat) (c : RenderCommand F) : RenderCommand F :=
  { c with layer := layer }

/-- `setScissor(x, y, width, height)`. -/
def setScissor (x y width height : Int) (c : RenderCommand F) : RenderCommand F :=
  { c with scissor := some (x, y, width, height) }

/-! ## ImGui draw data -/

/-- The operations `draw` applies to `GLfloat` values, left uninterpreted. -/
class GLfloatOps (F : Type) where
  /-- Product of two floats. -/
  mul : F → F → F
  /-- Difference of two floats. -/
  sub : F → F → F
  /-- Conversion of an `int` operand to float. -/
  ofInt : Int → F
  /-- Comparison `a < b`. -/
  lt : F → F → Bool
  /-- Comparison `a >= b`. -/
  ge : F → F → Bool
  /-- Comparison `a != b`. -/
  ne : F → F → Bool
  /-- The literal `0.0f`. -/
  zero : F
  /-- Conversion `static_cast<int>` (also `GLint`, `GLsizei`). -/
  toInt : F → Int

/-- `ImVec2`. -/
structure ImVec2 (F : Type) where
  x : F
  y : F
deriving DecidableEq, Repr

/-- `ImVec4`. -/
structure ImVec4 (F : Type) where
  x : F
  y : F
  z : F
  w : F
deriving DecidableEq, Repr

/-- `ImDrawVert`. -/
structure ImDrawVert (F : Type) where
  pos : ImVec2 F
  uv : ImVec2 F
  col : Nat
deriving DecidableEq, Repr

/-- `ImDrawCmd`: the fields `draw` reads. -/
structure ImDrawCmd (F : Type) where
  ElemCount : Nat
  ClipRect : ImVec4 F
  TextureId : Option Nat
deriving DecidableEq, Repr

/-- `ImDrawList`: the three buffers; `X.Size` is the length of `X`. -/
structure ImDrawList (F : Type) where
  CmdBuffer : List (ImDrawCmd F)
  IdxBuffer : List Nat
  VtxBuffer : List (ImDrawVert F)
deriving DecidableEq, Repr

/-- `ImDrawData`; `CmdListsCount` is the length of `CmdLists`. -/
structure ImDrawData (F : Type) where
  CmdLists : List (ImDrawList F)
  DisplayPos : ImVec2 F
  DisplaySize : ImVec2 F
  FramebufferScale : ImVec2 F
deriving DecidableEq, Repr

/-- `ImDrawData::ScaleClipRects` of the ImGui library, on one command. -/
def scaleClipRect [GLfloatOps F] (fbScale : ImVec2 F) (cmd : ImDrawCmd F) : ImDrawCmd F :=
  { cmd with ClipRect :=
      { x := GLfloatOps.mul cmd.ClipRect.x fbScale.x
        y := GLfloatOps.mul cmd.ClipRect.y fbScale.y
        z := GLfloatOps.mul cmd.ClipRect.z fbScale.x
        w := GLfloatOps.mul cmd.ClipRect.w fbScale.y } }

/-- `ImDrawData::ScaleClipRects` of the ImGui library. -/
def ScaleClipRects [GLfloatOps F] (drawData : ImDrawData F) (fbScale : ImVec2 F) :
    ImDrawData F :=
  { drawData with CmdLists := drawData.CmdLists.map (fun (l : ImDrawList F) =>
      { l with CmdBuffer := l.CmdBuffer.map (scaleClipRect fbScale) }) }

/-! ## `ImGuiDrawing::draw(RenderQueue &)` -/

/-- The variables that `draw(RenderQueue &)` carries through its loops: the
object, the render queue (the addresses passed to `addCommand`, in order),
`numCmd` and `firstIndex`. -/
structure DrawState (F : Type) where
  self : ImGuiDrawing F
  renderQueue : List Addr
  numCmd : Nat
  firstIndex : Nat

/-- The values fixed for one call of `draw`: `fbWidth`, `fbHeight`, `pos`,
`io.DisplaySize` and the constant `DrawableNode::LayerBase::HUD` (whose
declaration is not among the sources). -/
structure DrawEnv (F : Type) where
  HUD : Nat
  fbWidth : Int
  fbHeight : Int
  pos : ImVec2 F
  ioDisplaySize : ImVec2 F

/-- The local `clipRect` of the inner loop. -/
def clipRectOf [GLfloatOps F] (env : DrawEnv F) (imCmd : ImDrawCmd F) : ImVec4 F :=
  { x := GLfloatOps.sub imCmd.ClipRect.x env.pos.x
    y := GLfloatOps.sub imCmd.ClipRect.y env.pos.y
    z := GLfloatOps.sub imCmd.ClipRect.z env.pos.x
    w := GLfloatOps.sub imCmd.ClipRect.w env.pos.y }

/-- The clip test `clipRect.x < fbWidth && clipRect.y < fbHeight &&
clipRect.z >= 0.0f && clipRect.w >= 0.0f`. -/
def clipTest [GLfloatOps F] (env : DrawEnv F) (imCmd : ImDrawCmd F) : Bool :=
  let clipRect := clipRectOf env imCmd
  GLfloatOps.lt clipRect.x (GLfloatOps.ofInt env.fbWidth) &&
    GLfloatOps.lt clipRect.y (GLfloatOps.ofInt env.fbHeight) &&
    GLfloatOps.ge clipRect.z GLfloatOps.zero &&
    GLfloatOps.ge clipRect.w GLfloatOps.zero

/-- The writes of the inner loop body to `currCmd` when the clip test
passes (lines 220 to 232), as one function of the command. -/
def configureCmd [GLfloatOps F] (env : DrawEnv F) (firstCmd : Addr) (cmdIdx : Nat)
    (imCmd : ImDrawCmd F) (numCmd firstIndex : Nat) (c : RenderCommand F) : RenderCommand F :=
  let clipRect := clipRectOf env imCmd
  let c1 := setScissor (GLfloatOps.toInt clipRect.x)
    (GLfloatOps.toInt (GLfloatOps.sub (GLfloatOps.ofInt env.fbHeight) clipRect.w))
    (GLfloatOps.toInt (GLfloatOps.sub clipRect.z clipRect.x))
    (GLfloatOps.toInt (GLfloatOps.sub clipRect.w clipRect.y)) c
  let c2 := if cmdIdx > 0 then shareIbo (some firstCmd) (shareVbo (some firstCmd) c1) else c1
  let c3 := setNumIndices imCmd.ElemCount c2
  let c4 := setFirstIndex firstIndex c3
  let c5 := setLayer ((env.HUD + numCmd) % 2 ^ 32) c4
  setTexture imCmd.TextureId c5

/-- Line 215: `currCmd = (cmdIdx == 0) ? firstCmd : *retrieveCommandFromPool()`. -/
def acquireCmd (firstCmd : Addr) (cmdIdx : Nat) (self : ImGuiDrawing F) :
    Addr × ImGuiDrawing F :=
  if cmdIdx = 0 then (firstCmd, self)
  else (deref (retrieveCommandFromPool self).1, (retrieveCommandFromPool self).2)

/-- One iteration of the inner loop (lines 214 to 237). -/
def drawCmd [GLfloatOps F] (env : DrawEnv F) (firstCmd : Addr) (cmdIdx : Nat)
    (imCmd : ImDrawCmd F) (st : DrawState F) : DrawState F :=
  let currCmd := (acquireCmd firstCmd cmdIdx st.self).1
  let self1 := (acquireCmd firstCmd cmdIdx st.self).2
  let st1 : DrawState F :=
    if clipTest env imCmd then
      let self2 := updateCommand self1 currCmd
        (configureCmd env firstCmd cmdIdx imCmd st.numCmd st.firstIndex)
      { st with
        self := logEvents self2 [Event.addCommand currCmd]
        renderQueue := st.renderQueue ++ [currCmd] }
    else { st with self := self1 }
  { st1 with
    firstIndex := (st1.firstIndex + imCmd.ElemCount) % 2 ^ 16
    numCmd := (st1.numCmd + 1) % 2 ^ 32 }

/-- The inner loop (line 212), from index `cmdIdx` on. -/
def drawCmds [GLfloatOps F] (env : DrawEnv F) (firstCmd : Addr) :
    List (ImDrawCmd F) → Nat → DrawState F → DrawState F
  | [], _, st => st
  | imCmd :: rest, cmdIdx, st =>
    drawCmds env firstCmd rest (cmdIdx + 1) (drawCmd env firstCmd cmdIdx imCmd st)

/-- The outer loop body before the inner loop (lines 191 to 210): the first
command of the list is acquired and receives the vertex and index upload. -/
def beginList [GLfloatOps F] (env : DrawEnv F) (imCmdList : ImDrawList F)
    (self : ImGuiDrawing F) : Addr × ImGuiDrawing F :=
  let numElements := sizeofImDrawVert / sizeofGLfloat
  let firstCmd := deref (retrieveCommandFromPool self).1
  let self1 := (retrieveCommandFromPool self).2
  let self2 :=
    if GLfloatOps.ne self1.lastFrameWidth_ env.ioDisplaySize.x ||
        GLfloatOps.ne self1.lastFrameHeight_ env.ioDisplaySize.y then
      let s := updateCommand self1 firstCmd (setProjection self1.projectionMatrix_)
      { s with lastFrameWidth_ := env.ioDisplaySize.x, lastFrameHeight_ := env.ioDisplaySize.y }
    else self1
  let self3 := updateCommand self2 firstCmd (shareVbo none)
  let self4 := logEvents self3
    [Event.acquireVertexPointer firstCmd (imCmdList.VtxBuffer.length * numElements) numElements,
     Event.memcpyVertices firstCmd (imCmdList.VtxBuffer.length * numElements * sizeofGLfloat),
     Event.releaseVertexPointer firstCmd]
  let self5 := updateCommand self4 firstCmd (shareIbo none)
  let self6 := logEvents self5
    [Event.acquireIndexPointer firstCmd imCmdList.IdxBuffer.length,
     Event.memcpyIndices firstCmd (imCmdList.IdxBuffer.length * 2),
     Event.releaseIndexPointer firstCmd]
  (firstCmd, self6)

/-- One iteration of the outer loop (lines 191 to 238). -/
def drawList [GLfloatOps F] (env : DrawEnv F) (imCmdList : ImDrawList F)
    (st : DrawState F) : DrawState F :=
  let firstCmd := (beginList env imCmdList st.self).1
  let st1 := { st with self := (beginList env imCmdList st.self).2, firstIndex := 0 }
  drawCmds env firstCmd imCmdList.CmdBuffer 0 st1

/-- The outer loop (line 189). -/
def drawLists [GLfloatOps F] (env : DrawEnv F) :
    List (ImDrawList F) → DrawState F → DrawState F
  | [], st => st
  | imCmdList :: rest, st => drawLists env rest (drawList env imCmdList st)

/-- The environment computed at the top of `draw` (lines 178 to 188). -/
def drawEnv [GLfloatOps F] (HUD : Nat) (drawData : ImDrawData F) (ioDisplaySize : ImVec2 F) :
    DrawEnv F :=
  { HUD := HUD
    fbWidth := GLfloatOps.toInt (GLfloatOps.mul drawData.DisplaySize.x drawData.FramebufferScale.x)
    fbHeight := GLfloatOps.toInt (GLfloatOps.mul drawData.DisplaySize.y drawData.FramebufferScale.y)
    pos := drawData.DisplayPos
    ioDisplaySize := ioDisplaySize }

/-- `ImGuiDrawing::draw(RenderQueue &renderQueue)`: the object and the
render queue after the call.  `drawData` is `ImGui::GetDrawData()` and
`ioDisplaySize` is `ImGui::GetIO().DisplaySize`. -/
def draw [GLfloatOps F] (HUD : Nat) (drawData : ImDrawData F) (ioDisplaySize : ImVec2 F)
    (self : ImGuiDrawing F) (renderQueue : List Addr) : ImGuiDrawing F × List Addr :=
  let env := drawEnv HUD drawData ioDisplaySize
  if env.fbWidth ≤ 0 ∨ env.fbHeight ≤ 0 then (self, renderQueue)
  else
    let drawData1 := ScaleClipRects drawData drawData.FramebufferScale
    let self1 := resetCommandPool self
    let st := drawLists env drawData1.CmdLists
      { self := self1, renderQueue := renderQueue, numCmd := 0, firstIndex := 0 }
    (st.self, st.renderQueue)

/-- Floats interpreted as integers: the instance used to evaluate `draw` on
concrete draw data whose coordinates are whole numbers. -/
instance intGLfloatOps : GLfloatOps Int where
  mul := fun a b => a * b
  sub := fun a b => a - b
  ofInt := fun a => a
  lt := fun a b => decide (a < b)
  ge := fun a b => decide (a ≥ b)
  ne := fun a b => decide (a ≠ b)
  zero := 0
  toInt := fun a => a

/-! ## Well-formed states and frame conditions -/

/-- The states the program can be in: the pool membership predicate, valid
owning pointers, and every pooled command an ImGui command. -/
def WellFormed (self : ImGuiDrawing F) : Prop :=
  PoolInv self ∧ Live self ∧ AllImGui self

instance (self : ImGuiDrawing F) : Decidable (WellFormed self) := by
  unfold WellFormed; infer_instance

/-- A command write that leaves the shader program and the transparency
flag of the material alone. -/
def KeepsShape (f : RenderCommand F → RenderCommand F) : Prop :=
  ∀ c, (f c).material.shaderProgram = c.material.shaderProgram ∧
    (f c).material.isTransparent = c.material.isTransparent

/-- From `s` to `t` the used pool only grew at its end, the ImGui shader
program is the same, and no command that was in the used pool of `s` has
been written to, except possibly the command `x`. -/
def ExtendsExcept (x : Option Addr) (s t : ImGuiDrawing F) : Prop :=
  (∃ ext, t.usedCommandsPool_ = s.usedCommandsPool_ ++ ext) ∧
  t.imguiShaderProgram_ = s.imguiShaderProgram_ ∧
  ∀ b, some b ∈ s.usedCommandsPool_ → some b ≠ x → t.heap[b]? = s.heap[b]?

/-- The addresses passed to `addCommand` by the inner loop when it uses the
commands `addrs` for the draw commands `cmds`. -/
def submittedOf [GLfloatOps F] (env : DrawEnv F) (addrs : List Addr)
    (cmds : List (ImDrawCmd F)) : List Addr :=
  ((addrs.zip cmds).filter (fun p => clipTest env p.2)).map Prod.fst

/-- Sum of `ElemCount` over the draw commands before index `k`. -/
def elemsBefore (cmds : List (ImDrawCmd F)) (k : Nat) : Nat :=
  ((cmds.take k).map (fun (c : ImDrawCmd F) => c.ElemCount)).sum

/-- The upload calls of `beginList` on the first command of a list. -/
def uploadEvents (firstCmd : Addr) (imCmdList : ImDrawList F) : List Event :=
  [Event.acquireVertexPointer firstCmd
      (imCmdList.VtxBuffer.length * (sizeofImDrawVert / sizeofGLfloat))
      (sizeofImDrawVert / sizeofGLfloat),
   Event.memcpyVertices firstCmd
      (imCmdList.VtxBuffer.length * (sizeofImDrawVert / sizeofGLfloat) * sizeofGLfloat),
   Event.releaseVertexPointer firstCmd,
   Event.acquireIndexPointer firstCmd imCmdList.IdxBuffer.length,
   Event.memcpyIndices firstCmd (imCmdList.IdxBuffer.length * 2),
   Event.releaseIndexPointer firstCmd]

/-- The part of `beginList` that sets the projection uniform (lines 195 to
200). -/
def projectionStep [GLfloatOps F] (env : DrawEnv F) (firstCmd : Addr) (self1 : ImGuiDrawing F) :
    ImGuiDrawing F :=
  if GLfloatOps.ne self1.lastFrameWidth_ env.ioDisplaySize.x ||
      GLfloatOps.ne self1.lastFrameHeight_ env.ioDisplaySize.y then
    let s := updateCommand self1 firstCmd (setProjection self1.projectionMatrix_)
    { s with lastFrameWidth_ := env.ioDisplaySize.x, lastFrameHeight_ := env.ioDisplaySize.y }
  else self1

/-- The loop state at the top of the outer loop of `draw`: the pool has been
reset, `numCmd` is `0`. -/
def drawStart (self : ImGuiDrawing F) (renderQueue : List Addr) : DrawState F :=
  { self := resetCommandPool self, renderQueue := renderQueue, numCmd := 0, firstIndex := 0 }

/-- The draw lists that the loops of `draw` read: those of the draw data
after `ScaleClipRects`. -/
def scaledLists [GLfloatOps F] (drawData : ImDrawData F) : List (ImDrawList F) :=
  (ScaleClipRects drawData drawData.FramebufferScale).CmdLists

/-- The early return of `draw`: `fbWidth <= 0 || fbHeight <= 0`. -/
def degenerate [GLfloatOps F] (HUD : Nat) (drawData : ImDrawData F)
    (ioDisplaySize : ImVec2 F) : Prop :=
  (drawEnv HUD drawData ioDisplaySize).fbWidth ≤ 0 ∨
    (drawEnv HUD drawData ioDisplaySize).fbHeight ≤ 0

instance [GLfloatOps F] (HUD : Nat) (drawData : ImDrawData F) (ioDisplaySize : ImVec2 F) :
    Decidable (degenerate HUD drawData ioDisplaySize) := by
  unfold degenerate; infer_instance

/-- The use of a command over two frames: it is acquired, its texture, index
range and scissor rectangle are set, the pool is reset, and a command is
acquired again. -/
def recycleScenario (self : ImGuiDrawing F) (texture : Option Nat) (numIndices firstIndex : Nat)
    (x y w h : Int) : Option Addr × ImGuiDrawing F :=
  let r1 := retrieveCommandFromPool self
  let self2 := updateCommand r1.2 (deref r1.1)
    (fun c => setScissor x y w h (setFirstIndex firstIndex (setNumIndices numIndices
      (setTexture texture c))))
  retrieveCommandFromPool (resetCommandPool self2)

/-! ## What the render queue reads of a submitted command -/

/-- The fields of a submitted command that `draw(RenderQueue &)` sets for the
render queue: scissor rectangle, texture, number of indices, first index and
layer. -/
structure SubmittedView where
  scissor : Option (Int × Int × Int × Int)
  texture : Option Nat
  numIndices : Nat
  firstIndex : Nat
  layer : Nat
deriving DecidableEq, Repr

/-- The view of a command. -/
def viewOf (c : RenderCommand F) : SubmittedView :=
  { scissor := c.scissor, texture := c.material.texture,
    numIndices := c.geometry.numIndices, firstIndex := c.geometry.firstIndex,
    layer := c.layer }

/-- The view of the command at address `a`, if there is one. -/
def viewAt (self : ImGuiDrawing F) (a : Addr) : Option SubmittedView :=
  (self.heap[a]?).map viewOf

/-- The four arguments of `setScissor` and of `GLScissorTest::enable` for a
draw command (lines 220 to 221 and 292 to 293). -/
def scissorOf [GLfloatOps F] (env : DrawEnv F) (imCmd : ImDrawCmd F) : Int × Int × Int × Int :=
  let clipRect := clipRectOf env imCmd
  (GLfloatOps.toInt clipRect.x,
   GLfloatOps.toInt (GLfloatOps.sub (GLfloatOps.ofInt env.fbHeight) clipRect.w),
   GLfloatOps.toInt (GLfloatOps.sub clipRect.z clipRect.x),
   GLfloatOps.toInt (GLfloatOps.sub clipRect.w clipRect.y))

/-- The view that the inner loop body gives the command it submits for
`imCmd` when the loop variables are `numCmd` and `firstIndex`. -/
def expectedView [GLfloatOps F] (env : DrawEnv F) (imCmd : ImDrawCmd F)
    (numCmd firstIndex : Nat) : SubmittedView :=
  { scissor := some (scissorOf env imCmd), texture := imCmd.TextureId,
    numIndices := imCmd.ElemCount, firstIndex := firstIndex,
    layer := (env.HUD + numCmd) % 2 ^ 32 }

/-- The views of the commands submitted by the inner loop, in order, when it
starts with the loop variables `numCmd` and `firstIndex`. -/
def expectedViews [GLfloatOps F] (env : DrawEnv F) :
    List (ImDrawCmd F) → Nat → Nat → List SubmittedView
  | [], _, _ => []
  | imCmd :: rest, numCmd, firstIndex =>
    (if clipTest env imCmd then [expectedView env imCmd numCmd firstIndex] else []) ++
      expectedViews env rest ((numCmd + 1) % 2 ^ 32) ((firstIndex + imCmd.ElemCount) % 2 ^ 16)

/-- The views of the commands submitted by the outer loop, in order, when it
starts with the loop variable `numCmd`. -/
def expectedAll [GLfloatOps F] (env : DrawEnv F) :
    List (ImDrawList F) → Nat → List SubmittedView
  | [], _ => []
  | L :: rest, numCmd =>
    expectedViews env L.CmdBuffer numCmd 0 ++
      expectedAll env rest ((numCmd + L.CmdBuffer.length) % 2 ^ 32)

/-- Number of draw commands in a sequence of draw lists. -/
def countCmds (lists : List (ImDrawList F)) : Nat :=
  (lists.map (fun (L : ImDrawList F) => L.CmdBuffer.length)).sum

/-! ## `ImGuiDrawing::draw()`, the immediate-mode path -/

/-- Value of the OpenGL enumerator of the same name. -/
def GL_BLEND : Nat := 3042
/-- Value of the OpenGL enumerator of the same name. -/
def GL_SRC_ALPHA : Nat := 770
/-- Value of the OpenGL enumerator of the same name. -/
def GL_ONE_MINUS_SRC_ALPHA : Nat := 771
/-- Value of the OpenGL enumerator of the same name. -/
def GL_STREAM_DRAW : Nat := 35040
/-- Value of the OpenGL enumerator of the same name. -/
def GL_TEXTURE_2D : Nat := 3553
/-- Value of the OpenGL enumerator of the same name. -/
def GL_UNSIGNED_SHORT : Nat := 5123
/-- Value of the OpenGL enumerator of the same name. -/
def GL_UNSIGNED_INT : Nat := 5125
/-- Size in bytes of an `ImDrawIdx` (the index buffer is copied as
`GLushort` by `draw(RenderQueue &)`). -/
def sizeofImDrawIdx : Nat := 2

/-- Conversion `static_cast<GLsizei>` of an `unsigned int`. -/
def toGLsizei (n : Nat) : Int :=
  if n % 2 ^ 32 < 2 ^ 31 then ((n % 2 ^ 32 : Nat) : Int) else ((n % 2 ^ 32 : Nat) : Int) - 2 ^ 32

/-- The calls `draw()` makes on OpenGL and on the buffer, shader and scissor
wrappers.  `useProgram` records the shader program on which `use()` is
called, `glBindTexture` the handle passed to it; the `indices` argument of
`glDrawElements` is the `const ImDrawIdx *` offset, counted in `ImDrawIdx`
elements from `nullptr`. -/
inductive GLCall where
  | glIsEnabled (cap : Nat)
  | glEnable (cap : Nat)
  | glBlendFunc (sfactor dfactor : Nat)
  | vboBufferData (size : Nat) (usage : Nat)
  | iboBufferData (size : Nat) (usage : Nat)
  | useProgram (program : Nat)
  | defineVertexFormat
  | scissorEnable (x y width height : Int)
  | glBindTexture (target : Nat) (handle : Nat)
  | glDrawElements (mode : Nat) (count : Int) (type : Nat) (indices : Nat)
  | scissorDisable
  | glDisable (cap : Nat)
deriving DecidableEq, Repr

/-- The variables that `draw()` carries through its inner loop: the calls
made so far and `firstIndex`. -/
structure ImmediateState where
  calls : List GLCall
  firstIndex : Nat
deriving DecidableEq, Repr

/-- The values fixed for one call of `draw()`: `fbWidth`, `fbHeight` and
`pos`; `draw()` uses neither `HUD` nor `io.DisplaySize`. -/
def immediateEnv [GLfloatOps F] (drawData : ImDrawData F) : DrawEnv F :=
  { HUD := 0
    fbWidth := GLfloatOps.toInt (GLfloatOps.mul drawData.DisplaySize.x drawData.FramebufferScale.x)
    fbHeight := GLfloatOps.toInt (GLfloatOps.mul drawData.DisplaySize.y drawData.FramebufferScale.y)
    pos := drawData.DisplayPos
    ioDisplaySize := drawData.DisplaySize }

/-- One iteration of the inner loop of `draw()` (lines 287 to 297).  The
result is `none` when the iteration dereferences a null pointer: line 294
calls `glHandle()` on the `GLTexture *` that `TextureId` is cast to.
`glHandle` gives the OpenGL handle of the texture at an address
(`GLTexture::glHandle`, a class that is not among the sources); a `TextureId`
that is not null is the address of a texture. -/
def drawImmediateCmd [GLfloatOps F] (glHandle : Nat → Nat) (env : DrawEnv F)
    (imCmd : ImDrawCmd F) (st : ImmediateState) : Option ImmediateState :=
  let clipRect := clipRectOf env imCmd
  let st1 : Option ImmediateState :=
    if clipTest env imCmd then
      match imCmd.TextureId with
      | none => none
      | some texture =>
        some { st with calls := st.calls ++
          [GLCall.scissorEnable (GLfloatOps.toInt clipRect.x)
             (GLfloatOps.toInt (GLfloatOps.sub (GLfloatOps.ofInt env.fbHeight) clipRect.w))
             (GLfloatOps.toInt (GLfloatOps.sub clipRect.z clipRect.x))
             (GLfloatOps.toInt (GLfloatOps.sub clipRect.w clipRect.y)),
           GLCall.glBindTexture GL_TEXTURE_2D (glHandle texture),
           GLCall.glDrawElements GL_TRIANGLES (toGLsizei imCmd.ElemCount)
             (if sizeofImDrawIdx = 2 then GL_UNSIGNED_SHORT else GL_UNSIGNED_INT)
             st.firstIndex] }
    else some st
  match st1 with
  | none => none
  | some s => some { s with firstIndex := s.firstIndex + imCmd.ElemCount }

/-- The inner loop of `draw()` (line 285). -/
def drawImmediateCmds [GLfloatOps F] (glHandle : Nat → Nat) (env : DrawEnv F) :
    List (ImDrawCmd F) → ImmediateState → Option ImmediateState
  | [], st => some st
  | imCmd :: rest, st =>
    match drawImmediateCmd glHandle env imCmd st with
    | none => none
    | some st1 => drawImmediateCmds glHandle env rest st1

/-- One iteration of the outer loop of `draw()` (lines 277 to 298); the
result is the list of calls made so far, or `none` when the iteration
dereferences a null pointer: lines 280 to 283 dereference `vbo_`, `ibo_`,
`imguiShaderProgram_` and `imguiShaderAttributes_`. -/
def drawImmediateList [GLfloatOps F] (glHandle : Nat → Nat) (env : DrawEnv F)
    (self : ImGuiDrawing F) (imCmdList : ImDrawList F) (calls : List GLCall) :
    Option (List GLCall) :=
  match self.vbo_, self.ibo_, self.imguiShaderProgram_, self.imguiShaderAttributes_ with
  | some _, some _, some program, some _ =>
    let calls1 := calls ++
      [GLCall.vboBufferData (imCmdList.VtxBuffer.length * sizeofImDrawVert) GL_STREAM_DRAW,
       GLCall.iboBufferData (imCmdList.IdxBuffer.length * sizeofImDrawIdx) GL_STREAM_DRAW,
       GLCall.useProgram program,
       GLCall.defineVertexFormat]
    match drawImmediateCmds glHandle env imCmdList.CmdBuffer
      { calls := calls1, firstIndex := 0 } with
    | none => none
    | some st => some st.calls
  | _, _, _, _ => none

/-- The outer loop of `draw()` (line 275). -/
def drawImmediateLists [GLfloatOps F] (glHandle : Nat → Nat) (env : DrawEnv F)
    (self : ImGuiDrawing F) : List (ImDrawList F) → List GLCall → Option (List GLCall)
  | [], calls => some calls
  | imCmdList :: rest, calls =>
    match drawImmediateList glHandle env self imCmdList calls with
    | none => none
    | some calls1 => drawImmediateLists glHandle env self rest calls1

/-- `ImGuiDrawing::draw()`: the calls it makes, in order, or `none` when it
dereferences a null pointer.  `blendWasEnabled` is the value
`glIsEnabled(GL_BLEND)` returns. -/
def drawImmediate [GLfloatOps F] (glHandle : Nat → Nat) (drawData : ImDrawData F)
    (self : ImGuiDrawing F) (blendWasEnabled : Bool) : Option (List GLCall) :=
  let env := immediateEnv drawData
  if env.fbWidth ≤ 0 ∨ env.fbHeight ≤ 0 then some []
  else
    let drawData1 := ScaleClipRects drawData drawData.FramebufferScale
    let calls1 := [GLCall.glIsEnabled GL_BLEND, GLCall.glEnable GL_BLEND,
      GLCall.glBlendFunc GL_SRC_ALPHA GL_ONE_MINUS_SRC_ALPHA]
    match drawImmediateLists glHandle env self drawData1.CmdLists calls1 with
    | none => none
    | some calls2 =>
      let calls3 := calls2 ++ [GLCall.scissorDisable]
      if blendWasEnabled = false then some (calls3 ++ [GLCall.glDisable GL_BLEND])
      else some calls3

/-- The members that `draw()` dereferences exist: `vbo_`, `ibo_`,
`imguiShaderProgram_` and `imguiShaderAttributes_` are not null. -/
def HasBuffers (self : ImGuiDrawing F) : Prop :=
  self.vbo_ ≠ none ∧ self.ibo_ ≠ none ∧ self.imguiShaderProgram_ ≠ none ∧
    self.imguiShaderAttributes_ ≠ none

instance (self : ImGuiDrawing F) : Decidable (HasBuffers self) := by
  unfold HasBuffers; infer_instance

/-- Every draw command of the lists that passes the clip test has a non-null
`TextureId`. -/
def TexturesNotNull [GLfloatOps F] (env : DrawEnv F) (lists : List (ImDrawList F)) : Prop :=
  ∀ L ∈ lists, ∀ c ∈ L.CmdBuffer, clipTest env c = true → c.TextureId ≠ none

instance [GLfloatOps F] (env : DrawEnv F) (lists : List (ImDrawList F)) :
    Decidable (TexturesNotNull env lists) := by
  unfold TexturesNotNull; infer_instance

/-- The three calls of the inner loop of `draw()` for a draw command that
passes the clip test and has the texture at address `texture`, when
`firstIndex` is the index offset. -/
def drawCmdCalls [GLfloatOps F] (glHandle : Nat → Nat) (env : DrawEnv F) (imCmd : ImDrawCmd F)
    (texture : Nat) (firstIndex : Nat) : List GLCall :=
  [GLCall.scissorEnable (scissorOf env imCmd).1 (scissorOf env imCmd).2.1
     (scissorOf env imCmd).2.2.1 (scissorOf env imCmd).2.2.2,
   GLCall.glBindTexture GL_TEXTURE_2D (glHandle texture),
   GLCall.glDrawElements GL_TRIANGLES (toGLsizei imCmd.ElemCount)
     (if sizeofImDrawIdx = 2 then GL_UNSIGNED_SHORT else GL_UNSIGNED_INT) firstIndex]

/-- The four calls of the outer loop of `draw()` before its inner loop, for
the shader program at address `program`. -/
def drawListCalls (program : Nat) (imCmdList : ImDrawList F) : List GLCall :=
  [GLCall.vboBufferData (imCmdList.VtxBuffer.length * sizeofImDrawVert) GL_STREAM_DRAW,
   GLCall.iboBufferData (imCmdList.IdxBuffer.length * sizeofImDrawIdx) GL_STREAM_DRAW,
   GLCall.useProgram program,
   GLCall.defineVertexFormat]

/-- A draw call as the two paths are compared: scissor rectangle, handle of
the texture, element count and first index offset in index units. -/
structure DrawTuple where
  scissor : Option (Int × Int × Int × Int)
  texture : Option Nat
  count : Int
  firstIndex : Nat
deriving DecidableEq, Repr

/-- The scissor rectangle and the texture handle in effect in the OpenGL
context (`none`: no scissor rectangle, no texture bound). -/
structure GLState where
  scissor : Option (Int × Int × Int × Int)
  texture : Option Nat
deriving DecidableEq, Repr

/-- The effect of one call on the OpenGL state and on the sequence of draw
calls made so far. -/
def glStep (acc : GLState × List DrawTuple) : GLCall → GLState × List DrawTuple
  | GLCall.scissorEnable x y w h => ({ acc.1 with scissor := some (x, y, w, h) }, acc.2)
  | GLCall.scissorDisable => ({ acc.1 with scissor := none }, acc.2)
  | GLCall.glBindTexture _ handle => ({ acc.1 with texture := some handle }, acc.2)
  | GLCall.glDrawElements _ count _ indices =>
    (acc.1, acc.2 ++ [⟨acc.1.scissor, acc.1.texture, count, indices⟩])
  | _ => acc

/-- The sequence of `glDrawElements` calls in a sequence of calls, each with
the scissor rectangle and the texture handle in effect when it is made. -/
def drawTuples (calls : List GLCall) : List DrawTuple :=
  (calls.foldl glStep ({ scissor := none, texture := none }, [])).2

/-- The tuple of a command added to the render queue: its scissor rectangle,
the handle of its texture (none for a null texture), its number of indices
and its first index. -/
def queueTuple (glHandle : Nat → Nat) (c : RenderCommand F) : DrawTuple :=
  ⟨c.scissor, c.material.texture.map glHandle, (c.geometry.numIndices : Int),
    c.geometry.firstIndex⟩

/-- The tuple of a view. -/
def tupleOfView (glHandle : Nat → Nat) (v : SubmittedView) : DrawTuple :=
  ⟨v.scissor, v.texture.map glHandle, (v.numIndices : Int), v.firstIndex⟩

/-- The draw calls of the inner loop of `draw()`, in order, when it starts
with `firstIndex` and dereferences no null pointer: one per draw command
passing the clip test. -/
def immediateTuples [GLfloatOps F] (glHandle : Nat → Nat) (env : DrawEnv F) :
    List (ImDrawCmd F) → Nat → List DrawTuple
  | [], _ => []
  | imCmd :: rest, firstIndex =>
    (if clipTest env imCmd then
        [⟨some (scissorOf env imCmd), imCmd.TextureId.map glHandle,
          toGLsizei imCmd.ElemCount, firstIndex⟩]
      else []) ++
      immediateTuples glHandle env rest (firstIndex + imCmd.ElemCount)

/-- The draw calls of the outer loop of `draw()`, in order, when it
dereferences no null pointer. -/
def immediateAll [GLfloatOps F] (glHandle : Nat → Nat) (env : DrawEnv F) :
    List (ImDrawList F) → List DrawTuple
  | [] => []
  | L :: rest => immediateTuples glHandle env L.CmdBuffer 0 ++ immediateAll glHandle env rest

/-! ## Concrete inputs -/

/-- The object after construction, with shader program `7`. -/
def exampleInit : ImGuiDrawing Int := ImGuiDrawing.init true (some 7) 0

/-- A pool with two recycled commands in the free pool. -/
def examplePool : ImGuiDrawing Int := resetCommandPool (retrieveMany 2 exampleInit)

/-- A draw command with `n` indices and texture `t`, clipped to the
rectangle from `(0, 0)` to `(10, 10)`. -/
def exampleCmd (n : Nat) (t : Nat) : ImDrawCmd Int :=
  { ElemCount := n, ClipRect := ⟨0, 0, 10, 10⟩, TextureId := some t }

/-- Draw data for a display of 100 by 100 pixels at scale 1. -/
def exampleData (lists : List (ImDrawList Int)) : ImDrawData Int :=
  { CmdLists := lists, DisplayPos := ⟨0, 0⟩, DisplaySize := ⟨100, 100⟩,
    FramebufferScale := ⟨1, 1⟩ }

/-- A draw list of two commands with different textures. -/
def twoTextureList : ImDrawList Int :=
  { CmdBuffer := [exampleCmd 6 1, exampleCmd 6 2], IdxBuffer := List.replicate 12 0,
    VtxBuffer := [] }

/-- A draw list whose two commands have `65538` and `6` indices; its index
buffer holds `65544` indices. -/
def largeList : ImDrawList Int :=
  { CmdBuffer := [exampleCmd 65538 1, exampleCmd 6 1], IdxBuffer := List.replicate 65544 0,
    VtxBuffer := [] }

/-- A draw command with `n` indices and texture `t` whose clip rectangle lies
to the right of the 100 by 100 framebuffer: it fails the clip test. -/
def exampleCulledCmd (n : Nat) (t : Nat) : ImDrawCmd Int :=
  { ElemCount := n, ClipRect := ⟨200, 0, 210, 10⟩, TextureId := some t }

/-- A draw list of three commands with `6`, `3` and `9` indices, the second
of which fails the clip test. -/
def culledList : ImDrawList Int :=
  { CmdBuffer := [exampleCmd 6 1, exampleCulledCmd 3 1, exampleCmd 9 2],
    IdxBuffer := List.replicate 18 0, VtxBuffer := [] }

/-- The object after construction without scene graph, with shader program
`7`: its buffers and shader attributes exist. -/
def exampleImmediateInit : ImGuiDrawing Int := ImGuiDrawing.init false (some 7) 0

/-- The handle of the texture at address `t`, for the concrete inputs. -/
def exampleHandle (t : Nat) : Nat := 1000 + t

/-- A draw list of one command that passes the clip test and has a null
`TextureId`. -/
def nullTextureList : ImDrawList Int :=
  { CmdBuffer := [{ ElemCount := 6, ClipRect := ⟨0, 0, 10, 10⟩, TextureId := none }],
    IdxBuffer := List.replicate 6 0, VtxBuffer := [] }

end ncine

/-! ## `ncRenderCommand` and the render queue -/

/-- `ncRenderMaterial` (`src/include/ncRenderCommand.h`): the texture id; the
colour is not read by the queue. -/
structure ncRenderMaterial where
  m_uTextureGLId : Nat
deriving DecidableEq, Repr

/-- `ncRenderCommand` (`src/include/ncRenderCommand.h`): the sort key, the
priority and the material; the transformation and the geometry are not read
by the queue. -/
structure ncRenderCommand where
  m_uSortKey : Nat
  m_iPriority : Int
  m_material : ncRenderMaterial
deriving DecidableEq, Repr

/-- `ncRenderCommand::SortKey`. -/
def ncRenderCommand.SortKey (self : ncRenderCommand) : Nat := self.m_uSortKey

/-- `ncRenderCommand::Priority`. -/
def ncRenderCommand.Priority (self : ncRenderCommand) : Int := self.m_iPriority

/-- `ncRenderCommand::SetPriority`. -/
def ncRenderCommand.SetPriority (self : ncRenderCommand) (iPriority : Int) : ncRenderCommand :=
  { self with m_iPriority := iPriority }

/-- Modelled from the spec: `ncRenderCommand::CalculateSortKey`, declared in the
header and defined in no source file here.  The spec makes the key "a
deterministic function of (layer, material identity, priority, ...)"; that
function is the parameter `keyOf`, and the layer, which the class does not
store, is an argument. -/
def ncRenderCommand.CalculateSortKey (keyOf : Nat → Nat → Int → Nat) (layer : Nat)
    (self : ncRenderCommand) : ncRenderCommand :=
  { self with m_uSortKey := keyOf layer self.m_material.m_uTextureGLId self.m_iPriority }

/-- An entry of the render queue: a non-owning reference to a command, that
is its address together with the command it points to. -/
abbrev QueueEntry := Nat × ncRenderCommand

/-- Modelled from the spec: `RenderQueue::addCommand`, which "appends a
non-owning reference"; the class is not among the sources. -/
def RenderQueue.addCommand (queue : List QueueEntry) (cmd : QueueEntry) : List QueueEntry :=
  queue ++ [cmd]

/-- Insertion of an entry before the first entry whose key is not smaller. -/
def RenderQueue.insertByKey (cmd : QueueEntry) : List QueueEntry → List QueueEntry
  | [] => [cmd]
  | d :: rest =>
    if cmd.2.SortKey ≤ d.2.SortKey then cmd :: d :: rest
    else d :: RenderQueue.insertByKey cmd rest

/-- Modelled from the spec: `RenderQueue::sortAndIssue`, which "stable-sorts
the collected references by `computeSortKey()`, then iterates in sorted order
calling `issue()` on each"; the class is not among the sources.  The result
is the list of entries in the order in which they are issued; the sort is an
insertion sort. -/
def RenderQueue.sortAndIssue : List QueueEntry → List QueueEntry
  | [] => []
  | cmd :: rest => RenderQueue.insertByKey cmd (RenderQueue.sortAndIssue rest)

/-- The entries of a queue whose sort key is `k`, in queue order. -/
def RenderQueue.withKey (k : Nat) (queue : List QueueEntry) : List QueueEntry :=
  queue.filter (fun c => decide (c.2.SortKey = k))

/-! ## `ncTimer` -/

/-- Number of values of an `unsigned long int` (LP64). -/
def ULONG_MODULUS : Nat := 2 ^ 64

/-- Difference `a - b` of two `unsigned long int`. -/
def ulongSub (a b : Nat) : Nat := (a % ULONG_MODULUS + ULONG_MODULUS - b % ULONG_MODULUS) % ULONG_MODULUS

/-- Sum `a + b` of two `unsigned long int`. -/
def ulongAdd (a b : Nat) : Nat := (a + b) % ULONG_MODULUS

/-- The members of `ncTimer`. -/
structure ncTimer where
  m_bRunning : Bool
  m_uStartTime : Nat
  m_uStopTime : Nat
  m_uTotal : Nat
deriving DecidableEq, Repr

namespace ncTimer

/-- `ncTimer::Reset`. -/
def Reset (_self : ncTimer) : ncTimer :=
  { m_bRunning := false, m_uStartTime := 0, m_uStopTime := 0, m_uTotal := 0 }

/-- `ncTimer::Continue`; `now` is the value `GetNow()` returns. -/
def Continue (now : Nat) (self : ncTimer) : ncTimer :=
  { self with m_bRunning := true, m_uStartTime := now }

/-- `ncTimer::Start`; `now` is the value `GetNow()` returns. -/
def Start (now : Nat) (self : ncTimer) : ncTimer :=
  Continue now (Reset self)

/-- `ncTimer::Stop`; `now` is the value `GetNow()` returns. -/
def Stop (now : Nat) (self : ncTimer) : ncTimer :=
  let self1 := { self with m_bRunning := false }
  let self2 := { self1 with m_uStopTime := now }
  { self2 with m_uTotal := ulongAdd self2.m_uTotal (ulongSub self2.m_uStopTime self2.m_uStartTime) }

/-- `ncTimer::GetInterval`; `now` is the value `GetNow()` returns. -/
def GetInterval (now : Nat) (self : ncTimer) : Nat :=
  if self.m_bRunning then ulongSub now self.m_uStartTime
  else ulongSub self.m_uStopTime self.m_uStartTime

/-- `ncTimer::GetTotal`. -/
def GetTotal (self : ncTimer) : Nat := self.m_uTotal

/-- A call made on a started timer, with the clock value at the call. -/
inductive Call where
  | stop (now : Nat)
  | resume (now : Nat)
deriving DecidableEq, Repr

/-- The clock value of a call. -/
def Call.time : Call → Nat
  | Call.stop now => now
  | Call.resume now => now

/-- The timer after a sequence of `Stop` and `Continue` calls. -/
def run (self : ncTimer) : List Call → ncTimer
  | [] => self
  | Call.stop now :: rest => run (Stop now self) rest
  | Call.resume now :: rest => run (Continue now self) rest

/-- The time during which the timer was running over a sequence of calls:
the sum of the lengths of the intervals in which `m_bRunning` was true, for a
timer that is running or not (`running`) and, when running, has been so since
`since`. -/
def runningTime (running : Bool) (since : Nat) : List Call → Nat
  | [] => 0
  | Call.stop now :: rest =>
    (if running then now - since else 0) + runningTime false since rest
  | Call.resume now :: rest =>
    if running then runningTime true since rest else runningTime true now rest

/-- The calls alternate, starting with `Stop` on a running timer or with
`Continue` on a stopped one. -/
def Alternating : Bool → List Call → Prop
  | _, [] => True
  | running, Call.stop _ :: rest => running = true ∧ Alternating false rest
  | running, Call.resume _ :: rest => running = false ∧ Alternating true rest

/-- The clock values of the calls do not decrease, from `t` on. -/
def Monotone (t : Nat) : List Call → Prop
  | [] => True
  | c :: rest => t ≤ c.time ∧ Monotone c.time rest

instance decMonotone : (t : Nat) → (l : List Call) → Decidable (Monotone t l)
  | _, [] => isTrue trivial
  | t, c :: rest => @instDecidableAnd _ _ (Nat.decLe t c.time) (decMonotone c.time rest)

instance decAlternating : (running : Bool) → (l : List Call) → Decidable (Alternating running l)
  | _, [] => isTrue trivial
  | running, Call.stop _ :: rest =>
    @instDecidableAnd _ _ (instDecidableEqBool running true) (decAlternating false rest)
  | running, Call.resume _ :: rest =>
    @instDecidableAnd _ _ (instDecidableEqBool running false) (decAlternating true rest)

end ncTimer

namespace ncine

/-! ## Theorems -/

/-! ### Pool: basic lemmas -/

theorem foldl_pushBack (l init : List (Option Addr)) :
    l.foldl (fun free command => free ++ [command]) init = init ++ l := by
  induction l generalizing init with
  | nil => simp
  | cons c l ih => simp [ih]

theorem resetCommandPool_free (self : ImGuiDrawing F) :
    (resetCommandPool self).freeCommandsPool_ =
      self.freeCommandsPool_ ++ self.usedCommandsPool_ := by
  simp [resetCommandPool, foldl_pushBack]

theorem resetCommandPool_used (self : ImGuiDrawing F) :
    (resetCommandPool self).usedCommandsPool_ = [] := rfl

theorem resetCommandPool_heap (self : ImGuiDrawing F) :
    (resetCommandPool self).heap = self.heap := rfl

theorem resetCommandPool_shader (self : ImGuiDrawing F) :
    (resetCommandPool self).imguiShaderProgram_ = self.imguiShaderProgram_ := rfl

theorem swapRemoveAt_last (pre : List (Option Addr)) (c : Option Addr) :
    swapRemoveAt (pre ++ [c]) pre.length = pre := by
  simp [swapRemoveAt]

theorem swapRemoveAt_mid (pre mid : List (Option Addr)) (c x : Option Addr) :
    swapRemoveAt (pre ++ c :: (mid ++ [x])) pre.length = pre ++ x :: mid := by
  have h1 : (pre ++ c :: (mid ++ [x])).length - 1 = pre.length + (mid.length + 1) := by
    simp
  simp only [swapRemoveAt, h1]
  apply List.ext_getElem
  · simp
  · intro k hk1 hk2
    simp at hk1 hk2
    simp [List.getElem_take, List.getElem_set, List.getElem_append,
      List.getD_eq_getElem?_getD, List.getElem?_set, List.getElem?_append]
    by_cases h : k < pre.length
    · simp [h]
    · simp only [h, dite_false]
      obtain ⟨j, rfl⟩ : ∃ j, k = pre.length + j := ⟨k - pre.length, by omega⟩
      simp only [Nat.add_sub_cancel_left]
      cases j with
      | zero => rfl
      | succ j =>
        simp only [List.getElem_cons_succ]
        rw [List.getElem_append_left]

/-- The swap-with-last removal loses and duplicates nothing. -/
theorem swapRemoveAt_perm (pre post : List (Option Addr)) (c : Option Addr) :
    (swapRemoveAt (pre ++ c :: post) pre.length ++ [c]).Perm (pre ++ c :: post) := by
  rcases List.eq_nil_or_concat post with h | ⟨mid, x, h⟩
  · subst h
    rw [swapRemoveAt_last]
  · simp only [List.concat_eq_append] at h
    subst h
    rw [swapRemoveAt_mid]
    have h1 : (pre ++ x :: mid ++ [c]).Perm (pre ++ (x :: mid ++ [c])) := by simp
    refine h1.trans (List.Perm.append_left pre ?_)
    have h2 : (x :: mid ++ [c]).Perm (c :: (x :: mid)) := List.perm_append_singleton c (x :: mid)
    refine h2.trans ?_
    have h3 : (c :: (mid ++ [x])).Perm (c :: (x :: mid)) :=
      List.Perm.cons c (List.perm_append_singleton x mid)
    exact h3.symm

theorem swapRemoveAt_length (pre post : List (Option Addr)) (c : Option Addr) :
    (swapRemoveAt (pre ++ c :: post) pre.length).length + 1 = (pre ++ c :: post).length := by
  have h := (swapRemoveAt_perm pre post c).length_eq
  simpa using h

theorem scanFreePool_none (self : ImGuiDrawing F) (l : List (Option Addr)) (i : Nat) :
    scanFreePool self l i = none ↔ ∀ c ∈ l, isCompatible self c = false := by
  induction l generalizing i with
  | nil => simp [scanFreePool]
  | cons c l ih =>
    by_cases h : isCompatible self c = true
    · simp [scanFreePool, h]
    · simp only [Bool.not_eq_true] at h
      simp [scanFreePool, h, ih]

theorem scanFreePool_some (self : ImGuiDrawing F) (l : List (Option Addr)) (i j : Nat)
    (h : scanFreePool self l i = some j) :
    ∃ pre c post, l = pre ++ c :: post ∧ j = i + pre.length ∧
      isCompatible self c = true ∧ ∀ x ∈ pre, isCompatible self x = false := by
  induction l generalizing i with
  | nil => simp [scanFreePool] at h
  | cons c l ih =>
    by_cases hc : isCompatible self c = true
    · simp only [scanFreePool, hc, if_true, Option.some.injEq] at h
      exact ⟨[], c, l, rfl, by simp [h], hc, by simp⟩
    · simp only [Bool.not_eq_true] at hc
      simp only [scanFreePool, hc, Bool.false_eq_true, if_false] at h
      obtain ⟨pre, d, post, h1, h2, h3, h4⟩ := ih (i + 1) h
      refine ⟨c :: pre, d, post, by simp [h1], by simp [h2]; omega, h3, ?_⟩
      intro x hx
      rcases List.mem_cons.1 hx with rfl | hx
      · exact hc
      · exact h4 x hx

theorem isCompatible_some (self : ImGuiDrawing F) (c : Option Addr)
    (h : isCompatible self c = true) :
    ∃ a cmd, c = some a ∧ self.heap[a]? = some cmd ∧
      cmd.material.shaderProgram = self.imguiShaderProgram_ := by
  cases c with
  | none => simp [isCompatible] at h
  | some a =>
    cases hc : self.heap[a]? with
    | none => simp [isCompatible, hc] at h
    | some cmd =>
      simp only [isCompatible, hc, decide_eq_true_eq] at h
      exact ⟨a, cmd, rfl, hc, h⟩

/-- The two outcomes of `retrieveCommandFromPool`. -/
theorem retrieve_cases (self : ImGuiDrawing F) :
    (∃ pre a post, self.freeCommandsPool_ = pre ++ some a :: post ∧
        (∀ x ∈ pre, isCompatible self x = false) ∧
        isCompatible self (some a) = true ∧
        scanFreePool self self.freeCommandsPool_ 0 = some pre.length ∧
        retrieveCommandFromPool self = (some a, recycled self pre.length a)) ∨
    ((∀ x ∈ self.freeCommandsPool_, isCompatible self x = false) ∧
        scanFreePool self self.freeCommandsPool_ 0 = none ∧
        retrieveCommandFromPool self = (some self.heap.length, grown self)) := by
  cases hs : scanFreePool self self.freeCommandsPool_ 0 with
  | none =>
    right
    refine ⟨(scanFreePool_none self _ 0).1 hs, rfl, ?_⟩
    simp [retrieveCommandFromPool, hs, grown]
  | some i =>
    left
    obtain ⟨pre, c, post, h1, h2, h3, h4⟩ := scanFreePool_some self _ 0 i hs
    obtain ⟨a, cmd, rfl, -, -⟩ := isCompatible_some self c h3
    simp only [Nat.zero_add] at h2
    subst h2
    refine ⟨pre, a, post, h1, h4, h3, rfl, ?_⟩
    have hget : self.freeCommandsPool_.getD pre.length none = some a := by
      rw [h1, List.getD_eq_getElem?_getD, List.getElem?_append_right (le_refl _)]
      simp
    unfold retrieveCommandFromPool
    simp only [hs, hget]
    rfl

/-! ### Pool: the effect of one call -/

theorem recycled_heap (self : ImGuiDrawing F) (i : Nat) (a : Addr) :
    (recycled self i a).heap = self.heap := rfl

theorem recycled_shader (self : ImGuiDrawing F) (i : Nat) (a : Addr) :
    (recycled self i a).imguiShaderProgram_ = self.imguiShaderProgram_ := rfl

theorem grown_shader (self : ImGuiDrawing F) :
    (grown self).imguiShaderProgram_ = self.imguiShaderProgram_ := rfl

theorem retrieve_shader (self : ImGuiDrawing F) :
    (retrieveCommandFromPool self).2.imguiShaderProgram_ = self.imguiShaderProgram_ := by
  rcases retrieve_cases self with ⟨pre, a, post, -, -, -, -, h⟩ | ⟨-, -, h⟩ <;> rw [h] <;> rfl

/-- What a call does to the pools and the heap, in either outcome. -/
theorem retrieve_effect (self : ImGuiDrawing F) :
    (allocatesNew self = false ∧
      (retrieveCommandFromPool self).2.heap = self.heap ∧
      ((retrieveCommandFromPool self).2.freeCommandsPool_ ++
        (retrieveCommandFromPool self).2.usedCommandsPool_).Perm
        (self.freeCommandsPool_ ++ self.usedCommandsPool_) ∧
      (retrieveCommandFromPool self).2.freeCommandsPool_.length + 1 =
        self.freeCommandsPool_.length ∧
      (retrieveCommandFromPool self).2.usedCommandsPool_ =
        self.usedCommandsPool_ ++ [(retrieveCommandFromPool self).1] ∧
      ∃ a, (retrieveCommandFromPool self).1 = some a ∧ some a ∈ self.freeCommandsPool_ ∧
        isCompatible self (some a) = true) ∨
    (allocatesNew self = true ∧
      (retrieveCommandFromPool self).2.heap =
        self.heap ++ [setupRenderCmd self (RenderCommand.new F)] ∧
      (retrieveCommandFromPool self).2.freeCommandsPool_ = self.freeCommandsPool_ ∧
      (retrieveCommandFromPool self).2.usedCommandsPool_ =
        self.usedCommandsPool_ ++ [some self.heap.length] ∧
      (retrieveCommandFromPool self).1 = some self.heap.length) := by
  rcases retrieve_cases self with ⟨pre, a, post, h1, -, h3, h4, h⟩ | ⟨-, h2, h⟩
  · left
    rw [h]
    refine ⟨by simp [allocatesNew, h4], rfl, ?_, ?_, rfl, a, rfl, by simp [h1], h3⟩
    · simp only [recycled, h1]
      have hp := swapRemoveAt_perm pre post (some a)
      have h5 : (swapRemoveAt (pre ++ some a :: post) pre.length ++
          (self.usedCommandsPool_ ++ [some a])).Perm
          ((swapRemoveAt (pre ++ some a :: post) pre.length ++ [some a]) ++
            self.usedCommandsPool_) := by
        rw [List.append_assoc]
        exact List.Perm.append_left _ List.perm_append_comm
      exact h5.trans (List.Perm.append_right _ hp)
    · simp only [recycled, h1]
      exact swapRemoveAt_length pre post (some a)
  · right
    rw [h]
    exact ⟨by simp [allocatesNew, h2], rfl, rfl, rfl, rfl⟩

theorem retrieve_used_length (self : ImGuiDrawing F) :
    (retrieveCommandFromPool self).2.usedCommandsPool_.length =
      self.usedCommandsPool_.length + 1 := by
  rcases retrieve_effect self with ⟨-, -, -, -, h, -⟩ | ⟨-, -, -, h, -⟩ <;> rw [h] <;> simp

theorem retrieve_free_length (self : ImGuiDrawing F) :
    (retrieveCommandFromPool self).2.freeCommandsPool_.length +
        (if allocatesNew self then 0 else 1) = self.freeCommandsPool_.length := by
  rcases retrieve_effect self with ⟨h0, -, -, h, -, -⟩ | ⟨h0, -, h, -, -⟩
  · simp [h0, h]
  · simp [h0, h]

theorem retrieve_heap_length (self : ImGuiDrawing F) :
    (retrieveCommandFromPool self).2.heap.length =
      self.heap.length + (if allocatesNew self then 1 else 0) := by
  rcases retrieve_effect self with ⟨h0, h, -, -, -, -⟩ | ⟨h0, h, -, -, -⟩
  · simp [h0, h]
  · simp [h0, h]

theorem retrieveMany_counts (K : Nat) (self : ImGuiDrawing F) :
    (retrieveMany K self).freeCommandsPool_.length +
        (retrieveMany K self).usedCommandsPool_.length =
      self.freeCommandsPool_.length + self.usedCommandsPool_.length +
        countAllocations K self ∧
    (retrieveMany K self).heap.length = self.heap.length + countAllocations K self := by
  induction K generalizing self with
  | zero => simp [retrieveMany, countAllocations]
  | succ K ih =>
    obtain ⟨h1, h2⟩ := ih (retrieveCommandFromPool self).2
    have h3 := retrieve_used_length self
    have h4 := retrieve_free_length self
    have h5 := retrieve_heap_length self
    simp only [retrieveMany, countAllocations]
    constructor
    · rw [h1]; split_ifs at h4 h5 ⊢ <;> omega
    · rw [h2]; split_ifs at h5 ⊢ <;> omega

theorem retrieveMany_empty_free (K : Nat) (self : ImGuiDrawing F)
    (h : self.freeCommandsPool_ = []) :
    (retrieveMany K self).freeCommandsPool_ = [] ∧ countAllocations K self = K := by
  induction K generalizing self with
  | zero => simp [retrieveMany, countAllocations, h]
  | succ K ih =>
    have ha : allocatesNew self = true := by simp [allocatesNew, h, scanFreePool]
    rcases retrieve_effect self with ⟨h0, -⟩ | ⟨-, -, hf, -, -⟩
    · rw [ha] at h0; cases h0
    · obtain ⟨h1, h2⟩ := ih (retrieveCommandFromPool self).2 (by rw [hf, h])
      simp only [retrieveMany, countAllocations, ha, if_true]
      exact ⟨h1, by omega⟩

/-- C1 (pool conservation).  From any pool state, after `K` calls of
`retrieveCommandFromPool` followed by one `resetCommandPool` the used pool is
empty and the free pool holds the initial free and used commands plus one
command per allocating call; the heap, that is the commands ever allocated,
grew by the same number.  Starting from two empty pools, exactly `K`
commands are in the free pool. -/
theorem pool_conservation (self : ImGuiDrawing F) (K : Nat) :
    (resetCommandPool (retrieveMany K self)).usedCommandsPool_ = [] ∧
    (resetCommandPool (retrieveMany K self)).freeCommandsPool_.length =
      self.freeCommandsPool_.length + self.usedCommandsPool_.length +
        countAllocations K self ∧
    (resetCommandPool (retrieveMany K self)).heap.length =
      self.heap.length + countAllocations K self ∧
    (EmptyPools self →
      (resetCommandPool (retrieveMany K self)).freeCommandsPool_.length = K) := by
  obtain ⟨h1, h2⟩ := retrieveMany_counts K self
  refine ⟨rfl, ?_, ?_, ?_⟩
  · rw [resetCommandPool_free, List.length_append, h1]
  · rw [resetCommandPool_heap, h2]
  · rintro ⟨hf, hu⟩
    rw [resetCommandPool_free, List.length_append, h1, (retrieveMany_empty_free K self hf).2,
      hf, hu]
    simp

/-- Witness of `pool_conservation`: three acquisitions from the freshly
constructed object, then a reset. -/
theorem pool_conservation_witness :
    EmptyPools (ImGuiDrawing.init true (some 7) (0 : Int)) ∧
    (resetCommandPool (retrieveMany 3
      (ImGuiDrawing.init true (some 7) (0 : Int)))).freeCommandsPool_.length = 3 :=
  ⟨⟨rfl, rfl⟩, (pool_conservation (ImGuiDrawing.init true (some 7) (0 : Int)) 3).2.2.2 ⟨rfl, rfl⟩⟩

/-! ### C2: the two outcomes of an acquisition -/

theorem getElem_of_decomp (l pre post : List (Option Addr)) (c : Option Addr)
    (h : l = pre ++ c :: post) :
    ∃ hi : pre.length < l.length, l[pre.length] = c ∧
      ∀ k, ∀ hk : k < pre.length, ∀ hk2 : k < l.length, l[k] = pre[k] := by
  subst h
  refine ⟨by simp, ?_, fun k hk hk2 => List.getElem_append_left hk⟩
  rw [List.getElem_append_right (le_refl _)]
  simp

theorem setupRenderCmd_shader (self : ImGuiDrawing F) (cmd : RenderCommand F) :
    (setupRenderCmd self cmd).material.shaderProgram = self.imguiShaderProgram_ := rfl

theorem setupRenderCmd_transparent (self : ImGuiDrawing F) (cmd : RenderCommand F) :
    (setupRenderCmd self cmd).material.isTransparent = true := rfl

/-- C2.  `retrieveCommandFromPool` is total and has exactly two outcomes.
It always returns a non-null command which is the last entry of the used
pool after the call.  If some entry of the free pool is compatible (non-null,
with the ImGui shader program), the result is the entry at the lowest such
index, the free pool shrinks by one, the used pool grows by one and the heap
is unchanged.  Otherwise the heap grows by one command configured by
`setupRenderCmd` (whose shader program is the ImGui one), the result is its
address, the free pool is unchanged and the used pool grows by one. -/
theorem retrieve_outcomes (self : ImGuiDrawing F) :
    (∃ a, (retrieveCommandFromPool self).1 = some a ∧
      (retrieveCommandFromPool self).2.usedCommandsPool_.getLast? = some (some a) ∧
      (retrieveCommandFromPool self).2.usedCommandsPool_.length =
        self.usedCommandsPool_.length + 1) ∧
    ((∃ x ∈ self.freeCommandsPool_, isCompatible self x = true) →
      ∃ i, ∃ hi : i < self.freeCommandsPool_.length,
        isCompatible self self.freeCommandsPool_[i] = true ∧
        (∀ k, ∀ hk : k < i, isCompatible self self.freeCommandsPool_[k] = false) ∧
        (retrieveCommandFromPool self).1 = self.freeCommandsPool_[i] ∧
        (retrieveCommandFromPool self).2.freeCommandsPool_.length + 1 =
          self.freeCommandsPool_.length ∧
        (retrieveCommandFromPool self).2.heap = self.heap) ∧
    ((∀ x ∈ self.freeCommandsPool_, isCompatible self x = false) →
      (retrieveCommandFromPool self).1 = some self.heap.length ∧
      (retrieveCommandFromPool self).2.heap =
        self.heap ++ [setupRenderCmd self (RenderCommand.new F)] ∧
      (setupRenderCmd self (RenderCommand.new F)).material.shaderProgram =
        self.imguiShaderProgram_ ∧
      (retrieveCommandFromPool self).2.freeCommandsPool_ = self.freeCommandsPool_) := by
  refine ⟨?_, ?_, ?_⟩
  · rcases retrieve_cases self with ⟨pre, a, post, -, -, -, -, h⟩ | ⟨-, -, h⟩
    · exact ⟨a, by rw [h], by rw [h]; simp [recycled], by rw [h]; simp [recycled]⟩
    · exact ⟨self.heap.length, by rw [h], by rw [h]; simp [grown], by rw [h]; simp [grown]⟩
  · rintro ⟨x, hx, hxc⟩
    rcases retrieve_cases self with ⟨pre, a, post, h1, h2, h3, -, h⟩ | ⟨hn, -, -⟩
    · obtain ⟨hi, hget, hpre⟩ := getElem_of_decomp self.freeCommandsPool_ pre post (some a) h1
      refine ⟨pre.length, hi, ?_, ?_, ?_, ?_, ?_⟩
      · rw [hget]; exact h3
      · intro k hk
        rw [hpre k hk (lt_trans hk hi)]
        exact h2 _ (List.getElem_mem _)
      · rw [h, hget]
      · rw [h]; simp only [recycled, h1]; exact swapRemoveAt_length pre post (some a)
      · rw [h]; rfl
    · rw [hn x hx] at hxc; cases hxc
  · intro hn
    rcases retrieve_cases self with ⟨pre, a, post, h1, -, h3, -, -⟩ | ⟨-, -, h⟩
    · rw [hn (some a) (by rw [h1]; simp)] at h3; cases h3
    · rw [h]; exact ⟨rfl, rfl, rfl, rfl⟩

/-! ### C3: the membership invariant -/

theorem isImGuiCommand_congr (s t : ImGuiDrawing F) (p : Option Addr)
    (hh : t.heap = s.heap) (hs : t.imguiShaderProgram_ = s.imguiShaderProgram_) :
    isImGuiCommand t p = isImGuiCommand s p := by
  cases p with
  | none => rfl
  | some a => simp only [isImGuiCommand, hh, hs]

theorem isImGuiCommand_some (s : ImGuiDrawing F) (p : Option Addr)
    (h : isImGuiCommand s p = true) :
    ∃ a c, p = some a ∧ s.heap[a]? = some c ∧ a < s.heap.length ∧
      c.material.shaderProgram = s.imguiShaderProgram_ ∧ c.material.isTransparent = true := by
  cases p with
  | none => simp [isImGuiCommand] at h
  | some a =>
    cases hc : s.heap[a]? with
    | none => simp [isImGuiCommand, hc] at h
    | some c =>
      simp only [isImGuiCommand, hc, Bool.and_eq_true, decide_eq_true_eq] at h
      have hlt : a < s.heap.length := by
        rcases Nat.lt_or_ge a s.heap.length with hlt | hge
        · exact hlt
        · rw [List.getElem?_eq_none hge] at hc
          cases hc
      exact ⟨a, c, rfl, hc, hlt, h.1, h.2⟩

theorem isImGuiCommand_isCompatible (s : ImGuiDrawing F) (p : Option Addr)
    (h : isImGuiCommand s p = true) : isCompatible s p = true := by
  obtain ⟨a, c, rfl, hc, -, hs, -⟩ := isImGuiCommand_some s p h
  simp [isCompatible, hc, hs]

theorem isImGuiCommand_grown (s t : ImGuiDrawing F) (x : RenderCommand F) (p : Option Addr)
    (hh : t.heap = s.heap ++ [x]) (hs : t.imguiShaderProgram_ = s.imguiShaderProgram_)
    (h : isImGuiCommand s p = true) : isImGuiCommand t p = true := by
  obtain ⟨a, c, rfl, hc, hlt, h1, h2⟩ := isImGuiCommand_some s p h
  have : t.heap[a]? = some c := by
    rw [hh, List.getElem?_append_left hlt, hc]
  simp [isImGuiCommand, this, hs, h1, h2]

theorem retrieve_preserves_PoolInv (self : ImGuiDrawing F) (hl : Live self)
    (hi : PoolInv self) :
    PoolInv (retrieveCommandFromPool self).2 ∧ Live (retrieveCommandFromPool self).2 := by
  rcases retrieve_effect self with ⟨-, hh, hp, -, -, -⟩ | ⟨-, hh, hf, hu, -⟩
  · refine ⟨⟨?_, ?_⟩, ?_⟩
    · rw [hp.mem_iff]; exact hi.1
    · rw [hp.nodup_iff]; exact hi.2
    · intro p hp1 a ha
      rw [hh]
      exact hl p (hp.mem_iff.1 hp1) a ha
  · have hfresh : some self.heap.length ∉ self.freeCommandsPool_ ++ self.usedCommandsPool_ := by
      intro hm
      exact absurd (hl _ hm self.heap.length rfl) (lt_irrefl _)
    have hpool : (retrieveCommandFromPool self).2.freeCommandsPool_ ++
        (retrieveCommandFromPool self).2.usedCommandsPool_ =
        (self.freeCommandsPool_ ++ self.usedCommandsPool_) ++ [some self.heap.length] := by
      rw [hf, hu, List.append_assoc]
    refine ⟨⟨?_, ?_⟩, ?_⟩
    · rw [hpool]
      intro hm
      rcases List.mem_append.1 hm with hm | hm
      · exact hi.1 hm
      · simp at hm
    · rw [hpool]
      refine List.Nodup.append hi.2 (List.nodup_singleton _) ?_
      intro x hx1 hx2
      rw [List.mem_singleton] at hx2
      subst hx2
      exact hfresh hx1
    · intro p hp1 a ha
      rw [hpool] at hp1
      rw [hh, List.length_append, List.length_singleton]
      rcases List.mem_append.1 hp1 with hm | hm
      · exact Nat.lt_succ_of_lt (hl p hm a ha)
      · rw [List.mem_singleton] at hm
        subst hm
        cases ha
        exact Nat.lt_succ_self _

theorem reset_pool (self : ImGuiDrawing F) :
    (resetCommandPool self).freeCommandsPool_ ++ (resetCommandPool self).usedCommandsPool_ =
      self.freeCommandsPool_ ++ self.usedCommandsPool_ := by
  rw [resetCommandPool_free, resetCommandPool_used, List.append_nil]

theorem reset_preserves_PoolInv (self : ImGuiDrawing F) (hl : Live self)
    (hi : PoolInv self) : PoolInv (resetCommandPool self) ∧ Live (resetCommandPool self) := by
  refine ⟨?_, ?_⟩
  · unfold PoolInv
    rw [reset_pool]
    exact hi
  · unfold Live
    rw [reset_pool, resetCommandPool_heap]
    exact hl

theorem emptyPools_PoolInv (s : ImGuiDrawing F) (h : EmptyPools s) : PoolInv s ∧ Live s := by
  obtain ⟨hf, hu⟩ := h
  refine ⟨⟨?_, ?_⟩, ?_⟩
  · rw [hf, hu]; simp
  · rw [hf, hu]; simp
  · intro p hp
    rw [hf, hu] at hp
    simp at hp

theorem reachable_PoolInv (s : ImGuiDrawing F) (h : Reachable s) : PoolInv s ∧ Live s := by
  induction h with
  | start s he _ => exact emptyPools_PoolInv s he
  | retrieve s _ ih => exact retrieve_preserves_PoolInv s ih.2 ih.1
  | reset s _ ih => exact reset_preserves_PoolInv s ih.2 ih.1

/-- C3 (pool membership invariant).  The predicate "no null entry and no
command twice in `free ++ used`" holds for two empty pools, hence in every
state reached from them by `retrieveCommandFromPool` and `resetCommandPool`,
and is preserved, together with the validity of the owning pointers, by
`retrieveCommandFromPool` and by `resetCommandPool`.  The commands in
`free ++ used` are the same, up to order, after `resetCommandPool` and after
a recycling `retrieveCommandFromPool`; an allocating call adds exactly one
command, which was in neither pool. -/
theorem pool_membership_invariant :
    (∀ s : ImGuiDrawing F, EmptyPools s → PoolInv s ∧ Live s) ∧
    (∀ s : ImGuiDrawing F, Reachable s → PoolInv s) ∧
    (∀ s : ImGuiDrawing F, Live s → PoolInv s →
      PoolInv (retrieveCommandFromPool s).2 ∧ Live (retrieveCommandFromPool s).2) ∧
    (∀ s : ImGuiDrawing F, Live s → PoolInv s →
      PoolInv (resetCommandPool s) ∧ Live (resetCommandPool s)) ∧
    (∀ s : ImGuiDrawing F,
      ((resetCommandPool s).freeCommandsPool_ ++ (resetCommandPool s).usedCommandsPool_).Perm
        (s.freeCommandsPool_ ++ s.usedCommandsPool_)) ∧
    (∀ s : ImGuiDrawing F, allocatesNew s = false →
      ((retrieveCommandFromPool s).2.freeCommandsPool_ ++
        (retrieveCommandFromPool s).2.usedCommandsPool_).Perm
        (s.freeCommandsPool_ ++ s.usedCommandsPool_)) ∧
    (∀ s : ImGuiDrawing F, allocatesNew s = true →
      (retrieveCommandFromPool s).2.freeCommandsPool_ ++
        (retrieveCommandFromPool s).2.usedCommandsPool_ =
        (s.freeCommandsPool_ ++ s.usedCommandsPool_) ++ [(retrieveCommandFromPool s).1] ∧
      (Live s →
        (retrieveCommandFromPool s).1 ∉ s.freeCommandsPool_ ++ s.usedCommandsPool_)) := by
  refine ⟨?_, fun s hs => (reachable_PoolInv s hs).1, retrieve_preserves_PoolInv,
    reset_preserves_PoolInv, ?_, ?_, ?_⟩
  · intro s hs
    exact emptyPools_PoolInv s hs
  · intro s
    rw [reset_pool]
  · intro s hs
    rcases retrieve_effect s with ⟨-, -, hp, -, -, -⟩ | ⟨h0, -⟩
    · exact hp
    · rw [hs] at h0; cases h0
  · intro s hs
    rcases retrieve_effect s with ⟨h0, -⟩ | ⟨-, -, hf, hu, hr⟩
    · rw [hs] at h0; cases h0
    · refine ⟨by rw [hf, hu, hr, List.append_assoc], ?_⟩
      intro hl hm
      rw [hr] at hm
      exact absurd (hl _ hm s.heap.length rfl) (lt_irrefl _)

/-! ### C4: recycling avoids allocation -/

theorem retrieve_preserves_AllImGui (self : ImGuiDrawing F) (h : AllImGui self) :
    AllImGui (retrieveCommandFromPool self).2 := by
  have hs := retrieve_shader self
  rcases retrieve_effect self with ⟨-, hh, hp, -, -, -⟩ | ⟨-, hh, hf, hu, -⟩
  · intro p hp1
    rw [isImGuiCommand_congr self _ p hh hs]
    exact h p (hp.mem_iff.1 hp1)
  · intro p hp1
    rw [hf, hu, ← List.append_assoc] at hp1
    rcases List.mem_append.1 hp1 with hm | hm
    · exact isImGuiCommand_grown self _ _ p hh hs (h p hm)
    · rw [List.mem_singleton] at hm
      subst hm
      have hget : (retrieveCommandFromPool self).2.heap[self.heap.length]? =
          some (setupRenderCmd self (RenderCommand.new F)) := by
        rw [hh, List.getElem?_append_right (le_refl _)]
        simp
      simp [isImGuiCommand, hget, hs, setupRenderCmd_shader, setupRenderCmd_transparent]

theorem reset_preserves_AllImGui (self : ImGuiDrawing F) (h : AllImGui self) :
    AllImGui (resetCommandPool self) := by
  intro p hp
  rw [reset_pool] at hp
  rw [isImGuiCommand_congr self (resetCommandPool self) p rfl rfl]
  exact h p hp

theorem reachable_AllImGui (self : ImGuiDrawing F) (h : Reachable self) : AllImGui self := by
  induction h with
  | start s he _ =>
    intro p hp
    rw [he.1, he.2] at hp
    simp at hp
  | retrieve s _ ih => exact retrieve_preserves_AllImGui s ih
  | reset s _ ih => exact reset_preserves_AllImGui s ih

theorem retrieveMany_preserves_AllImGui (K : Nat) (self : ImGuiDrawing F)
    (h : AllImGui self) : AllImGui (retrieveMany K self) := by
  induction K generalizing self with
  | zero => exact h
  | succ K ih => exact ih _ (retrieve_preserves_AllImGui self h)

theorem allocatesNew_false_of_AllImGui (self : ImGuiDrawing F) (h : AllImGui self)
    (hne : 0 < self.freeCommandsPool_.length) : allocatesNew self = false := by
  cases hf : self.freeCommandsPool_ with
  | nil => rw [hf] at hne; simp at hne
  | cons c rest =>
    have hc : isCompatible self c = true :=
      isImGuiCommand_isCompatible self c (h c (by rw [hf]; simp))
    simp [allocatesNew, hf, scanFreePool, hc]

/-- From a state where every pooled command is an ImGui command, the first
`k ≤ free.size()` acquisitions recycle. -/
theorem retrieveMany_recycles (k : Nat) (self : ImGuiDrawing F) (h : AllImGui self)
    (hk : k ≤ self.freeCommandsPool_.length) :
    (retrieveMany k self).heap = self.heap ∧ countAllocations k self = 0 ∧
      (retrieveMany k self).freeCommandsPool_.length + k = self.freeCommandsPool_.length := by
  induction k generalizing self with
  | zero => simp [retrieveMany, countAllocations]
  | succ k ih =>
    have ha := allocatesNew_false_of_AllImGui self h (by omega)
    rcases retrieve_effect self with ⟨-, hh, -, hl, -, -⟩ | ⟨h0, -⟩
    · obtain ⟨h1, h2, h3⟩ := ih (retrieveCommandFromPool self).2
        (retrieve_preserves_AllImGui self h) (by omega)
      simp only [retrieveMany, countAllocations, ha]
      refine ⟨by rw [h1, hh], by simp [h2], by omega⟩
    · rw [ha] at h0; cases h0

theorem retrieveMany_used_length (K : Nat) (self : ImGuiDrawing F) :
    (retrieveMany K self).usedCommandsPool_.length = self.usedCommandsPool_.length + K := by
  induction K generalizing self with
  | zero => rfl
  | succ K ih =>
    simp only [retrieveMany]
    rw [ih, retrieve_used_length]
    omega

theorem retrieveMany_add (j k : Nat) (self : ImGuiDrawing F) :
    retrieveMany (j + k) self = retrieveMany k (retrieveMany j self) := by
  induction j generalizing self with
  | zero => simp [retrieveMany]
  | succ j ih =>
    rw [Nat.succ_add]
    simp only [retrieveMany]
    exact ih _

/-- Number of commands held by the two pools. -/
theorem frame_total (K : Nat) (self : ImGuiDrawing F) (h : AllImGui self) :
    AllImGui (frame K self) ∧
    K ≤ (frame K self).freeCommandsPool_.length + (frame K self).usedCommandsPool_.length ∧
    self.freeCommandsPool_.length + self.usedCommandsPool_.length ≤
      (frame K self).freeCommandsPool_.length + (frame K self).usedCommandsPool_.length ∧
    (K ≤ self.freeCommandsPool_.length + self.usedCommandsPool_.length →
      (frame K self).heap = self.heap) := by
  have hr := reset_preserves_AllImGui self h
  have hu := retrieveMany_used_length K (resetCommandPool self)
  have hc := (retrieveMany_counts K (resetCommandPool self)).1
  rw [resetCommandPool_free, resetCommandPool_used, List.length_append] at hc
  rw [resetCommandPool_used] at hu
  simp only [List.length_nil] at hu hc
  refine ⟨retrieveMany_preserves_AllImGui K _ hr, ?_, ?_, ?_⟩
  · unfold frame; omega
  · unfold frame; omega
  · intro hK
    have := (retrieveMany_recycles K (resetCommandPool self) hr
      (by rw [resetCommandPool_free, List.length_append]; exact hK)).1
    unfold frame
    rw [this, resetCommandPool_heap]

theorem frames_total (ks : List Nat) (self : ImGuiDrawing F) (h : AllImGui self) :
    AllImGui (frames ks self) ∧
    (∀ K ∈ ks, K ≤ (frames ks self).freeCommandsPool_.length +
      (frames ks self).usedCommandsPool_.length) ∧
    self.freeCommandsPool_.length + self.usedCommandsPool_.length ≤
      (frames ks self).freeCommandsPool_.length + (frames ks self).usedCommandsPool_.length := by
  induction ks generalizing self with
  | nil => exact ⟨h, by simp, le_refl _⟩
  | cons K rest ih =>
    obtain ⟨h1, h2, h3, -⟩ := frame_total K self h
    obtain ⟨h4, h5, h6⟩ := ih (frame K self) h1
    refine ⟨h4, ?_, le_trans h3 h6⟩
    intro K1 hK1
    rcases List.mem_cons.1 hK1 with rfl | hm
    · exact le_trans h2 h6
    · exact h5 K1 hm

/-- C4 (recycling avoids allocation).  In every state reachable from the
empty pools by `retrieveCommandFromPool` and `resetCommandPool`, every pooled
command has the ImGui shader program; if the free pool holds `n` commands,
each of the next `n` calls returns a command taken from the free pool and
leaves the heap unchanged, and the call after them allocates.  A frame
(`resetCommandPool`, then `K` acquisitions) that acquires at most as many
commands as some earlier frame allocates nothing. -/
theorem recycling_avoids_allocation (self : ImGuiDrawing F) (h : Reachable self) :
    AllImGui self ∧
    (∀ k, k < self.freeCommandsPool_.length →
      allocatesNew (retrieveMany k self) = false ∧
      (retrieveMany (k + 1) self).heap = self.heap ∧
      (retrieveCommandFromPool (retrieveMany k self)).1 ∈
        (retrieveMany k self).freeCommandsPool_) ∧
    allocatesNew (retrieveMany self.freeCommandsPool_.length self) = true ∧
    (∀ ks K K1, K1 ∈ ks → K ≤ K1 →
      (frame K (frames ks self)).heap = (frames ks self).heap) := by
  have hA := reachable_AllImGui self h
  refine ⟨hA, ?_, ?_, ?_⟩
  · intro k hk
    obtain ⟨-, -, h3⟩ := retrieveMany_recycles k self hA (le_of_lt hk)
    have hAk := retrieveMany_preserves_AllImGui k self hA
    have ha := allocatesNew_false_of_AllImGui (retrieveMany k self) hAk (by omega)
    refine ⟨ha, (retrieveMany_recycles (k + 1) self hA hk).1, ?_⟩
    rcases retrieve_effect (retrieveMany k self) with ⟨-, -, -, -, -, a, h5, h6, -⟩ | ⟨h0, -⟩
    · rw [h5]; exact h6
    · rw [ha] at h0; cases h0
  · obtain ⟨-, -, h3⟩ := retrieveMany_recycles self.freeCommandsPool_.length self hA (le_refl _)
    have : (retrieveMany self.freeCommandsPool_.length self).freeCommandsPool_ = [] :=
      List.length_eq_zero.1 (by omega)
    simp [allocatesNew, this, scanFreePool]
  · intro ks K K1 hK1 hle
    obtain ⟨h1, h2, -⟩ := frames_total ks self hA
    exact (frame_total K (frames ks self) h1).2.2.2 (le_trans hle (h2 K1 hK1))

/-! ### Writes through a reference -/

theorem updateCommand_free (s : ImGuiDrawing F) (a : Addr) (f : RenderCommand F → RenderCommand F) :
    (updateCommand s a f).freeCommandsPool_ = s.freeCommandsPool_ := by
  unfold updateCommand; split <;> rfl

theorem updateCommand_used (s : ImGuiDrawing F) (a : Addr) (f : RenderCommand F → RenderCommand F) :
    (updateCommand s a f).usedCommandsPool_ = s.usedCommandsPool_ := by
  unfold updateCommand; split <;> rfl

theorem updateCommand_shader (s : ImGuiDrawing F) (a : Addr)
    (f : RenderCommand F → RenderCommand F) :
    (updateCommand s a f).imguiShaderProgram_ = s.imguiShaderProgram_ := by
  unfold updateCommand; split <;> rfl

theorem updateCommand_events (s : ImGuiDrawing F) (a : Addr)
    (f : RenderCommand F → RenderCommand F) :
    (updateCommand s a f).events = s.events := by
  unfold updateCommand; split <;> rfl

theorem updateCommand_heap_length (s : ImGuiDrawing F) (a : Addr)
    (f : RenderCommand F → RenderCommand F) :
    (updateCommand s a f).heap.length = s.heap.length := by
  unfold updateCommand; split <;> simp

theorem updateCommand_get_ne (s : ImGuiDrawing F) (a b : Addr)
    (f : RenderCommand F → RenderCommand F) (h : b ≠ a) :
    (updateCommand s a f).heap[b]? = s.heap[b]? := by
  unfold updateCommand
  split
  · simp [List.getElem?_set, Ne.symm h]
  · rfl

theorem updateCommand_get_eq (s : ImGuiDrawing F) (a : Addr)
    (f : RenderCommand F → RenderCommand F) (c : RenderCommand F) (h : s.heap[a]? = some c) :
    (updateCommand s a f).heap[a]? = some (f c) := by
  have hlt : a < s.heap.length := by
    rcases Nat.lt_or_ge a s.heap.length with hlt | hge
    · exact hlt
    · rw [List.getElem?_eq_none hge] at h
      cases h
  unfold updateCommand
  rw [h]
  simp [List.getElem?_set, hlt]

theorem isImGuiCommand_update (s : ImGuiDrawing F) (a : Addr)
    (f : RenderCommand F → RenderCommand F) (hf : KeepsShape f) (p : Option Addr)
    (h : isImGuiCommand s p = true) : isImGuiCommand (updateCommand s a f) p = true := by
  obtain ⟨b, c, rfl, hc, -, h1, h2⟩ := isImGuiCommand_some s p h
  by_cases hba : b = a
  · subst hba
    have := updateCommand_get_eq s b f c hc
    simp [isImGuiCommand, this, updateCommand_shader, (hf c).1, (hf c).2, h1, h2]
  · have := updateCommand_get_ne s a b f hba
    simp [isImGuiCommand, this, hc, updateCommand_shader, h1, h2]

theorem updateCommand_WellFormed (s : ImGuiDrawing F) (a : Addr)
    (f : RenderCommand F → RenderCommand F) (hf : KeepsShape f) (h : WellFormed s) :
    WellFormed (updateCommand s a f) := by
  obtain ⟨h1, h2, h3⟩ := h
  refine ⟨?_, ?_, ?_⟩
  · unfold PoolInv
    rw [updateCommand_free, updateCommand_used]
    exact h1
  · unfold Live
    rw [updateCommand_free, updateCommand_used, updateCommand_heap_length]
    exact h2
  · unfold AllImGui
    rw [updateCommand_free, updateCommand_used]
    intro p hp
    exact isImGuiCommand_update s a f hf p (h3 p hp)

theorem logEvents_WellFormed (s : ImGuiDrawing F) (es : List Event) (h : WellFormed s) :
    WellFormed (logEvents s es) := h

theorem keepsShape_setTexture (t : Option Nat) : KeepsShape (setTexture t : RenderCommand F → _) :=
  fun _ => ⟨rfl, rfl⟩

theorem keepsShape_setProjection (d : List F) : KeepsShape (setProjection d) :=
  fun _ => ⟨rfl, rfl⟩

theorem keepsShape_shareVbo (o : Option Addr) : KeepsShape (shareVbo o : RenderCommand F → _) :=
  fun _ => ⟨rfl, rfl⟩

theorem keepsShape_shareIbo (o : Option Addr) : KeepsShape (shareIbo o : RenderCommand F → _) :=
  fun _ => ⟨rfl, rfl⟩

theorem keepsShape_configureCmd [GLfloatOps F] (env : DrawEnv F) (firstCmd : Addr)
    (cmdIdx : Nat) (imCmd : ImDrawCmd F) (numCmd firstIndex : Nat) :
    KeepsShape (configureCmd env firstCmd cmdIdx imCmd numCmd firstIndex) := by
  intro c
  unfold configureCmd
  by_cases h : cmdIdx > 0 <;> simp [h, setTexture, setLayer, setFirstIndex, setNumIndices,
    shareIbo, shareVbo, setScissor]

/-! ### Frame conditions -/

theorem ExtendsExcept.refl (x : Option Addr) (s : ImGuiDrawing F) : ExtendsExcept x s s :=
  ⟨⟨[], by simp⟩, rfl, fun _ _ _ => rfl⟩

theorem ExtendsExcept.trans {x : Option Addr} {s t u : ImGuiDrawing F}
    (h1 : ExtendsExcept x s t) (h2 : ExtendsExcept x t u) : ExtendsExcept x s u := by
  obtain ⟨⟨e1, he1⟩, hs1, hp1⟩ := h1
  obtain ⟨⟨e2, he2⟩, hs2, hp2⟩ := h2
  refine ⟨⟨e1 ++ e2, by rw [he2, he1, List.append_assoc]⟩, by rw [hs2, hs1], ?_⟩
  intro b hb hx
  rw [hp2 b (by rw [he1]; exact List.mem_append_left _ hb) hx, hp1 b hb hx]

theorem ExtendsExcept.weaken {x : Option Addr} {s t : ImGuiDrawing F}
    (h : ExtendsExcept none s t) : ExtendsExcept x s t :=
  ⟨h.1, h.2.1, fun b hb _ => h.2.2 b hb (by simp)⟩

/-- What an acquisition does to a well-formed state. -/
theorem retrieve_spec (s : ImGuiDrawing F) (h : WellFormed s) :
    ∃ a, (retrieveCommandFromPool s).1 = some a ∧
      (retrieveCommandFromPool s).2.usedCommandsPool_ = s.usedCommandsPool_ ++ [some a] ∧
      some a ∉ s.usedCommandsPool_ ∧
      WellFormed (retrieveCommandFromPool s).2 ∧
      ExtendsExcept none s (retrieveCommandFromPool s).2 ∧
      (retrieveCommandFromPool s).2.events = s.events ∧
      (retrieveCommandFromPool s).2.lastFrameWidth_ = s.lastFrameWidth_ ∧
      (retrieveCommandFromPool s).2.lastFrameHeight_ = s.lastFrameHeight_ ∧
      (retrieveCommandFromPool s).2.projectionMatrix_ = s.projectionMatrix_ := by
  obtain ⟨h1, h2, h3⟩ := h
  have hwf : WellFormed (retrieveCommandFromPool s).2 :=
    ⟨(retrieve_preserves_PoolInv s h2 h1).1, (retrieve_preserves_PoolInv s h2 h1).2,
      retrieve_preserves_AllImGui s h3⟩
  have hsh := retrieve_shader s
  rcases retrieve_cases s with ⟨pre, a, post, hf, -, -, -, hr⟩ | ⟨-, -, hr⟩
  · refine ⟨a, by rw [hr], by rw [hr]; rfl, ?_, hwf, ⟨⟨[some a], by rw [hr]; rfl⟩, hsh, ?_⟩,
      by rw [hr]; rfl, by rw [hr]; rfl, by rw [hr]; rfl, by rw [hr]; rfl⟩
    · intro hm
      have hnd := h1.2
      rw [hf] at hnd
      have := (List.nodup_append.1 hnd).2.2
      exact this (by simp) hm
    · intro b _ _
      rw [hr]; rfl
  · refine ⟨s.heap.length, by rw [hr], by rw [hr]; rfl, ?_, hwf,
      ⟨⟨[some s.heap.length], by rw [hr]; rfl⟩, hsh, ?_⟩,
      by rw [hr]; rfl, by rw [hr]; rfl, by rw [hr]; rfl, by rw [hr]; rfl⟩
    · intro hm
      exact absurd (h2 _ (List.mem_append_right _ hm) s.heap.length rfl) (lt_irrefl _)
    · intro b hb _
      have hlt := h2 _ (List.mem_append_right _ hb) b rfl
      rw [hr]
      simp only [grown]
      rw [List.getElem?_append_left hlt]

/-! ### The inner loop of `draw` -/

theorem acquireCmd_zero (first : Addr) (s : ImGuiDrawing F) :
    acquireCmd first 0 s = (first, s) := rfl

theorem acquireCmd_pos (first : Addr) (idx : Nat) (s : ImGuiDrawing F) (h : idx ≠ 0) :
    acquireCmd first idx s =
      (deref (retrieveCommandFromPool s).1, (retrieveCommandFromPool s).2) := by
  simp [acquireCmd, h]

theorem acquireCmd_spec (first : Addr) (idx : Nat) (s : ImGuiDrawing F)
    (hwf : WellFormed s) (hfirst : some first ∈ s.usedCommandsPool_) :
    (idx = 0 → (acquireCmd first idx s).1 = first ∧ (acquireCmd first idx s).2 = s) ∧
    (acquireCmd first idx s).2.usedCommandsPool_ =
      s.usedCommandsPool_ ++ (if idx = 0 then [] else [some (acquireCmd first idx s).1]) ∧
    some (acquireCmd first idx s).1 ∈ (acquireCmd first idx s).2.usedCommandsPool_ ∧
    (idx ≠ 0 → some (acquireCmd first idx s).1 ∉ s.usedCommandsPool_) ∧
    WellFormed (acquireCmd first idx s).2 ∧
    ExtendsExcept none s (acquireCmd first idx s).2 ∧
    (acquireCmd first idx s).2.events = s.events := by
  by_cases h0 : idx = 0
  · subst h0
    rw [acquireCmd_zero]
    exact ⟨fun _ => ⟨rfl, rfl⟩, by simp, hfirst, fun h => absurd rfl h, hwf,
      ExtendsExcept.refl _ _, rfl⟩
  · obtain ⟨a, h1, h2, h3, h4, h5, h6, -⟩ := retrieve_spec s hwf
    rw [acquireCmd_pos first idx s h0, h1]
    refine ⟨fun h => absurd h h0, ?_, ?_, fun _ => h3, h4, h5, h6⟩
    · rw [if_neg h0]; exact h2
    · show some a ∈ _
      rw [h2]; simp

theorem drawCmd_pass [GLfloatOps F] (env : DrawEnv F) (first : Addr) (idx : Nat)
    (imCmd : ImDrawCmd F) (st : DrawState F) (hc : clipTest env imCmd = true) :
    drawCmd env first idx imCmd st =
      { self := logEvents (updateCommand (acquireCmd first idx st.self).2
            (acquireCmd first idx st.self).1
            (configureCmd env first idx imCmd st.numCmd st.firstIndex))
          [Event.addCommand (acquireCmd first idx st.self).1]
        renderQueue := st.renderQueue ++ [(acquireCmd first idx st.self).1]
        numCmd := (st.numCmd + 1) % 2 ^ 32
        firstIndex := (st.firstIndex + imCmd.ElemCount) % 2 ^ 16 } := by
  simp [drawCmd, hc]

theorem drawCmd_culled [GLfloatOps F] (env : DrawEnv F) (first : Addr) (idx : Nat)
    (imCmd : ImDrawCmd F) (st : DrawState F) (hc : clipTest env imCmd = false) :
    drawCmd env first idx imCmd st =
      { self := (acquireCmd first idx st.self).2
        renderQueue := st.renderQueue
        numCmd := (st.numCmd + 1) % 2 ^ 32
        firstIndex := (st.firstIndex + imCmd.ElemCount) % 2 ^ 16 } := by
  simp [drawCmd, hc]

theorem drawCmd_spec [GLfloatOps F] (env : DrawEnv F) (first : Addr) (idx : Nat)
    (imCmd : ImDrawCmd F) (st : DrawState F)
    (hwf : WellFormed st.self) (hfirst : some first ∈ st.self.usedCommandsPool_) :
    (drawCmd env first idx imCmd st).self.usedCommandsPool_ =
      st.self.usedCommandsPool_ ++
        (if idx = 0 then [] else [some (acquireCmd first idx st.self).1]) ∧
    some (acquireCmd first idx st.self).1 ∈
      (drawCmd env first idx imCmd st).self.usedCommandsPool_ ∧
    (drawCmd env first idx imCmd st).renderQueue =
      st.renderQueue ++ (if clipTest env imCmd then [(acquireCmd first idx st.self).1] else []) ∧
    (drawCmd env first idx imCmd st).self.events =
      st.self.events ++
        (if clipTest env imCmd then [Event.addCommand (acquireCmd first idx st.self).1]
          else []) ∧
    (clipTest env imCmd = true →
      ∃ c, (drawCmd env first idx imCmd st).self.heap[(acquireCmd first idx st.self).1]? =
          some (configureCmd env first idx imCmd st.numCmd st.firstIndex c) ∧
        c.material.shaderProgram = st.self.imguiShaderProgram_ ∧
        c.material.isTransparent = true ∧
        (idx = 0 → st.self.heap[first]? = some c)) ∧
    WellFormed (drawCmd env first idx imCmd st).self ∧
    ExtendsExcept (if idx = 0 then some first else none) st.self
      (drawCmd env first idx imCmd st).self ∧
    (drawCmd env first idx imCmd st).numCmd = (st.numCmd + 1) % 2 ^ 32 ∧
    (drawCmd env first idx imCmd st).firstIndex = (st.firstIndex + imCmd.ElemCount) % 2 ^ 16 := by
  obtain ⟨a1, a2, a3, a4, a5, a6, a7⟩ := acquireCmd_spec first idx st.self hwf hfirst
  by_cases hc : clipTest env imCmd = true
  · have hcur : isImGuiCommand (acquireCmd first idx st.self).2
        (some (acquireCmd first idx st.self).1) = true :=
      a5.2.2 _ (List.mem_append_right _ a3)
    obtain ⟨b, c, hb, hcget, -, hs1, hs2⟩ := isImGuiCommand_some _ _ hcur
    cases hb
    rw [drawCmd_pass env first idx imCmd st hc, if_pos hc, if_pos hc]
    refine ⟨?_, ?_, rfl, ?_, ?_, ?_, ?_, rfl, rfl⟩
    · show (updateCommand _ _ _).usedCommandsPool_ = _
      rw [updateCommand_used, a2]
    · show _ ∈ (updateCommand _ _ _).usedCommandsPool_
      rw [updateCommand_used]; exact a3
    · show (updateCommand _ _ _).events ++ _ = _
      rw [updateCommand_events, a7]
    · intro _
      refine ⟨c, updateCommand_get_eq _ _ _ c hcget, by rw [hs1, a6.2.1], hs2, ?_⟩
      intro h0
      rw [(a1 h0).1, (a1 h0).2] at hcget
      exact hcget
    · exact logEvents_WellFormed _ _
        (updateCommand_WellFormed _ _ _ (keepsShape_configureCmd _ _ _ _ _ _) a5)
    · refine ⟨?_, ?_, ?_⟩
      · obtain ⟨ext, he⟩ := a6.1
        refine ⟨ext, ?_⟩
        show (updateCommand _ _ _).usedCommandsPool_ = _
        rw [updateCommand_used, he]
      · show (updateCommand _ _ _).imguiShaderProgram_ = _
        rw [updateCommand_shader, a6.2.1]
      · intro b hb hx
        show (updateCommand _ _ _).heap[b]? = _
        have hne : b ≠ (acquireCmd first idx st.self).1 := by
          intro hbe
          by_cases h0 : idx = 0
          · rw [if_pos h0] at hx
            rw [hbe, (a1 h0).1] at hx
            exact hx rfl
          · rw [hbe] at hb
            exact a4 h0 hb
        rw [updateCommand_get_ne _ _ _ _ hne]
        exact a6.2.2 b hb (by simp)
  · simp only [Bool.not_eq_true] at hc
    rw [drawCmd_culled env first idx imCmd st hc]
    simp only [hc, Bool.false_eq_true, if_false, List.append_nil]
    exact ⟨a2, a3, trivial, a7, False.elim, a5, ExtendsExcept.weaken a6, trivial, trivial⟩

theorem mod_add_step (n e k M : Nat) : ((n + e) % M + k) % M = (n + (e + k)) % M := by
  rw [Nat.add_mod, Nat.mod_mod, ← Nat.add_mod, Nat.add_assoc]

theorem elemsBefore_zero (cmds : List (ImDrawCmd F)) : elemsBefore cmds 0 = 0 := by
  simp [elemsBefore]

theorem elemsBefore_succ (imCmd : ImDrawCmd F) (rest : List (ImDrawCmd F)) (k : Nat) :
    elemsBefore (imCmd :: rest) (k + 1) = imCmd.ElemCount + elemsBefore rest k := by
  simp [elemsBefore]

theorem submittedOf_cons [GLfloatOps F] (env : DrawEnv F) (a : Addr) (addrs : List Addr)
    (imCmd : ImDrawCmd F) (cmds : List (ImDrawCmd F)) :
    submittedOf env (a :: addrs) (imCmd :: cmds) =
      (if clipTest env imCmd then [a] else []) ++ submittedOf env addrs cmds := by
  by_cases h : clipTest env imCmd = true
  · simp [submittedOf, List.filter_cons, h]
  · simp only [Bool.not_eq_true] at h
    simp [submittedOf, List.filter_cons, h]

/-- The inner loop on a well-formed state: the commands it uses for the draw
commands (`addrs`, one per draw command), what it adds to the used pool, to
the render queue and to the event log, and the state in which it leaves every
command it submits. -/
theorem drawCmds_spec [GLfloatOps F] (env : DrawEnv F) (first : Addr)
    (cmds : List (ImDrawCmd F)) :
    ∀ (idx : Nat) (st : DrawState F), WellFormed st.self →
      some first ∈ st.self.usedCommandsPool_ → st.numCmd < 2 ^ 32 → st.firstIndex < 2 ^ 16 →
    ∃ addrs : List Addr,
      addrs.length = cmds.length ∧
      (idx = 0 → ∀ a, addrs.head? = some a → a = first) ∧
      (drawCmds env first cmds idx st).self.usedCommandsPool_ =
        st.self.usedCommandsPool_ ++ ((if idx = 0 then addrs.tail else addrs).map some) ∧
      (drawCmds env first cmds idx st).renderQueue =
        st.renderQueue ++ submittedOf env addrs cmds ∧
      (drawCmds env first cmds idx st).self.events =
        st.self.events ++ (submittedOf env addrs cmds).map Event.addCommand ∧
      (∀ k a imCmd, addrs[k]? = some a → cmds[k]? = some imCmd → clipTest env imCmd = true →
        ∃ c, (drawCmds env first cmds idx st).self.heap[a]? =
            some (configureCmd env first (idx + k) imCmd ((st.numCmd + k) % 2 ^ 32)
              ((st.firstIndex + elemsBefore cmds k) % 2 ^ 16) c) ∧
          c.material.shaderProgram = st.self.imguiShaderProgram_ ∧
          c.material.isTransparent = true ∧
          (idx + k = 0 → st.self.heap[first]? = some c)) ∧
      WellFormed (drawCmds env first cmds idx st).self ∧
      ExtendsExcept (if idx = 0 then some first else none) st.self
        (drawCmds env first cmds idx st).self ∧
      (drawCmds env first cmds idx st).numCmd = (st.numCmd + cmds.length) % 2 ^ 32 := by
  induction cmds with
  | nil =>
    intro idx st hwf _ hn _
    refine ⟨[], rfl, ?_, ?_, ?_, ?_, ?_, hwf, ExtendsExcept.refl _ _, ?_⟩
    · intro _ a ha; simp at ha
    · simp [drawCmds]
    · simp [drawCmds, submittedOf]
    · simp [drawCmds, submittedOf]
    · intro k a imCmd ha; simp at ha
    · simp only [drawCmds, List.length_nil, Nat.add_zero]
      exact (Nat.mod_eq_of_lt hn).symm
  | cons imCmd rest ih =>
    intro idx st hwf hfirst hn hf
    obtain ⟨b1, b2, b3, b4, b5, b6, b7, b8, b9⟩ := drawCmd_spec env first idx imCmd st hwf hfirst
    have hfirst1 : some first ∈ (drawCmd env first idx imCmd st).self.usedCommandsPool_ := by
      rw [b1]; exact List.mem_append_left _ hfirst
    have hn1 : (drawCmd env first idx imCmd st).numCmd < 2 ^ 32 := by
      rw [b8]; exact Nat.mod_lt _ (by norm_num)
    have hf1 : (drawCmd env first idx imCmd st).firstIndex < 2 ^ 16 := by
      rw [b9]; exact Nat.mod_lt _ (by norm_num)
    obtain ⟨addrs, c1, -, c3, c4, c5, c6, c7, c8, c9⟩ :=
      ih (idx + 1) (drawCmd env first idx imCmd st) b6 hfirst1 hn1 hf1
    simp only [Nat.succ_ne_zero, if_false] at c3 c8
    refine ⟨(acquireCmd first idx st.self).1 :: addrs, by simp [c1], ?_, ?_, ?_, ?_, ?_, c7, ?_, ?_⟩
    · intro h0 a ha
      simp only [List.head?_cons, Option.some.injEq] at ha
      rw [← ha]
      exact ((acquireCmd_spec first idx st.self hwf hfirst).1 h0).1
    · simp only [drawCmds]
      rw [c3, b1, List.append_assoc]
      by_cases h0 : idx = 0 <;> simp [h0]
    · simp only [drawCmds]
      rw [c4, b3, submittedOf_cons, List.append_assoc]
    · simp only [drawCmds]
      rw [c5, b4, submittedOf_cons, List.append_assoc]
      by_cases hc : clipTest env imCmd = true <;> simp [hc]
    · intro k a imCmd1 ha hcmd hclip
      simp only [drawCmds]
      cases k with
      | zero =>
        simp only [List.getElem?_cons_zero, Option.some.injEq] at ha hcmd
        subst ha
        subst hcmd
        obtain ⟨c, d1, d2, d3, d4⟩ := b5 hclip
        refine ⟨c, ?_, d2, d3, ?_⟩
        · rw [c8.2.2 _ b2 (by simp), d1, Nat.add_zero, Nat.add_zero, elemsBefore_zero,
            Nat.add_zero, Nat.mod_eq_of_lt hn, Nat.mod_eq_of_lt hf]
        · intro h0
          exact d4 (by omega)
      | succ k =>
        simp only [List.getElem?_cons_succ] at ha hcmd
        obtain ⟨c, d1, d2, d3, -⟩ := c6 k a imCmd1 ha hcmd hclip
        refine ⟨c, ?_, by rw [d2, b7.2.1], d3, fun h0 => by omega⟩
        rw [d1, b8, b9, mod_add_step, mod_add_step, elemsBefore_succ]
        have e1 : idx + 1 + k = idx + (k + 1) := by omega
        have e2 : 1 + k = k + 1 := by omega
        rw [e1, e2]
    · exact ExtendsExcept.trans b7 (ExtendsExcept.weaken c8)
    · simp only [drawCmds]
      rw [c9, b8, List.length_cons, Nat.add_mod, Nat.mod_mod, ← Nat.add_mod]
      congr 1
      omega

/-! ### The first command of a list -/

/-- One write to a command of the used pool of a well-formed state. -/
theorem update_step (s : ImGuiDrawing F) (a : Addr) (f : RenderCommand F → RenderCommand F)
    (hf : KeepsShape f) (hwf : WellFormed s) (ha : some a ∈ s.usedCommandsPool_) :
    WellFormed (updateCommand s a f) ∧
    (∀ b, b ≠ a → (updateCommand s a f).heap[b]? = s.heap[b]?) ∧
    ∃ c, s.heap[a]? = some c ∧ (updateCommand s a f).heap[a]? = some (f c) := by
  obtain ⟨b, c, hb, hc, -, -, -⟩ :=
    isImGuiCommand_some s (some a) (hwf.2.2 _ (List.mem_append_right _ ha))
  cases hb
  exact ⟨updateCommand_WellFormed s a f hf hwf, fun b hb => updateCommand_get_ne s a b f hb,
    c, hc, updateCommand_get_eq s a f c hc⟩

theorem projectionStep_spec [GLfloatOps F] (env : DrawEnv F) (a : Addr) (s : ImGuiDrawing F)
    (hwf : WellFormed s) (ha : some a ∈ s.usedCommandsPool_) :
    WellFormed (projectionStep env a s) ∧
    (projectionStep env a s).usedCommandsPool_ = s.usedCommandsPool_ ∧
    (projectionStep env a s).events = s.events ∧
    (projectionStep env a s).imguiShaderProgram_ = s.imguiShaderProgram_ ∧
    (∀ b, b ≠ a → (projectionStep env a s).heap[b]? = s.heap[b]?) := by
  unfold projectionStep
  split
  · obtain ⟨h1, h2, -⟩ := update_step s a (setProjection s.projectionMatrix_)
      (keepsShape_setProjection _) hwf ha
    exact ⟨h1, updateCommand_used _ _ _, updateCommand_events _ _ _,
      updateCommand_shader _ _ _, h2⟩
  · exact ⟨hwf, rfl, rfl, rfl, fun _ _ => rfl⟩

theorem beginList_eq [GLfloatOps F] (env : DrawEnv F) (L : ImDrawList F) (s : ImGuiDrawing F) :
    beginList env L s =
      (deref (retrieveCommandFromPool s).1,
        logEvents (updateCommand (logEvents (updateCommand
          (projectionStep env (deref (retrieveCommandFromPool s).1)
            (retrieveCommandFromPool s).2)
          (deref (retrieveCommandFromPool s).1) (shareVbo none))
          ((uploadEvents (deref (retrieveCommandFromPool s).1) L).take 3))
          (deref (retrieveCommandFromPool s).1) (shareIbo none))
          ((uploadEvents (deref (retrieveCommandFromPool s).1) L).drop 3)) := rfl

/-- The outer loop body before the inner loop, on a well-formed state. -/
theorem beginList_spec [GLfloatOps F] (env : DrawEnv F) (L : ImDrawList F)
    (s : ImGuiDrawing F) (hwf : WellFormed s) :
    (retrieveCommandFromPool s).1 = some (beginList env L s).1 ∧
    some (beginList env L s).1 ∉ s.usedCommandsPool_ ∧
    (beginList env L s).2.usedCommandsPool_ =
      s.usedCommandsPool_ ++ [some (beginList env L s).1] ∧
    WellFormed (beginList env L s).2 ∧
    ExtendsExcept none s (beginList env L s).2 ∧
    (beginList env L s).2.events = s.events ++ uploadEvents (beginList env L s).1 L ∧
    ∃ c, (beginList env L s).2.heap[(beginList env L s).1]? = some c ∧
      c.geometry.sharedVbo = none ∧ c.geometry.sharedIbo = none := by
  obtain ⟨a, h1, h2, h3, h4, h5, h6, -⟩ := retrieve_spec s hwf
  rw [beginList_eq, h1]
  simp only [deref, Option.getD_some]
  have ha1 : some a ∈ (retrieveCommandFromPool s).2.usedCommandsPool_ := by rw [h2]; simp
  obtain ⟨p1, p2, p3, p4, p5⟩ := projectionStep_spec env a _ h4 ha1
  have ha2 : some a ∈ (projectionStep env a (retrieveCommandFromPool s).2).usedCommandsPool_ := by
    rw [p2]; exact ha1
  obtain ⟨q1, q2, c, -, q3⟩ := update_step _ a (shareVbo none) (keepsShape_shareVbo _) p1 ha2
  have q1e := logEvents_WellFormed _ ((uploadEvents a L).take 3) q1
  have ha3 : some a ∈ (logEvents (updateCommand (projectionStep env a
      (retrieveCommandFromPool s).2) a (shareVbo none))
      ((uploadEvents a L).take 3)).usedCommandsPool_ := by
    show some a ∈ (updateCommand _ _ _).usedCommandsPool_
    rw [updateCommand_used]; exact ha2
  obtain ⟨r1, r2, d, r3, r4⟩ := update_step _ a (shareIbo none) (keepsShape_shareIbo _) q1e ha3
  have hd : d = shareVbo none c := by
    have : (updateCommand (projectionStep env a (retrieveCommandFromPool s).2) a
        (shareVbo none)).heap[a]? = some d := r3
    rw [q3] at this
    exact (Option.some.inj this).symm
  refine ⟨trivial, h3, ?_, logEvents_WellFormed _ _ r1, ⟨⟨[some a], ?_⟩, ?_, ?_⟩, ?_,
    shareIbo none d, r4, ?_, rfl⟩
  · show (updateCommand _ _ _).usedCommandsPool_ = _
    rw [updateCommand_used]
    show (updateCommand _ _ _).usedCommandsPool_ = _
    rw [updateCommand_used, p2, h2]
  · show (updateCommand _ _ _).usedCommandsPool_ = _
    rw [updateCommand_used]
    show (updateCommand _ _ _).usedCommandsPool_ = _
    rw [updateCommand_used, p2, h2]
  · show (updateCommand _ _ _).imguiShaderProgram_ = _
    rw [updateCommand_shader]
    show (updateCommand _ _ _).imguiShaderProgram_ = _
    rw [updateCommand_shader, p4, h5.2.1]
  · intro b hb _
    have hne : b ≠ a := by
      intro hba
      rw [hba] at hb
      exact h3 hb
    show (updateCommand _ _ _).heap[b]? = _
    rw [r2 b hne]
    show (updateCommand _ _ _).heap[b]? = _
    rw [q2 b hne, p5 b hne]
    exact h5.2.2 b hb (by simp)
  · show (updateCommand _ _ _).events ++ _ = _
    rw [updateCommand_events]
    show ((updateCommand _ _ _).events ++ _) ++ _ = _
    rw [updateCommand_events, p3, h6, List.append_assoc, List.take_append_drop]
  · rw [hd]; rfl

/-! ### What `configureCmd` writes -/

theorem configureCmd_zero_sharing [GLfloatOps F] (env : DrawEnv F) (first : Addr)
    (imCmd : ImDrawCmd F) (n f : Nat) (c : RenderCommand F) :
    (configureCmd env first 0 imCmd n f c).geometry.sharedVbo = c.geometry.sharedVbo ∧
    (configureCmd env first 0 imCmd n f c).geometry.sharedIbo = c.geometry.sharedIbo := by
  simp [configureCmd, setTexture, setLayer, setFirstIndex, setNumIndices, setScissor]

theorem configureCmd_pos_sharing [GLfloatOps F] (env : DrawEnv F) (first : Addr) (idx : Nat)
    (hidx : 0 < idx) (imCmd : ImDrawCmd F) (n f : Nat) (c : RenderCommand F) :
    (configureCmd env first idx imCmd n f c).geometry.sharedVbo = some first ∧
    (configureCmd env first idx imCmd n f c).geometry.sharedIbo = some first := by
  simp [configureCmd, hidx, setTexture, setLayer, setFirstIndex, setNumIndices, setScissor,
    shareIbo, shareVbo]

theorem configureCmd_fields [GLfloatOps F] (env : DrawEnv F) (first : Addr) (idx : Nat)
    (imCmd : ImDrawCmd F) (n f : Nat) (c : RenderCommand F) :
    (configureCmd env first idx imCmd n f c).geometry.numIndices = imCmd.ElemCount ∧
    (configureCmd env first idx imCmd n f c).geometry.firstIndex = f ∧
    (configureCmd env first idx imCmd n f c).layer = (env.HUD + n) % 2 ^ 32 ∧
    (configureCmd env first idx imCmd n f c).material.texture = imCmd.TextureId ∧
    (configureCmd env first idx imCmd n f c).material.shaderProgram =
      c.material.shaderProgram ∧
    (configureCmd env first idx imCmd n f c).material.isTransparent =
      c.material.isTransparent := by
  by_cases hidx : idx > 0 <;>
    simp [configureCmd, hidx, setTexture, setLayer, setFirstIndex, setNumIndices, setScissor,
      shareIbo, shareVbo]

/-! ### The sharing of the first command through the inner loop -/

theorem drawCmd_first_sharing [GLfloatOps F] (env : DrawEnv F) (first : Addr) (idx : Nat)
    (imCmd : ImDrawCmd F) (st : DrawState F)
    (hwf : WellFormed st.self) (hfirst : some first ∈ st.self.usedCommandsPool_)
    (c0 : RenderCommand F) (h0 : st.self.heap[first]? = some c0) :
    ∃ c, (drawCmd env first idx imCmd st).self.heap[first]? = some c ∧
      c.geometry.sharedVbo = c0.geometry.sharedVbo ∧
      c.geometry.sharedIbo = c0.geometry.sharedIbo ∧
      c.material.shaderProgram = c0.material.shaderProgram ∧
      c.material.isTransparent = c0.material.isTransparent := by
  obtain ⟨-, -, -, -, b5, -, b7, -, -⟩ := drawCmd_spec env first idx imCmd st hwf hfirst
  by_cases hi : idx = 0
  · by_cases hc : clipTest env imCmd = true
    · obtain ⟨c, d1, -, -, d4⟩ := b5 hc
      have hcur := ((acquireCmd_spec first idx st.self hwf hfirst).1 hi).1
      rw [hcur] at d1
      have hcc : c = c0 := by
        have := d4 hi
        rw [h0] at this
        exact (Option.some.inj this).symm
      subst hcc
      subst hi
      refine ⟨_, d1, (configureCmd_zero_sharing _ _ _ _ _ _).1,
        (configureCmd_zero_sharing _ _ _ _ _ _).2,
        (configureCmd_fields _ _ _ _ _ _ _).2.2.2.2.1, (configureCmd_fields _ _ _ _ _ _ _).2.2.2.2.2⟩
    · simp only [Bool.not_eq_true] at hc
      rw [drawCmd_culled env first idx imCmd st hc]
      subst hi
      exact ⟨c0, h0, rfl, rfl, rfl, rfl⟩
  · rw [if_neg hi] at b7
    exact ⟨c0, by rw [b7.2.2 first hfirst (by simp), h0], rfl, rfl, rfl, rfl⟩

theorem drawCmds_first_sharing [GLfloatOps F] (env : DrawEnv F) (first : Addr)
    (cmds : List (ImDrawCmd F)) :
    ∀ (idx : Nat) (st : DrawState F), WellFormed st.self →
      some first ∈ st.self.usedCommandsPool_ →
      ∀ c0, st.self.heap[first]? = some c0 →
      ∃ c, (drawCmds env first cmds idx st).self.heap[first]? = some c ∧
        c.geometry.sharedVbo = c0.geometry.sharedVbo ∧
        c.geometry.sharedIbo = c0.geometry.sharedIbo ∧
        c.material.shaderProgram = c0.material.shaderProgram ∧
        c.material.isTransparent = c0.material.isTransparent := by
  induction cmds with
  | nil =>
    intro idx st _ _ c0 h0
    exact ⟨c0, h0, rfl, rfl, rfl, rfl⟩
  | cons imCmd rest ih =>
    intro idx st hwf hfirst c0 h0
    obtain ⟨c1, e1, e2, e3, e4, e5⟩ := drawCmd_first_sharing env first idx imCmd st hwf hfirst c0 h0
    obtain ⟨b1, -, -, -, -, b6, -, -, -⟩ := drawCmd_spec env first idx imCmd st hwf hfirst
    have hfirst1 : some first ∈ (drawCmd env first idx imCmd st).self.usedCommandsPool_ := by
      rw [b1]; exact List.mem_append_left _ hfirst
    obtain ⟨c, f1, f2, f3, f4, f5⟩ := ih (idx + 1) _ b6 hfirst1 c1 e1
    exact ⟨c, f1, by rw [f2, e2], by rw [f3, e3], by rw [f4, e4], by rw [f5, e5]⟩

/-! ### One draw list -/

/-- One iteration of the outer loop on a well-formed state. -/
theorem drawList_spec [GLfloatOps F] (env : DrawEnv F) (L : ImDrawList F) (st : DrawState F)
    (hwf : WellFormed st.self) (hn : st.numCmd < 2 ^ 32) :
    ∃ first addrs,
      (retrieveCommandFromPool st.self).1 = some first ∧
      some first ∉ st.self.usedCommandsPool_ ∧
      addrs.length = L.CmdBuffer.length ∧
      (∀ a, addrs.head? = some a → a = first) ∧
      (drawList env L st).self.usedCommandsPool_ =
        st.self.usedCommandsPool_ ++ some first :: addrs.tail.map some ∧
      (drawList env L st).renderQueue =
        st.renderQueue ++ submittedOf env addrs L.CmdBuffer ∧
      (drawList env L st).self.events =
        st.self.events ++ uploadEvents first L ++
          (submittedOf env addrs L.CmdBuffer).map Event.addCommand ∧
      (∀ k a imCmd, addrs[k]? = some a → L.CmdBuffer[k]? = some imCmd →
        clipTest env imCmd = true →
        ∃ c, (drawList env L st).self.heap[a]? =
            some (configureCmd env first k imCmd ((st.numCmd + k) % 2 ^ 32)
              (elemsBefore L.CmdBuffer k % 2 ^ 16) c) ∧
          c.material.shaderProgram = st.self.imguiShaderProgram_ ∧
          c.material.isTransparent = true) ∧
      (∃ c, (drawList env L st).self.heap[first]? = some c ∧
        c.geometry.sharedVbo = none ∧ c.geometry.sharedIbo = none ∧
        c.material.shaderProgram = st.self.imguiShaderProgram_ ∧
        c.material.isTransparent = true) ∧
      WellFormed (drawList env L st).self ∧
      ExtendsExcept none st.self (drawList env L st).self ∧
      (drawList env L st).numCmd = (st.numCmd + L.CmdBuffer.length) % 2 ^ 32 := by
  obtain ⟨g1, g2, g3, g4, g5, g6, c0, g7, g8, g9⟩ := beginList_spec env L st.self hwf
  have hfirst : some (beginList env L st.self).1 ∈
      (beginList env L st.self).2.usedCommandsPool_ := by rw [g3]; simp
  obtain ⟨addrs, c1, c2, c3, c4, c5, c6, c7, c8, c9⟩ :=
    drawCmds_spec env (beginList env L st.self).1 L.CmdBuffer 0
      { st with self := (beginList env L st.self).2, firstIndex := 0 } g4 hfirst hn (by norm_num)
  obtain ⟨cf, s1, s2, s3, s4, s5⟩ :=
    drawCmds_first_sharing env (beginList env L st.self).1 L.CmdBuffer 0
      { st with self := (beginList env L st.self).2, firstIndex := 0 } g4 hfirst c0 g7
  have hshape : c0.material.shaderProgram = st.self.imguiShaderProgram_ ∧
      c0.material.isTransparent = true := by
    obtain ⟨b, c, hb, hc, -, h1, h2⟩ := isImGuiCommand_some _ _
      (g4.2.2 _ (List.mem_append_right _ hfirst))
    cases hb
    rw [g7] at hc
    cases hc
    exact ⟨by rw [h1, g5.2.1], h2⟩
  refine ⟨(beginList env L st.self).1, addrs, g1, g2, c1, c2 rfl, ?_, c4, ?_, ?_,
    ⟨cf, s1, by rw [s2, g8], by rw [s3, g9], by rw [s4, hshape.1], by rw [s5, hshape.2]⟩,
    c7, ?_, c9⟩
  · show (drawCmds _ _ _ _ _).self.usedCommandsPool_ = _
    rw [c3]
    simp only [if_true]
    rw [g3, List.append_assoc]
    rfl
  · show (drawCmds _ _ _ _ _).self.events = _
    rw [c5]
    show (beginList env L st.self).2.events ++ _ = _
    rw [g6]
  · intro k a imCmd ha hcmd hclip
    obtain ⟨c, d1, d2, d3, -⟩ := c6 k a imCmd ha hcmd hclip
    refine ⟨c, ?_, by rw [d2, g5.2.1], d3⟩
    show (drawCmds _ _ _ _ _).self.heap[a]? = _
    rw [d1]
    simp only [Nat.zero_add]
  · simp only [if_true] at c8
    obtain ⟨e1, he1⟩ := g5.1
    obtain ⟨e2, he2⟩ := c8.1
    refine ⟨⟨e1 ++ e2, ?_⟩, ?_, ?_⟩
    · show (drawCmds _ _ _ _ _).self.usedCommandsPool_ = _
      rw [he2]
      show (beginList env L st.self).2.usedCommandsPool_ ++ _ = _
      rw [he1, List.append_assoc]
    · show (drawCmds _ _ _ _ _).self.imguiShaderProgram_ = _
      rw [c8.2.1]
      exact g5.2.1
    · intro b hb _
      have hne : some b ≠ some (beginList env L st.self).1 := by
        intro h
        rw [h] at hb
        exact g2 hb
      show (drawCmds _ _ _ _ _).self.heap[b]? = _
      rw [c8.2.2 b (by rw [g3]; exact List.mem_append_left _ hb) hne]
      exact g5.2.2 b hb (by simp)

/-! ### The outer loop -/

theorem drawLists_append [GLfloatOps F] (env : DrawEnv F) (L1 L2 : List (ImDrawList F))
    (st : DrawState F) :
    drawLists env (L1 ++ L2) st = drawLists env L2 (drawLists env L1 st) := by
  induction L1 generalizing st with
  | nil => rfl
  | cons L rest ih => simp only [List.cons_append, drawLists]; exact ih _

theorem drawCmds_append [GLfloatOps F] (env : DrawEnv F) (first : Addr)
    (c1 c2 : List (ImDrawCmd F)) (idx : Nat) (st : DrawState F) :
    drawCmds env first (c1 ++ c2) idx st =
      drawCmds env first c2 (idx + c1.length) (drawCmds env first c1 idx st) := by
  induction c1 generalizing idx st with
  | nil => rfl
  | cons c rest ih =>
    show drawCmds env first (rest ++ c2) (idx + 1) (drawCmd env first idx c st) = _
    rw [ih]
    simp only [drawCmds, List.length_cons]
    congr 1
    omega

/-- The outer loop keeps the state well-formed, only extends the used pool
and the render queue, and leaves the commands already in the used pool
alone. -/
theorem drawLists_frame [GLfloatOps F] (env : DrawEnv F) (Ls : List (ImDrawList F)) :
    ∀ (st : DrawState F), WellFormed st.self → st.numCmd < 2 ^ 32 →
      WellFormed (drawLists env Ls st).self ∧
      ExtendsExcept none st.self (drawLists env Ls st).self ∧
      (drawLists env Ls st).numCmd < 2 ^ 32 ∧
      (drawLists env Ls st).numCmd =
        (st.numCmd + (Ls.map (fun (L : ImDrawList F) => L.CmdBuffer.length)).sum) % 2 ^ 32 ∧
      ∃ q, (drawLists env Ls st).renderQueue = st.renderQueue ++ q := by
  induction Ls with
  | nil =>
    intro st hwf hn
    refine ⟨hwf, ExtendsExcept.refl _ _, hn, ?_, [], by simp [drawLists]⟩
    simp only [drawLists, List.map_nil, List.sum_nil, Nat.add_zero]
    exact (Nat.mod_eq_of_lt hn).symm
  | cons L rest ih =>
    intro st hwf hn
    obtain ⟨first, addrs, -, -, -, -, -, h6, -, -, -, h10, h11, h12⟩ :=
      drawList_spec env L st hwf hn
    have hn1 : (drawList env L st).numCmd < 2 ^ 32 := by
      rw [h12]; exact Nat.mod_lt _ (by norm_num)
    obtain ⟨i1, i2, i3, i4, q, i5⟩ := ih (drawList env L st) h10 hn1
    refine ⟨i1, ExtendsExcept.trans h11 i2, i3, ?_, submittedOf env addrs L.CmdBuffer ++ q, ?_⟩
    · simp only [drawLists, List.map_cons, List.sum_cons]
      rw [i4, h12, Nat.add_mod, Nat.mod_mod, ← Nat.add_mod, Nat.add_assoc]
    · simp only [drawLists]
      rw [i5, h6, List.append_assoc]

theorem mem_used_of_addrs (first : Addr) (addrs : List Addr)
    (hhead : ∀ a, addrs.head? = some a → a = first) (k : Nat) (a : Addr)
    (ha : addrs[k]? = some a) : some a ∈ some first :: addrs.tail.map some := by
  cases addrs with
  | nil => simp at ha
  | cons x xs =>
    cases k with
    | zero =>
      simp only [List.getElem?_cons_zero, Option.some.injEq] at ha
      rw [← ha, hhead x rfl]
      exact List.mem_cons_self _ _
    | succ k =>
      simp only [List.getElem?_cons_succ] at ha
      refine List.mem_cons_of_mem _ ?_
      simp only [List.tail_cons, List.mem_map]
      exact ⟨a, List.getElem?_mem ha, rfl⟩

theorem ne_first_of_addrs (used : List (Option Addr)) (first : Addr) (addrs : List Addr)
    (hnd : (used ++ some first :: addrs.tail.map some).Nodup) (k : Nat) (hk : 0 < k)
    (a : Addr) (ha : addrs[k]? = some a) : a ≠ first := by
  cases addrs with
  | nil => simp at ha
  | cons x xs =>
    cases k with
    | zero => omega
    | succ k =>
      simp only [List.getElem?_cons_succ] at ha
      have h1 := (List.nodup_append.1 hnd).2.1
      simp only [List.tail_cons, List.nodup_cons, List.mem_map, not_exists, not_and] at h1
      intro h
      exact h1.1 a (List.getElem?_mem ha) (by rw [h])

/-- The state in which the outer loop leaves the commands of the draw list
`L` that stands between the lists `L1` and `L2`. -/
theorem drawLists_at [GLfloatOps F] (env : DrawEnv F) (L1 L2 : List (ImDrawList F))
    (L : ImDrawList F) (st : DrawState F) (hwf : WellFormed st.self)
    (hn : st.numCmd < 2 ^ 32) :
    ∃ first addrs,
      (retrieveCommandFromPool (drawLists env L1 st).self).1 = some first ∧
      some first ∉ (drawLists env L1 st).self.usedCommandsPool_ ∧
      some first ∈ (drawLists env (L1 ++ L :: L2) st).self.usedCommandsPool_ ∧
      addrs.length = L.CmdBuffer.length ∧
      (∀ a, addrs.head? = some a → a = first) ∧
      (drawList env L (drawLists env L1 st)).renderQueue =
        (drawLists env L1 st).renderQueue ++ submittedOf env addrs L.CmdBuffer ∧
      (drawList env L (drawLists env L1 st)).self.events =
        (drawLists env L1 st).self.events ++ uploadEvents first L ++
          (submittedOf env addrs L.CmdBuffer).map Event.addCommand ∧
      (∀ k a imCmd, addrs[k]? = some a → L.CmdBuffer[k]? = some imCmd →
        clipTest env imCmd = true →
        (0 < k → a ≠ first) ∧
        ∃ c, (drawLists env (L1 ++ L :: L2) st).self.heap[a]? =
            some (configureCmd env first k imCmd (((drawLists env L1 st).numCmd + k) % 2 ^ 32)
              (elemsBefore L.CmdBuffer k % 2 ^ 16) c) ∧
          c.material.shaderProgram = st.self.imguiShaderProgram_ ∧
          c.material.isTransparent = true) ∧
      (∃ c, (drawLists env (L1 ++ L :: L2) st).self.heap[first]? = some c ∧
        c.geometry.sharedVbo = none ∧ c.geometry.sharedIbo = none ∧
        c.material.shaderProgram = st.self.imguiShaderProgram_ ∧
        c.material.isTransparent = true) := by
  obtain ⟨w1, w2, w3, -, -⟩ := drawLists_frame env L1 st hwf hn
  obtain ⟨first, addrs, h1, h2, h3, h4, h5, h6, h7, h8, h9, h10, -, h12⟩ :=
    drawList_spec env L (drawLists env L1 st) w1 w3
  have hn1 : (drawList env L (drawLists env L1 st)).numCmd < 2 ^ 32 := by
    rw [h12]; exact Nat.mod_lt _ (by norm_num)
  obtain ⟨-, x2, -, -, -⟩ := drawLists_frame env L2 _ h10 hn1
  have hfin : drawLists env (L1 ++ L :: L2) st =
      drawLists env L2 (drawList env L (drawLists env L1 st)) := by
    rw [drawLists_append]; rfl
  have hmem : ∀ (k : Nat) (a : Addr), addrs[k]? = some a →
      some a ∈ (drawList env L (drawLists env L1 st)).self.usedCommandsPool_ := by
    intro k a ha
    rw [h5]
    exact List.mem_append_right _ (mem_used_of_addrs first addrs h4 k a ha)
  have hfm : some first ∈ (drawList env L (drawLists env L1 st)).self.usedCommandsPool_ := by
    rw [h5]; simp
  refine ⟨first, addrs, h1, h2, ?_, h3, h4, h6, h7, ?_, ?_⟩
  · rw [hfin]
    obtain ⟨ext, he⟩ := x2.1
    rw [he]
    exact List.mem_append_left _ hfm
  · intro k a imCmd ha hcmd hclip
    have hnd : ((drawLists env L1 st).self.usedCommandsPool_ ++
        some first :: addrs.tail.map some).Nodup := by
      rw [← h5]
      exact (List.nodup_append.1 h10.1.2).2.1
    refine ⟨fun hk => ne_first_of_addrs _ first addrs hnd k hk a ha, ?_⟩
    obtain ⟨c, d1, d2, d3⟩ := h8 k a imCmd ha hcmd hclip
    refine ⟨c, ?_, by rw [d2, w2.2.1], d3⟩
    rw [hfin, x2.2.2 a (hmem k a ha) (by simp), d1]
  · obtain ⟨c, d1, d2, d3, d4, d5⟩ := h9
    refine ⟨c, ?_, d2, d3, by rw [d4, w2.2.1], d5⟩
    rw [hfin, x2.2.2 first hfm (by simp), d1]

/-! ### C2, C3, C4: witnesses -/

/-- Witness of `retrieve_outcomes`: a pool whose free pool holds two
compatible commands. -/
theorem retrieve_outcomes_witness :
    (∃ x ∈ examplePool.freeCommandsPool_, isCompatible examplePool x = true) ∧
    ∃ i, ∃ hi : i < examplePool.freeCommandsPool_.length,
      isCompatible examplePool examplePool.freeCommandsPool_[i] = true ∧
      (∀ k, ∀ hk : k < i, isCompatible examplePool examplePool.freeCommandsPool_[k] = false) ∧
      (retrieveCommandFromPool examplePool).1 = examplePool.freeCommandsPool_[i] ∧
      (retrieveCommandFromPool examplePool).2.freeCommandsPool_.length + 1 =
        examplePool.freeCommandsPool_.length ∧
      (retrieveCommandFromPool examplePool).2.heap = examplePool.heap :=
  ⟨by decide, (retrieve_outcomes examplePool).2.1 (by decide)⟩

/-- Witness of `pool_membership_invariant`: the invariant is carried from a
pool with two free commands through an acquisition. -/
theorem pool_membership_invariant_witness :
    Live examplePool ∧ PoolInv examplePool ∧
    PoolInv (retrieveCommandFromPool examplePool).2 ∧
    Live (retrieveCommandFromPool examplePool).2 :=
  ⟨by decide, by decide,
    (pool_membership_invariant (F := Int)).2.2.1 examplePool (by decide) (by decide)⟩

/-- Witness of `recycling_avoids_allocation`: the pool with two free
commands is reachable. -/
theorem recycling_avoids_allocation_witness :
    Reachable examplePool ∧ AllImGui examplePool ∧
    allocatesNew (retrieveMany examplePool.freeCommandsPool_.length examplePool) = true :=
  have h : Reachable examplePool :=
    Reachable.reset _ (Reachable.retrieve _ (Reachable.retrieve _
      (Reachable.start exampleInit ⟨rfl, rfl⟩ rfl)))
  ⟨h, (recycling_avoids_allocation examplePool h).1,
    (recycling_avoids_allocation examplePool h).2.2.1⟩

/-! ### C5: state across recycling -/

theorem retrieve_heap_get (s : ImGuiDrawing F) (a : Addr) (c : RenderCommand F)
    (h : s.heap[a]? = some c) : (retrieveCommandFromPool s).2.heap[a]? = some c := by
  rcases retrieve_cases s with ⟨pre, b, post, -, -, -, -, hr⟩ | ⟨-, -, hr⟩
  · rw [hr]; exact h
  · rw [hr]
    have hlt : a < s.heap.length := by
      rcases Nat.lt_or_ge a s.heap.length with hlt | hge
      · exact hlt
      · rw [List.getElem?_eq_none hge] at h
        cases h
    simp only [grown]
    rw [List.getElem?_append_left hlt]
    exact h

theorem wellFormed_of_emptyPools (s : ImGuiDrawing F) (h : EmptyPools s) : WellFormed s := by
  obtain ⟨hf, hu⟩ := h
  refine ⟨⟨?_, ?_⟩, ?_, ?_⟩
  · rw [hf, hu]; simp
  · rw [hf, hu]; simp
  · intro p hp; rw [hf, hu] at hp; simp at hp
  · intro p hp; rw [hf, hu] at hp; simp at hp

theorem reset_WellFormed (s : ImGuiDrawing F) (h : WellFormed s) :
    WellFormed (resetCommandPool s) :=
  ⟨(reset_preserves_PoolInv s h.2.1 h.1).1, (reset_preserves_PoolInv s h.2.1 h.1).2,
    reset_preserves_AllImGui s h.2.2⟩

/-- C5, counterexample.  A command acquired from the freshly constructed
object, given texture `5`, six indices from index `3` and a scissor
rectangle, then returned by `resetCommandPool`, is the command acquired next;
its texture is still `5`, not the unset texture of a new command, and its
geometry is not the geometry `setupRenderCmd` gives a new command. -/
theorem stale_state_counterexample :
    (recycleScenario exampleInit (some 5) 6 3 0 0 10 10).1 = some 0 ∧
    ((recycleScenario exampleInit (some 5) 6 3 0 0 10 10).2.heap[0]?).map
      (fun c => c.material.texture) = some (some 5) ∧
    (RenderCommand.new Int).material.texture = none ∧
    ((recycleScenario exampleInit (some 5) 6 3 0 0 10 10).2.heap[0]?).map
      (fun c => decide (c.geometry =
        (setupRenderCmd exampleInit (RenderCommand.new Int)).geometry)) = some false := by
  decide

/-- C5, as amended.  Neither `resetCommandPool` nor `retrieveCommandFromPool`
writes to a command that exists: every command keeps its state across both.
So a command acquired from empty pools, configured, returned by
`resetCommandPool` and acquired again still has the texture, index range and
scissor rectangle it was given. -/
theorem recycled_command_keeps_state (s : ImGuiDrawing F) (hE : EmptyPools s)
    (texture : Option Nat) (numIndices firstIndex : Nat) (x y w h : Int) :
    (∀ (t : ImGuiDrawing F) (a : Addr) (c : RenderCommand F), t.heap[a]? = some c →
      (resetCommandPool t).heap[a]? = some c ∧
      (retrieveCommandFromPool t).2.heap[a]? = some c) ∧
    ∃ a c, (retrieveCommandFromPool s).1 = some a ∧
      (retrieveCommandFromPool s).2.heap[a]? = some c ∧
      (recycleScenario s texture numIndices firstIndex x y w h).1 = some a ∧
      (recycleScenario s texture numIndices firstIndex x y w h).2.heap[a]? =
        some (setScissor x y w h (setFirstIndex firstIndex (setNumIndices numIndices
          (setTexture texture c)))) := by
  refine ⟨fun t a c hc => ⟨hc, retrieve_heap_get t a c hc⟩, ?_⟩
  have hwf := wellFormed_of_emptyPools s hE
  obtain ⟨a, h1, h2, -, h4, -, -⟩ := retrieve_spec s hwf
  have ha : some a ∈ (retrieveCommandFromPool s).2.usedCommandsPool_ := by rw [h2]; simp
  have hks : KeepsShape (fun (c : RenderCommand F) =>
      setScissor x y w h (setFirstIndex firstIndex (setNumIndices numIndices
        (setTexture texture c)))) := fun _ => ⟨rfl, rfl⟩
  obtain ⟨u1, -, c, u3, u4⟩ := update_step _ a _ hks h4 ha
  have hfree : (retrieveCommandFromPool s).2.freeCommandsPool_ = [] := by
    rcases retrieve_effect s with ⟨-, -, -, hl, -, -⟩ | ⟨-, -, hf, -, -⟩
    · rw [hE.1] at hl; simp at hl
    · rw [hf, hE.1]
  have hused : (retrieveCommandFromPool s).2.usedCommandsPool_ = [some a] := by
    rw [h2, hE.2]; rfl
  refine ⟨a, c, h1, u3, ?_, ?_⟩
  · simp only [recycleScenario, h1, deref, Option.getD_some]
    have hw := reset_WellFormed _ u1
    have hfr : (resetCommandPool (updateCommand (retrieveCommandFromPool s).2 a
        (fun c => setScissor x y w h (setFirstIndex firstIndex (setNumIndices numIndices
          (setTexture texture c)))))).freeCommandsPool_ = [some a] := by
      rw [resetCommandPool_free, updateCommand_free, updateCommand_used, hfree, hused]
      rfl
    have hno := allocatesNew_false_of_AllImGui _ hw.2.2 (by rw [hfr]; simp)
    rcases retrieve_effect (resetCommandPool (updateCommand (retrieveCommandFromPool s).2 a
        (fun c => setScissor x y w h (setFirstIndex firstIndex (setNumIndices numIndices
          (setTexture texture c)))))) with ⟨-, -, -, -, -, b, hb1, hb2, -⟩ | ⟨h0, -⟩
    · rw [hfr] at hb2
      simp only [List.mem_singleton, Option.some.injEq] at hb2
      rw [hb1, hb2]
    · rw [hno] at h0; cases h0
  · simp only [recycleScenario, h1, deref, Option.getD_some]
    exact retrieve_heap_get _ a _ u4

/-- Witness of `recycled_command_keeps_state` at the freshly constructed
object. -/
theorem recycled_command_keeps_state_witness :
    EmptyPools exampleInit ∧
    ∃ a c, (retrieveCommandFromPool exampleInit).1 = some a ∧
      (retrieveCommandFromPool exampleInit).2.heap[a]? = some c ∧
      (recycleScenario exampleInit (some 5) 6 3 0 0 10 10).1 = some a ∧
      (recycleScenario exampleInit (some 5) 6 3 0 0 10 10).2.heap[a]? =
        some (setScissor 0 0 10 10 (setFirstIndex 3 (setNumIndices 6
          (setTexture (some 5) c)))) :=
  ⟨⟨rfl, rfl⟩, (recycled_command_keeps_state exampleInit ⟨rfl, rfl⟩ (some 5) 6 3 0 0 10 10).2⟩

/-! ### `draw(RenderQueue &)` -/

theorem draw_eq [GLfloatOps F] (HUD : Nat) (drawData : ImDrawData F) (ioDisplaySize : ImVec2 F)
    (self : ImGuiDrawing F) (renderQueue : List Addr)
    (h : ¬ degenerate HUD drawData ioDisplaySize) :
    draw HUD drawData ioDisplaySize self renderQueue =
      ((drawLists (drawEnv HUD drawData ioDisplaySize) (scaledLists drawData)
          (drawStart self renderQueue)).self,
        (drawLists (drawEnv HUD drawData ioDisplaySize) (scaledLists drawData)
          (drawStart self renderQueue)).renderQueue) := by
  unfold degenerate at h
  simp only [draw, h, if_false]
  rfl

theorem draw_degenerate [GLfloatOps F] (HUD : Nat) (drawData : ImDrawData F)
    (ioDisplaySize : ImVec2 F) (self : ImGuiDrawing F) (renderQueue : List Addr)
    (h : degenerate HUD drawData ioDisplaySize) :
    draw HUD drawData ioDisplaySize self renderQueue = (self, renderQueue) := by
  unfold degenerate at h
  simp only [draw, h, if_true]

theorem split_of_length_lt {α : Type} (M1 M2 L1 L2 : List α) (M L : α)
    (h : M1 ++ M :: M2 = L1 ++ L :: L2) (hlt : L1.length < M1.length) :
    ∃ E, M1 = L1 ++ L :: E := by
  rcases List.append_eq_append_iff.1 h with ⟨a, h1, h2⟩ | ⟨c, h1, h2⟩
  · rw [h1, List.length_append] at hlt
    omega
  · cases c with
    | nil =>
      rw [h1, List.append_nil] at hlt
      omega
    | cons x E =>
      simp only [List.cons_append, List.cons.injEq] at h2
      exact ⟨E, by rw [h1, h2.1]⟩

/-- The first commands of two different draw lists of one call are
different commands. -/
theorem firsts_distinct [GLfloatOps F] (env : DrawEnv F) (st : DrawState F)
    (hwf : WellFormed st.self) (hn : st.numCmd < 2 ^ 32)
    (A E : List (ImDrawList F)) (L : ImDrawList F) :
    (retrieveCommandFromPool (drawLists env (A ++ L :: E) st).self).1 ≠
      (retrieveCommandFromPool (drawLists env A st).self).1 := by
  obtain ⟨first, addrs, h1, -, h3, -⟩ := drawLists_at env A E L st hwf hn
  obtain ⟨w1, -, -, -, -⟩ := drawLists_frame env (A ++ L :: E) st hwf hn
  obtain ⟨b, g1, -, g3, -⟩ := retrieve_spec _ w1
  rw [h1, g1]
  intro hb
  rw [hb] at g3
  exact g3 h3

/-- C7 (single owner per draw list).  For the draw list `L` standing between
`L1` and `L2` in the draw data of a non-degenerate call of `draw` on a
well-formed object, let `first` be the command acquired first for `L` and
`addrs` the commands used for its draw commands (the submitted ones are those
passing the clip test).  The calls made for `L` are the six upload calls on
`first`, each once, followed only by `addCommand` calls; when `draw` returns,
`first` shares no buffer, every submitted command with `cmdIdx > 0` is
another command than `first` and shares the vertex and index buffers of
`first`, and `first` is not the first command of any other draw list. -/
theorem single_owner_per_list [GLfloatOps F] (HUD : Nat) (drawData : ImDrawData F)
    (ioDisplaySize : ImVec2 F) (self : ImGuiDrawing F) (renderQueue : List Addr)
    (hwf : WellFormed self) (hdim : ¬ degenerate HUD drawData ioDisplaySize)
    (L1 L2 : List (ImDrawList F)) (L : ImDrawList F)
    (hL : scaledLists drawData = L1 ++ L :: L2) :
    ∃ first addrs,
      (retrieveCommandFromPool (drawLists (drawEnv HUD drawData ioDisplaySize) L1
        (drawStart self renderQueue)).self).1 = some first ∧
      addrs.length = L.CmdBuffer.length ∧
      (∀ a, addrs.head? = some a → a = first) ∧
      (drawList (drawEnv HUD drawData ioDisplaySize) L
          (drawLists (drawEnv HUD drawData ioDisplaySize) L1
            (drawStart self renderQueue))).renderQueue =
        (drawLists (drawEnv HUD drawData ioDisplaySize) L1
            (drawStart self renderQueue)).renderQueue ++
          submittedOf (drawEnv HUD drawData ioDisplaySize) addrs L.CmdBuffer ∧
      (drawList (drawEnv HUD drawData ioDisplaySize) L
          (drawLists (drawEnv HUD drawData ioDisplaySize) L1
            (drawStart self renderQueue))).self.events =
        (drawLists (drawEnv HUD drawData ioDisplaySize) L1
            (drawStart self renderQueue)).self.events ++ uploadEvents first L ++
          (submittedOf (drawEnv HUD drawData ioDisplaySize) addrs L.CmdBuffer).map
            Event.addCommand ∧
      (∃ c, (draw HUD drawData ioDisplaySize self renderQueue).1.heap[first]? = some c ∧
        c.geometry.sharedVbo = none ∧ c.geometry.sharedIbo = none) ∧
      (∀ k a imCmd, 0 < k → addrs[k]? = some a → L.CmdBuffer[k]? = some imCmd →
        clipTest (drawEnv HUD drawData ioDisplaySize) imCmd = true →
        a ≠ first ∧
        ∃ c, (draw HUD drawData ioDisplaySize self renderQueue).1.heap[a]? = some c ∧
          c.geometry.sharedVbo = some first ∧ c.geometry.sharedIbo = some first) ∧
      (∀ M1 M2 M, scaledLists drawData = M1 ++ M :: M2 → M1.length ≠ L1.length →
        (retrieveCommandFromPool (drawLists (drawEnv HUD drawData ioDisplaySize) M1
          (drawStart self renderQueue)).self).1 ≠ some first) := by
  have hwf0 : WellFormed (drawStart self renderQueue).self := reset_WellFormed self hwf
  have hn0 : (drawStart self renderQueue).numCmd < 2 ^ 32 := by
    show 0 < 2 ^ 32
    norm_num
  obtain ⟨first, addrs, h1, -, -, h4, h5, h6, h7, h8, h9⟩ :=
    drawLists_at (drawEnv HUD drawData ioDisplaySize) L1 L2 L _ hwf0 hn0
  rw [draw_eq HUD drawData ioDisplaySize self renderQueue hdim, hL]
  refine ⟨first, addrs, h1, h4, h5, h6, h7, ?_, ?_, ?_⟩
  · obtain ⟨c, d1, d2, d3, -, -⟩ := h9
    exact ⟨c, d1, d2, d3⟩
  · intro k a imCmd hk ha hcmd hclip
    obtain ⟨e1, c, e2, -, -⟩ := h8 k a imCmd ha hcmd hclip
    refine ⟨e1 hk, _, e2, ?_, ?_⟩
    · exact (configureCmd_pos_sharing _ first k hk imCmd _ _ c).1
    · exact (configureCmd_pos_sharing _ first k hk imCmd _ _ c).2
  · intro M1 M2 M hM hlen
    rcases Nat.lt_or_gt_of_ne hlen with hlt | hgt
    · obtain ⟨E, hE⟩ := split_of_length_lt L1 L2 M1 M2 L M hM hlt
      have := firsts_distinct (drawEnv HUD drawData ioDisplaySize) _ hwf0 hn0 M1 E M
      rw [← hE, h1] at this
      exact fun h => this h.symm
    · obtain ⟨E, hE⟩ := split_of_length_lt M1 M2 L1 L2 M L hM.symm hgt
      have := firsts_distinct (drawEnv HUD drawData ioDisplaySize) _ hwf0 hn0 L1 E L
      rw [← hE, h1] at this
      exact this

/-- Every call of `draw` leaves a well-formed object well-formed. -/
theorem draw_WellFormed [GLfloatOps F] (HUD : Nat) (drawData : ImDrawData F)
    (ioDisplaySize : ImVec2 F) (self : ImGuiDrawing F) (renderQueue : List Addr)
    (hwf : WellFormed self) :
    WellFormed (draw HUD drawData ioDisplaySize self renderQueue).1 := by
  by_cases hdim : degenerate HUD drawData ioDisplaySize
  · rw [draw_degenerate HUD drawData ioDisplaySize self renderQueue hdim]
    exact hwf
  · rw [draw_eq HUD drawData ioDisplaySize self renderQueue hdim]
    exact (drawLists_frame _ _ (drawStart self renderQueue) (reset_WellFormed self hwf)
      (by show 0 < 2 ^ 32; norm_num)).1

/-- Witness of `single_owner_per_list`: one draw list of two commands, drawn
by the freshly constructed object. -/
theorem single_owner_per_list_witness :
    WellFormed exampleInit ∧
    ¬ degenerate 32767 (exampleData [twoTextureList]) ⟨100, 100⟩ ∧
    scaledLists (exampleData [twoTextureList]) = [] ++ twoTextureList :: [] ∧
    ∃ (first : Addr) (c : RenderCommand Int),
      (draw 32767 (exampleData [twoTextureList]) ⟨100, 100⟩ exampleInit []).1.heap[first]? =
        some c ∧ c.geometry.sharedVbo = none ∧ c.geometry.sharedIbo = none :=
  ⟨by decide, by decide, by decide,
    match single_owner_per_list 32767 (exampleData [twoTextureList]) ⟨100, 100⟩ exampleInit []
      (by decide) (by decide) [] [] twoTextureList (by decide) with
    | ⟨first, _, h⟩ => ⟨first, h.2.2.2.2.2.1⟩⟩

/-! ### C8: sharing and the material -/

/-- C8, counterexample.  For a draw list of two commands with textures `1`
and `2`, both passing the clip test, `draw` submits the commands `0` and `1`;
command `1` shares the vertex and index buffers of command `0` although its
texture is `2` and that of command `0` is `1`, and the only upload made is
the one of command `0`. -/
theorem sharing_crosses_texture_change :
    (draw 32767 (exampleData [twoTextureList]) ⟨100, 100⟩ exampleInit []).2 = [0, 1] ∧
    (draw 32767 (exampleData [twoTextureList]) ⟨100, 100⟩ exampleInit []).1.heap.map
      (fun c => (c.geometry.sharedVbo, c.geometry.sharedIbo, c.material.texture)) =
      [(none, none, some 1), (some 0, some 0, some 2)] ∧
    (draw 32767 (exampleData [twoTextureList]) ⟨100, 100⟩ exampleInit []).1.events =
      uploadEvents 0 twoTextureList ++ [Event.addCommand 0, Event.addCommand 1] := by
  decide

/-- C8, as amended.  For the draw list `L` standing between `L1` and `L2` in
the draw data of a non-degenerate call of `draw` on a well-formed object,
let `first` be the command acquired first for `L` and `addrs` the commands
used for its draw commands.  Every submitted command with `cmdIdx > 0` shares
the vertex and index buffers of `first` and has the shader program and the
transparency flag of `first`; its texture is the `TextureId` of its own draw
command, whatever the texture of `first` is.  Whatever the `TextureId` values
of the draw commands of `L` are, the calls made for `L` are the six upload
calls on `first`, each once, followed only by `addCommand` calls: a change of
`TextureId` causes no upload. -/
theorem sharing_keeps_shader_within_list [GLfloatOps F] (HUD : Nat) (drawData : ImDrawData F)
    (ioDisplaySize : ImVec2 F) (self : ImGuiDrawing F) (renderQueue : List Addr)
    (hwf : WellFormed self) (hdim : ¬ degenerate HUD drawData ioDisplaySize)
    (L1 L2 : List (ImDrawList F)) (L : ImDrawList F)
    (hL : scaledLists drawData = L1 ++ L :: L2) :
    ∃ first addrs,
      (retrieveCommandFromPool (drawLists (drawEnv HUD drawData ioDisplaySize) L1
        (drawStart self renderQueue)).self).1 = some first ∧
      addrs.length = L.CmdBuffer.length ∧
      (drawList (drawEnv HUD drawData ioDisplaySize) L
          (drawLists (drawEnv HUD drawData ioDisplaySize) L1
            (drawStart self renderQueue))).renderQueue =
        (drawLists (drawEnv HUD drawData ioDisplaySize) L1
            (drawStart self renderQueue)).renderQueue ++
          submittedOf (drawEnv HUD drawData ioDisplaySize) addrs L.CmdBuffer ∧
      (drawList (drawEnv HUD drawData ioDisplaySize) L
          (drawLists (drawEnv HUD drawData ioDisplaySize) L1
            (drawStart self renderQueue))).self.events =
        (drawLists (drawEnv HUD drawData ioDisplaySize) L1
            (drawStart self renderQueue)).self.events ++ uploadEvents first L ++
          (submittedOf (drawEnv HUD drawData ioDisplaySize) addrs L.CmdBuffer).map
            Event.addCommand ∧
      ∀ k a imCmd, 0 < k → addrs[k]? = some a → L.CmdBuffer[k]? = some imCmd →
        clipTest (drawEnv HUD drawData ioDisplaySize) imCmd = true →
        ∃ c cf, (draw HUD drawData ioDisplaySize self renderQueue).1.heap[a]? = some c ∧
          (draw HUD drawData ioDisplaySize self renderQueue).1.heap[first]? = some cf ∧
          c.geometry.sharedVbo = some first ∧ c.geometry.sharedIbo = some first ∧
          c.material.shaderProgram = cf.material.shaderProgram ∧
          c.material.isTransparent = cf.material.isTransparent ∧
          c.material.texture = imCmd.TextureId := by
  have hwf0 : WellFormed (drawStart self renderQueue).self := reset_WellFormed self hwf
  have hn0 : (drawStart self renderQueue).numCmd < 2 ^ 32 := by
    show 0 < 2 ^ 32
    norm_num
  obtain ⟨first, addrs, h1, -, -, h4, -, h6, h7, h8, h9⟩ :=
    drawLists_at (drawEnv HUD drawData ioDisplaySize) L1 L2 L _ hwf0 hn0
  rw [draw_eq HUD drawData ioDisplaySize self renderQueue hdim, hL]
  refine ⟨first, addrs, h1, h4, h6, h7, ?_⟩
  intro k a imCmd hk ha hcmd hclip
  obtain ⟨-, c, e2, e3, e4⟩ := h8 k a imCmd ha hcmd hclip
  obtain ⟨cf, f1, -, -, f4, f5⟩ := h9
  have hfld := configureCmd_fields (drawEnv HUD drawData ioDisplaySize) first k imCmd
    (((drawLists (drawEnv HUD drawData ioDisplaySize) L1 (drawStart self renderQueue)).numCmd
      + k) % 2 ^ 32) (elemsBefore L.CmdBuffer k % 2 ^ 16) c
  refine ⟨_, cf, e2, f1, (configureCmd_pos_sharing _ first k hk imCmd _ _ c).1,
    (configureCmd_pos_sharing _ first k hk imCmd _ _ c).2, ?_, ?_, hfld.2.2.2.1⟩
  · rw [hfld.2.2.2.2.1, e3, f4]
  · rw [hfld.2.2.2.2.2, e4, f5]

/-- Witness of `sharing_keeps_shader_within_list`: one draw list of two
commands with different textures. -/
theorem sharing_keeps_shader_within_list_witness :
    WellFormed exampleInit ∧
    ¬ degenerate 32767 (exampleData [twoTextureList]) ⟨100, 100⟩ ∧
    scaledLists (exampleData [twoTextureList]) = [] ++ twoTextureList :: [] ∧
    ∃ (first : Addr) (addrs : List Addr),
      (retrieveCommandFromPool (drawLists
        (drawEnv 32767 (exampleData [twoTextureList]) ⟨100, 100⟩) []
        (drawStart exampleInit [])).self).1 = some first ∧
      addrs.length = twoTextureList.CmdBuffer.length ∧
      (drawList (drawEnv 32767 (exampleData [twoTextureList]) ⟨100, 100⟩) twoTextureList
          (drawLists (drawEnv 32767 (exampleData [twoTextureList]) ⟨100, 100⟩) []
            (drawStart exampleInit []))).self.events =
        (drawLists (drawEnv 32767 (exampleData [twoTextureList]) ⟨100, 100⟩) []
            (drawStart exampleInit [])).self.events ++ uploadEvents first twoTextureList ++
          (submittedOf (drawEnv 32767 (exampleData [twoTextureList]) ⟨100, 100⟩) addrs
            twoTextureList.CmdBuffer).map Event.addCommand :=
  ⟨by decide, by decide, by decide,
    match sharing_keeps_shader_within_list 32767 (exampleData [twoTextureList]) ⟨100, 100⟩
      exampleInit [] (by decide) (by decide) [] [] twoTextureList (by decide) with
    | ⟨first, addrs, h⟩ => ⟨first, addrs, h.1, h.2.1, h.2.2.2.1⟩⟩

/-! ### C6: index sub-ranges -/

/-- C6, the code at the failing input.  For a draw list whose two commands
have `65538` and `6` indices (sum `65544`, the size of its index buffer),
both passing the clip test, `draw` submits command `0` with the index
sub-range starting at `0` of length `65538` and command `1` with the
sub-range starting at `2` of length `6`: the running offset `65538` was
reduced modulo `2 ^ 16`, so the second range lies inside the first. -/
theorem index_ranges_overlap_at_large_list :
    (largeList.CmdBuffer.map (fun c => c.ElemCount)).sum ≤ largeList.IdxBuffer.length ∧
    (draw 32767 (exampleData [largeList]) ⟨100, 100⟩ exampleInit []).2 = [0, 1] ∧
    (draw 32767 (exampleData [largeList]) ⟨100, 100⟩ exampleInit []).1.heap.map
      (fun c => (c.geometry.firstIndex, c.geometry.numIndices, c.geometry.sharedIbo)) =
      [(0, 65538, none), (2, 6, some 0)] := by
  refine ⟨?_, ?_, ?_⟩
  · have h : largeList.IdxBuffer.length = 65544 := List.length_replicate _ _
    rw [h]
    decide
  · decide
  · decide

/-! ### Index sub-ranges below the wrap of `firstIndex` -/

theorem elemsBefore_mono (cmds : List (ImDrawCmd F)) :
    ∀ k j, k ≤ j → elemsBefore cmds k ≤ elemsBefore cmds j := by
  induction cmds with
  | nil => intro k j _; simp [elemsBefore]
  | cons c rest ih =>
    intro k j hkj
    cases k with
    | zero => rw [elemsBefore_zero]; exact Nat.zero_le _
    | succ k =>
      cases j with
      | zero => omega
      | succ j =>
        rw [elemsBefore_succ, elemsBefore_succ]
        exact Nat.add_le_add_left (ih k j (by omega)) _

theorem elemsBefore_get (cmds : List (ImDrawCmd F)) :
    ∀ k c, cmds[k]? = some c → elemsBefore cmds (k + 1) = elemsBefore cmds k + c.ElemCount := by
  induction cmds with
  | nil => intro k c h; simp at h
  | cons d rest ih =>
    intro k c h
    cases k with
    | zero =>
      simp only [List.getElem?_cons_zero, Option.some.injEq] at h
      subst h
      rw [elemsBefore_succ, elemsBefore_zero, elemsBefore_zero]
      omega
    | succ k =>
      simp only [List.getElem?_cons_succ] at h
      rw [elemsBefore_succ, elemsBefore_succ, ih k c h]
      omega

theorem elemsBefore_le_total (cmds : List (ImDrawCmd F)) (k : Nat) :
    elemsBefore cmds k ≤ elemsBefore cmds cmds.length := by
  rcases Nat.le_total k cmds.length with h | h
  · exact elemsBefore_mono cmds k _ h
  · have : elemsBefore cmds k = elemsBefore cmds cmds.length := by
      unfold elemsBefore
      rw [List.take_of_length_le h, List.take_length]
    rw [this]

/-- For a draw list whose `ElemCount` values sum to less than `2 ^ 16` and to
at most the size of its index buffer, the command submitted for draw command
`k` gets the index sub-range that starts at the sum of the `ElemCount` before
`k` and has `ElemCount` of `k` indices; the sub-ranges lie in the index buffer
and the one of an earlier draw command ends before the one of a later draw
command starts. -/
theorem index_ranges_disjoint_below_wrap [GLfloatOps F] (HUD : Nat) (drawData : ImDrawData F)
    (ioDisplaySize : ImVec2 F) (self : ImGuiDrawing F) (renderQueue : List Addr)
    (hwf : WellFormed self) (hdim : ¬ degenerate HUD drawData ioDisplaySize)
    (L1 L2 : List (ImDrawList F)) (L : ImDrawList F)
    (hL : scaledLists drawData = L1 ++ L :: L2)
    (hsum : elemsBefore L.CmdBuffer L.CmdBuffer.length ≤ L.IdxBuffer.length)
    (hsmall : elemsBefore L.CmdBuffer L.CmdBuffer.length < 2 ^ 16) :
    ∃ addrs : List Addr,
      addrs.length = L.CmdBuffer.length ∧
      (drawList (drawEnv HUD drawData ioDisplaySize) L
          (drawLists (drawEnv HUD drawData ioDisplaySize) L1
            (drawStart self renderQueue))).renderQueue =
        (drawLists (drawEnv HUD drawData ioDisplaySize) L1
            (drawStart self renderQueue)).renderQueue ++
          submittedOf (drawEnv HUD drawData ioDisplaySize) addrs L.CmdBuffer ∧
      ∀ k a imCmd, addrs[k]? = some a → L.CmdBuffer[k]? = some imCmd →
        clipTest (drawEnv HUD drawData ioDisplaySize) imCmd = true →
        ∃ c, (draw HUD drawData ioDisplaySize self renderQueue).1.heap[a]? = some c ∧
          c.geometry.firstIndex = elemsBefore L.CmdBuffer k ∧
          c.geometry.numIndices = imCmd.ElemCount ∧
          c.geometry.firstIndex + c.geometry.numIndices ≤ L.IdxBuffer.length ∧
          ∀ j, k < j → c.geometry.firstIndex + c.geometry.numIndices ≤
            elemsBefore L.CmdBuffer j := by
  have hwf0 : WellFormed (drawStart self renderQueue).self := reset_WellFormed self hwf
  have hn0 : (drawStart self renderQueue).numCmd < 2 ^ 32 := by
    show 0 < 2 ^ 32
    norm_num
  obtain ⟨first, addrs, -, -, -, h4, -, h6, -, h8, -⟩ :=
    drawLists_at (drawEnv HUD drawData ioDisplaySize) L1 L2 L _ hwf0 hn0
  rw [draw_eq HUD drawData ioDisplaySize self renderQueue hdim, hL]
  refine ⟨addrs, h4, h6, ?_⟩
  intro k a imCmd ha hcmd hclip
  obtain ⟨-, c, e2, -, -⟩ := h8 k a imCmd ha hcmd hclip
  have hfld := configureCmd_fields (drawEnv HUD drawData ioDisplaySize) first k imCmd
    (((drawLists (drawEnv HUD drawData ioDisplaySize) L1 (drawStart self renderQueue)).numCmd
      + k) % 2 ^ 32) (elemsBefore L.CmdBuffer k % 2 ^ 16) c
  have hk1 := elemsBefore_get L.CmdBuffer k imCmd hcmd
  have hlt : elemsBefore L.CmdBuffer k < 2 ^ 16 :=
    lt_of_le_of_lt (elemsBefore_le_total L.CmdBuffer k) hsmall
  have htot := elemsBefore_le_total L.CmdBuffer (k + 1)
  refine ⟨_, e2, ?_, hfld.1, ?_, ?_⟩
  · rw [hfld.2.1, Nat.mod_eq_of_lt hlt]
  · rw [hfld.2.1, hfld.1, Nat.mod_eq_of_lt hlt]
    omega
  · intro j hj
    rw [hfld.2.1, hfld.1, Nat.mod_eq_of_lt hlt, ← hk1]
    exact elemsBefore_mono L.CmdBuffer (k + 1) j hj

end ncine

/-! ### C9: stability of the issue order -/

namespace RenderQueue

theorem withKey_insertByKey (k : Nat) (cmd : QueueEntry) (queue : List QueueEntry) :
    withKey k (insertByKey cmd queue) = withKey k (cmd :: queue) := by
  induction queue with
  | nil => rfl
  | cons d rest ih =>
    by_cases h : cmd.2.SortKey ≤ d.2.SortKey
    · simp [insertByKey, h]
    · have hne : cmd.2.SortKey = k → d.2.SortKey ≠ k := by
        intro h1 h2
        omega
      simp only [insertByKey, h, if_false]
      unfold withKey at ih ⊢
      rw [List.filter_cons, ih]
      by_cases hc : cmd.2.SortKey = k
      · have hd := hne hc
        simp [List.filter_cons, hc, hd]
      · by_cases hd : d.2.SortKey = k <;> simp [List.filter_cons, hc, hd]

theorem withKey_sortAndIssue (k : Nat) (queue : List QueueEntry) :
    withKey k (sortAndIssue queue) = withKey k queue := by
  induction queue with
  | nil => rfl
  | cons cmd rest ih =>
    simp only [sortAndIssue]
    rw [withKey_insertByKey]
    unfold withKey at ih ⊢
    rw [List.filter_cons, List.filter_cons, ih]

theorem insertByKey_perm (cmd : QueueEntry) (queue : List QueueEntry) :
    (insertByKey cmd queue).Perm (cmd :: queue) := by
  induction queue with
  | nil => exact List.Perm.refl _
  | cons d rest ih =>
    by_cases h : cmd.2.SortKey ≤ d.2.SortKey
    · simp [insertByKey, h]
    · simp only [insertByKey, h, if_false]
      exact (List.Perm.cons d ih).trans (List.Perm.swap cmd d rest)

/-- The issue order is a rearrangement of the queue. -/
theorem sortAndIssue_perm (queue : List QueueEntry) : (sortAndIssue queue).Perm queue := by
  induction queue with
  | nil => exact List.Perm.refl _
  | cons cmd rest ih =>
    exact (insertByKey_perm cmd _).trans (List.Perm.cons cmd ih)

theorem insertByKey_sorted (cmd : QueueEntry) (queue : List QueueEntry)
    (h : queue.Pairwise (fun a b => a.2.SortKey ≤ b.2.SortKey)) :
    (insertByKey cmd queue).Pairwise (fun a b => a.2.SortKey ≤ b.2.SortKey) := by
  induction queue with
  | nil => simp [insertByKey]
  | cons d rest ih =>
    obtain ⟨h1, h2⟩ := List.pairwise_cons.1 h
    by_cases hc : cmd.2.SortKey ≤ d.2.SortKey
    · simp only [insertByKey, hc, if_true]
      refine List.pairwise_cons.2 ⟨?_, h⟩
      intro b hb
      rcases List.mem_cons.1 hb with rfl | hb
      · exact hc
      · exact le_trans hc (h1 b hb)
    · simp only [insertByKey, hc, if_false]
      refine List.pairwise_cons.2 ⟨?_, ih h2⟩
      intro b hb
      rcases List.mem_cons.1 ((insertByKey_perm cmd rest).mem_iff.1 hb) with rfl | hb
      · omega
      · exact h1 b hb

/-- The issue order is sorted by sort key. -/
theorem sortAndIssue_sorted (queue : List QueueEntry) :
    (sortAndIssue queue).Pairwise (fun a b => a.2.SortKey ≤ b.2.SortKey) := by
  induction queue with
  | nil => exact List.Pairwise.nil
  | cons cmd rest ih => exact insertByKey_sorted cmd _ ih

theorem sortAndIssue_of_equal_keys (queue : List QueueEntry)
    (h : ∀ c ∈ queue, ∀ d ∈ queue, c.2.SortKey = d.2.SortKey) : sortAndIssue queue = queue := by
  cases queue with
  | nil => rfl
  | cons c rest =>
    have h1 := withKey_sortAndIssue c.2.SortKey (c :: rest)
    have hall : ∀ (l : List QueueEntry), (∀ d ∈ l, d.2.SortKey = c.2.SortKey) →
        withKey c.2.SortKey l = l := by
      intro l hl
      unfold withKey
      rw [List.filter_eq_self]
      intro d hd
      simp [hl d hd]
    rw [hall (c :: rest) (fun d hd => h d hd c (List.mem_cons_self _ _))] at h1
    rw [hall (sortAndIssue (c :: rest))
      (fun d hd => h d ((sortAndIssue_perm _).mem_iff.1 hd) c (List.mem_cons_self _ _))] at h1
    exact h1

/-- C9 (stability of the submission order).  For every queue and every sort
key `k`, the entries with key `k` are issued by `sortAndIssue` in the order in
which they were added; a queue whose entries all have the same key is issued
in exactly the order of submission; so are commands of identical layer,
material and priority, whatever function of these the sort key is. -/
theorem sortAndIssue_stable :
    (∀ (queue : List QueueEntry) (k : Nat),
      withKey k (sortAndIssue queue) = withKey k queue) ∧
    (∀ queue : List QueueEntry, (∀ c ∈ queue, ∀ d ∈ queue, c.2.SortKey = d.2.SortKey) →
      sortAndIssue queue = queue) ∧
    (∀ (keyOf : Nat → Nat → Int → Nat) (layer material : Nat) (priority : Int)
      (queue : List QueueEntry),
      (∀ c ∈ queue, c.2.m_material.m_uTextureGLId = material ∧ c.2.m_iPriority = priority) →
      sortAndIssue (queue.map (fun c => (c.1, c.2.CalculateSortKey keyOf layer))) =
        queue.map (fun c => (c.1, c.2.CalculateSortKey keyOf layer))) := by
  refine ⟨fun queue k => withKey_sortAndIssue k queue, sortAndIssue_of_equal_keys, ?_⟩
  intro keyOf layer material priority queue h
  apply sortAndIssue_of_equal_keys
  intro c hc d hd
  obtain ⟨c0, hc0, rfl⟩ := List.mem_map.1 hc
  obtain ⟨d0, hd0, rfl⟩ := List.mem_map.1 hd
  simp only [ncRenderCommand.SortKey, ncRenderCommand.CalculateSortKey]
  rw [(h c0 hc0).1, (h c0 hc0).2, (h d0 hd0).1, (h d0 hd0).2]

/-- Witness of `sortAndIssue_stable`: three commands with the same key,
added at the addresses `2`, `0`, `1`. -/
theorem sortAndIssue_stable_witness :
    (∀ c ∈ [((2 : Nat), (⟨5, 0, ⟨1⟩⟩ : ncRenderCommand)), (0, ⟨5, 0, ⟨1⟩⟩), (1, ⟨5, 0, ⟨1⟩⟩)],
      ∀ d ∈ [((2 : Nat), (⟨5, 0, ⟨1⟩⟩ : ncRenderCommand)), (0, ⟨5, 0, ⟨1⟩⟩), (1, ⟨5, 0, ⟨1⟩⟩)],
      c.2.SortKey = d.2.SortKey) ∧
    sortAndIssue [((2 : Nat), (⟨5, 0, ⟨1⟩⟩ : ncRenderCommand)), (0, ⟨5, 0, ⟨1⟩⟩), (1, ⟨5, 0, ⟨1⟩⟩)] =
      [(2, ⟨5, 0, ⟨1⟩⟩), (0, ⟨5, 0, ⟨1⟩⟩), (1, ⟨5, 0, ⟨1⟩⟩)] :=
  ⟨by decide, sortAndIssue_stable.2.1 _ (by decide)⟩

end RenderQueue

/-! ### C10: the total of the timer -/

namespace ncTimer

/-- C10, the code at the failing input.  After `Start` at clock value `100`,
`Stop` at `110` and a second `Stop` at `120`, the timer is stopped and
`GetTotal` returns `30`, while the timer was running for `10`: the second
`Stop` added the interval since the last `Continue` once more.  Likewise
after `Start` at `0`, `Continue` at `5` and `Stop` at `10`, `GetTotal` returns
`5` while the timer was running for `10`. -/
theorem total_after_repeated_stop :
    GetTotal (run (Start 100 ⟨false, 0, 0, 0⟩) [Call.stop 110, Call.stop 120]) = 30 ∧
    runningTime true 100 [Call.stop 110, Call.stop 120] = 10 ∧
    (run (Start 100 ⟨false, 0, 0, 0⟩) [Call.stop 110, Call.stop 120]).m_bRunning = false ∧
    Monotone 100 [Call.stop 110, Call.stop 120] ∧
    GetTotal (run (Start 0 ⟨false, 0, 0, 0⟩) [Call.resume 5, Call.stop 10]) = 5 ∧
    runningTime true 0 [Call.resume 5, Call.stop 10] = 10 := by
  decide

end ncTimer

namespace ncine

end ncine

namespace ncTimer

theorem ulongSub_of_le (a b : Nat) (hab : b ≤ a) (ha : a < ULONG_MODULUS) :
    ulongSub a b = a - b := by
  unfold ulongSub
  have hb : b < ULONG_MODULUS := lt_of_le_of_lt hab ha
  rw [Nat.mod_eq_of_lt ha, Nat.mod_eq_of_lt hb]
  have h1 : a + ULONG_MODULUS - b = (a - b) + ULONG_MODULUS := by omega
  rw [h1, Nat.add_mod_right]
  exact Nat.mod_eq_of_lt (by omega)

theorem run_total_of_alternating (calls : List Call) :
    ∀ (running : Bool) (s : ncTimer) (t : Nat), Alternating running calls → Monotone t calls →
      (∀ c ∈ calls, c.time < ULONG_MODULUS) → s.m_bRunning = running →
      (running = true → s.m_uStartTime ≤ t) → s.m_uTotal < ULONG_MODULUS →
      (run s calls).m_uTotal =
        (s.m_uTotal + runningTime running s.m_uStartTime calls) % ULONG_MODULUS := by
  induction calls with
  | nil =>
    intro running s t _ _ _ _ _ hT
    simp only [run, runningTime, Nat.add_zero]
    exact (Nat.mod_eq_of_lt hT).symm
  | cons c rest ih =>
    intro running s t hA hM hB hR hS hT
    cases c with
    | stop now =>
      obtain ⟨hrun, hA1⟩ := hA
      obtain ⟨hle, hM1⟩ := hM
      have hnow : now < ULONG_MODULUS := hB (Call.stop now) (List.mem_cons_self _ _)
      have hsub : ulongSub now s.m_uStartTime = now - s.m_uStartTime :=
        ulongSub_of_le now _ (le_trans (hS hrun) hle) hnow
      have hpos : 0 < ULONG_MODULUS := by unfold ULONG_MODULUS; norm_num
      have h1 := ih false (Stop now s) now hA1 hM1
        (fun c hc => hB c (List.mem_cons_of_mem _ hc)) rfl (fun h => by cases h)
        (Nat.mod_lt _ hpos)
      simp only [run]
      rw [h1]
      simp only [Stop, ulongAdd, runningTime, hrun, if_true]
      rw [hsub, Nat.add_mod, Nat.mod_mod, ← Nat.add_mod, Nat.add_assoc]
    | resume now =>
      obtain ⟨hrun, hA1⟩ := hA
      obtain ⟨hle, hM1⟩ := hM
      have h1 := ih true (Continue now s) now hA1 hM1
        (fun c hc => hB c (List.mem_cons_of_mem _ hc)) rfl (fun _ => le_refl _) hT
      simp only [run]
      rw [h1]
      simp only [Continue, runningTime, hrun, Bool.false_eq_true, if_false]

/-- When the calls after `Start` alternate (`Stop`, `Continue`, `Stop`, ...),
the clock does not decrease and stays below `2 ^ 64`, `GetTotal` is the time
during which the timer was running, modulo `2 ^ 64`. -/
theorem total_of_alternating_calls (t0 : Nat) (self : ncTimer) (calls : List Call)
    (hA : Alternating true calls) (hM : Monotone t0 calls)
    (hB : ∀ c ∈ calls, c.time < ULONG_MODULUS) :
    GetTotal (run (Start t0 self) calls) = runningTime true t0 calls % ULONG_MODULUS := by
  have h := run_total_of_alternating calls true (Start t0 self) t0 hA hM hB rfl
    (fun _ => le_refl _) (by show 0 < ULONG_MODULUS; unfold ULONG_MODULUS; norm_num)
  unfold GetTotal
  rw [h]
  simp [Start, Continue, Reset]

end ncTimer

namespace ncine

/-! ### The views of the submitted commands -/

theorem viewOf_configureCmd [GLfloatOps F] (env : DrawEnv F) (first : Addr) (idx : Nat)
    (imCmd : ImDrawCmd F) (n f : Nat) (c : RenderCommand F) :
    viewOf (configureCmd env first idx imCmd n f c) = expectedView env imCmd n f := by
  by_cases hidx : idx > 0 <;>
    simp [viewOf, expectedView, scissorOf, configureCmd, hidx, setTexture, setLayer,
      setFirstIndex, setNumIndices, setScissor, shareIbo, shareVbo]

/-- The inner loop on a well-formed state: the views, in the state it
leaves, of the commands it adds to the render queue. -/
theorem drawCmds_views [GLfloatOps F] (env : DrawEnv F) (first : Addr)
    (cmds : List (ImDrawCmd F)) :
    ∀ (idx : Nat) (st : DrawState F), WellFormed st.self →
      some first ∈ st.self.usedCommandsPool_ →
    ∃ seg : List Addr,
      (drawCmds env first cmds idx st).renderQueue = st.renderQueue ++ seg ∧
      (∀ a ∈ seg, some a ∈ (drawCmds env first cmds idx st).self.usedCommandsPool_) ∧
      seg.map (viewAt (drawCmds env first cmds idx st).self) =
        (expectedViews env cmds st.numCmd st.firstIndex).map some := by
  induction cmds with
  | nil =>
    intro idx st _ _
    exact ⟨[], by simp [drawCmds], by simp, by simp [expectedViews]⟩
  | cons imCmd rest ih =>
    intro idx st hwf hfirst
    obtain ⟨b1, b2, b3, -, b5, b6, -, b8, b9⟩ := drawCmd_spec env first idx imCmd st hwf hfirst
    have hfirst1 : some first ∈ (drawCmd env first idx imCmd st).self.usedCommandsPool_ := by
      rw [b1]; exact List.mem_append_left _ hfirst
    have hn1 : (drawCmd env first idx imCmd st).numCmd < 2 ^ 32 := by
      rw [b8]; exact Nat.mod_lt _ (by norm_num)
    have hf1 : (drawCmd env first idx imCmd st).firstIndex < 2 ^ 16 := by
      rw [b9]; exact Nat.mod_lt _ (by norm_num)
    obtain ⟨seg, q1, m1, v1⟩ := ih (idx + 1) (drawCmd env first idx imCmd st) b6 hfirst1
    obtain ⟨-, -, -, -, -, -, -, -, c8, -⟩ :=
      drawCmds_spec env first rest (idx + 1) (drawCmd env first idx imCmd st) b6 hfirst1 hn1 hf1
    simp only [Nat.succ_ne_zero, if_false] at c8
    have hcurr : some (acquireCmd first idx st.self).1 ∈
        (drawCmds env first rest (idx + 1)
          (drawCmd env first idx imCmd st)).self.usedCommandsPool_ := by
      obtain ⟨ext, he⟩ := c8.1
      rw [he]
      exact List.mem_append_left _ b2
    rw [b8, b9] at v1
    by_cases hc : clipTest env imCmd = true
    · refine ⟨(acquireCmd first idx st.self).1 :: seg, ?_, ?_, ?_⟩
      · simp only [drawCmds]
        rw [q1, b3, if_pos hc, List.append_assoc]
        rfl
      · intro a ha
        rcases List.mem_cons.1 ha with rfl | ha
        · exact hcurr
        · exact m1 a ha
      · obtain ⟨c, d1, -, -, -⟩ := b5 hc
        simp only [drawCmds, expectedViews, if_pos hc, List.map_cons, List.singleton_append]
        rw [v1]
        congr 1
        unfold viewAt
        rw [c8.2.2 _ b2 (by simp), d1]
        simp only [Option.map_some', viewOf_configureCmd]
    · simp only [Bool.not_eq_true] at hc
      refine ⟨seg, ?_, m1, ?_⟩
      · simp only [drawCmds]
        rw [q1, b3]
        simp [hc]
      · simp only [drawCmds, expectedViews, hc, Bool.false_eq_true, if_false, List.nil_append]
        exact v1

/-- One iteration of the outer loop on a well-formed state: the views of the
commands it adds to the render queue. -/
theorem drawList_views [GLfloatOps F] (env : DrawEnv F) (L : ImDrawList F) (st : DrawState F)
    (hwf : WellFormed st.self) :
    ∃ seg : List Addr,
      (drawList env L st).renderQueue = st.renderQueue ++ seg ∧
      (∀ a ∈ seg, some a ∈ (drawList env L st).self.usedCommandsPool_) ∧
      seg.map (viewAt (drawList env L st).self) =
        (expectedViews env L.CmdBuffer st.numCmd 0).map some := by
  obtain ⟨-, -, g3, g4, -, -, -⟩ := beginList_spec env L st.self hwf
  have hfirst : some (beginList env L st.self).1 ∈
      (beginList env L st.self).2.usedCommandsPool_ := by rw [g3]; simp
  exact drawCmds_views env (beginList env L st.self).1 L.CmdBuffer 0
    { st with self := (beginList env L st.self).2, firstIndex := 0 } g4 hfirst

/-- The outer loop on a well-formed state: the views, in the state it
leaves, of the commands it adds to the render queue. -/
theorem drawLists_views [GLfloatOps F] (env : DrawEnv F) (Ls : List (ImDrawList F)) :
    ∀ (st : DrawState F), WellFormed st.self → st.numCmd < 2 ^ 32 →
    ∃ seg : List Addr,
      (drawLists env Ls st).renderQueue = st.renderQueue ++ seg ∧
      (∀ a ∈ seg, some a ∈ (drawLists env Ls st).self.usedCommandsPool_) ∧
      seg.map (viewAt (drawLists env Ls st).self) =
        (expectedAll env Ls st.numCmd).map some := by
  induction Ls with
  | nil =>
    intro st _ _
    exact ⟨[], by simp [drawLists], by simp, by simp [expectedAll]⟩
  | cons L rest ih =>
    intro st hwf hn
    obtain ⟨seg1, q1, m1, v1⟩ := drawList_views env L st hwf
    obtain ⟨-, -, -, -, -, -, -, -, -, -, -, h10, -, h12⟩ := drawList_spec env L st hwf hn
    have hn1 : (drawList env L st).numCmd < 2 ^ 32 := by
      rw [h12]; exact Nat.mod_lt _ (by norm_num)
    obtain ⟨seg2, q2, m2, v2⟩ := ih (drawList env L st) h10 hn1
    obtain ⟨-, x2, -, -, -⟩ := drawLists_frame env rest (drawList env L st) h10 hn1
    rw [h12] at v2
    refine ⟨seg1 ++ seg2, ?_, ?_, ?_⟩
    · simp only [drawLists]
      rw [q2, q1, List.append_assoc]
    · intro a ha
      simp only [drawLists]
      rcases List.mem_append.1 ha with ha | ha
      · obtain ⟨ext, he⟩ := x2.1
        rw [he]
        exact List.mem_append_left _ (m1 a ha)
      · exact m2 a ha
    · simp only [drawLists, expectedAll, List.map_append]
      rw [v2, ← v1]
      congr 1
      apply List.map_congr_left
      intro a ha
      unfold viewAt
      rw [x2.2.2 a (m1 a ha) (by simp)]

/-- A non-degenerate call of `draw` on a well-formed object: the views, in
the state it returns, of the commands it adds to the render queue. -/
theorem draw_views [GLfloatOps F] (HUD : Nat) (drawData : ImDrawData F)
    (ioDisplaySize : ImVec2 F) (self : ImGuiDrawing F) (renderQueue : List Addr)
    (hwf : WellFormed self) (hdim : ¬ degenerate HUD drawData ioDisplaySize) :
    ∃ seg : List Addr,
      (draw HUD drawData ioDisplaySize self renderQueue).2 = renderQueue ++ seg ∧
      seg.map (viewAt (draw HUD drawData ioDisplaySize self renderQueue).1) =
        (expectedAll (drawEnv HUD drawData ioDisplaySize) (scaledLists drawData) 0).map
          some := by
  obtain ⟨seg, q, -, v⟩ := drawLists_views (drawEnv HUD drawData ioDisplaySize)
    (scaledLists drawData) (drawStart self renderQueue) (reset_WellFormed self hwf)
    (by show 0 < 2 ^ 32; norm_num)
  rw [draw_eq HUD drawData ioDisplaySize self renderQueue hdim]
  exact ⟨seg, q, v⟩

/-! ### C11: index offsets -/

/-- C11 (index offsets are prefix sums that count culled commands).  For the
draw list `L` standing between `L1` and `L2` in the draw data of a
non-degenerate call of `draw` on a well-formed object, let `addrs` be the
commands used for its draw commands (the submitted ones are those passing the
clip test).  When `draw` returns, the command submitted for draw command `k`
has as first index the sum of `ElemCount` over all draw commands of `L` before
`k`, culled or not, reduced modulo `2 ^ 16`, and as number of indices the
`ElemCount` of draw command `k`; the sum is taken within `L` only. -/
theorem index_offsets_are_prefix_sums [GLfloatOps F] (HUD : Nat) (drawData : ImDrawData F)
    (ioDisplaySize : ImVec2 F) (self : ImGuiDrawing F) (renderQueue : List Addr)
    (hwf : WellFormed self) (hdim : ¬ degenerate HUD drawData ioDisplaySize)
    (L1 L2 : List (ImDrawList F)) (L : ImDrawList F)
    (hL : scaledLists drawData = L1 ++ L :: L2) :
    ∃ addrs : List Addr,
      addrs.length = L.CmdBuffer.length ∧
      (drawList (drawEnv HUD drawData ioDisplaySize) L
          (drawLists (drawEnv HUD drawData ioDisplaySize) L1
            (drawStart self renderQueue))).renderQueue =
        (drawLists (drawEnv HUD drawData ioDisplaySize) L1
            (drawStart self renderQueue)).renderQueue ++
          submittedOf (drawEnv HUD drawData ioDisplaySize) addrs L.CmdBuffer ∧
      ∀ k a imCmd, addrs[k]? = some a → L.CmdBuffer[k]? = some imCmd →
        clipTest (drawEnv HUD drawData ioDisplaySize) imCmd = true →
        ∃ c, (draw HUD drawData ioDisplaySize self renderQueue).1.heap[a]? = some c ∧
          c.geometry.firstIndex =
            ((L.CmdBuffer.take k).map (fun (d : ImDrawCmd F) => d.ElemCount)).sum % 2 ^ 16 ∧
          c.geometry.numIndices = imCmd.ElemCount := by
  have hwf0 : WellFormed (drawStart self renderQueue).self := reset_WellFormed self hwf
  have hn0 : (drawStart self renderQueue).numCmd < 2 ^ 32 := by
    show 0 < 2 ^ 32
    norm_num
  obtain ⟨first, addrs, -, -, -, h4, -, h6, -, h8, -⟩ :=
    drawLists_at (drawEnv HUD drawData ioDisplaySize) L1 L2 L _ hwf0 hn0
  rw [draw_eq HUD drawData ioDisplaySize self renderQueue hdim, hL]
  refine ⟨addrs, h4, h6, ?_⟩
  intro k a imCmd ha hcmd hclip
  obtain ⟨-, c, e2, -, -⟩ := h8 k a imCmd ha hcmd hclip
  have hfld := configureCmd_fields (drawEnv HUD drawData ioDisplaySize) first k imCmd
    (((drawLists (drawEnv HUD drawData ioDisplaySize) L1 (drawStart self renderQueue)).numCmd
      + k) % 2 ^ 32) (elemsBefore L.CmdBuffer k % 2 ^ 16) c
  exact ⟨_, e2, hfld.2.1, hfld.1⟩

/-- Witness of `index_offsets_are_prefix_sums`: a draw list of three
commands, the second of which is culled. -/
theorem index_offsets_are_prefix_sums_witness :
    WellFormed exampleInit ∧
    ¬ degenerate 32767 (exampleData [culledList]) ⟨100, 100⟩ ∧
    scaledLists (exampleData [culledList]) = [] ++ culledList :: [] ∧
    ∃ addrs : List Addr,
      addrs.length = culledList.CmdBuffer.length ∧
      (drawList (drawEnv 32767 (exampleData [culledList]) ⟨100, 100⟩) culledList
          (drawLists (drawEnv 32767 (exampleData [culledList]) ⟨100, 100⟩) []
            (drawStart exampleInit []))).renderQueue =
        (drawLists (drawEnv 32767 (exampleData [culledList]) ⟨100, 100⟩) []
            (drawStart exampleInit [])).renderQueue ++
          submittedOf (drawEnv 32767 (exampleData [culledList]) ⟨100, 100⟩) addrs
            culledList.CmdBuffer :=
  ⟨by decide, by decide, by decide,
    match index_offsets_are_prefix_sums 32767 (exampleData [culledList]) ⟨100, 100⟩
      exampleInit [] (by decide) (by decide) [] [] culledList (by decide) with
    | ⟨addrs, h⟩ => ⟨addrs, h.1, h.2.1⟩⟩

/-- The code on a draw list of three commands with `6`, `3` and `9` indices
whose second command is culled: the commands `0` and `2` are submitted, and
the first index of command `2` is `9`, the culled command included. -/
theorem culled_command_counts_in_offset :
    (draw 32767 (exampleData [culledList]) ⟨100, 100⟩ exampleInit []).2 = [0, 2] ∧
    (draw 32767 (exampleData [culledList]) ⟨100, 100⟩ exampleInit []).1.heap.map
      (fun c => (c.geometry.firstIndex, c.geometry.numIndices)) = [(0, 6), (0, 0), (9, 9)] := by
  decide

/-! ### C12: layers -/

theorem countCmds_cons (L : ImDrawList F) (rest : List (ImDrawList F)) :
    countCmds (L :: rest) = L.CmdBuffer.length + countCmds rest := by
  simp [countCmds]

theorem countCmds_append (L1 L2 : List (ImDrawList F)) :
    countCmds (L1 ++ L2) = countCmds L1 + countCmds L2 := by
  simp [countCmds]

theorem expectedViews_layers [GLfloatOps F] (env : DrawEnv F) (cmds : List (ImDrawCmd F)) :
    ∀ (n f : Nat), env.HUD + n + cmds.length < 2 ^ 32 →
      (∀ v ∈ expectedViews env cmds n f,
        env.HUD + n ≤ v.layer ∧ v.layer < env.HUD + n + cmds.length) ∧
      (expectedViews env cmds n f).Pairwise (fun a b => a.layer < b.layer) := by
  induction cmds with
  | nil =>
    intro n f _
    simp [expectedViews]
  | cons c rest ih =>
    intro n f h
    simp only [List.length_cons] at h
    have hn1 : (n + 1) % 2 ^ 32 = n + 1 := Nat.mod_eq_of_lt (by omega)
    have hl : (env.HUD + n) % 2 ^ 32 = env.HUD + n := Nat.mod_eq_of_lt (by omega)
    obtain ⟨i1, i2⟩ := ih ((n + 1) % 2 ^ 32) ((f + c.ElemCount) % 2 ^ 16) (by rw [hn1]; omega)
    rw [hn1] at i1 i2
    have hrest : ∀ v ∈ expectedViews env rest (n + 1) ((f + c.ElemCount) % 2 ^ 16),
        env.HUD + n < v.layer ∧ v.layer < env.HUD + n + (rest.length + 1) := by
      intro v hv
      have := i1 v hv
      omega
    simp only [expectedViews, hn1, List.length_cons]
    by_cases hc : clipTest env c = true
    · simp only [hc, if_true, List.singleton_append]
      refine ⟨?_, List.pairwise_cons.2 ⟨?_, i2⟩⟩
      · intro v hv
        rcases List.mem_cons.1 hv with rfl | hv
        · simp only [expectedView, hl]
          omega
        · have := hrest v hv
          omega
      · intro v hv
        simp only [expectedView, hl]
        exact (hrest v hv).1
    · simp only [Bool.not_eq_true] at hc
      simp only [hc, Bool.false_eq_true, if_false, List.nil_append]
      refine ⟨?_, i2⟩
      intro v hv
      have := hrest v hv
      omega

theorem expectedAll_layers [GLfloatOps F] (env : DrawEnv F) (Ls : List (ImDrawList F)) :
    ∀ (n : Nat), env.HUD + n + countCmds Ls < 2 ^ 32 →
      (∀ v ∈ expectedAll env Ls n,
        env.HUD + n ≤ v.layer ∧ v.layer < env.HUD + n + countCmds Ls) ∧
      (expectedAll env Ls n).Pairwise (fun a b => a.layer < b.layer) := by
  induction Ls with
  | nil =>
    intro n _
    simp [expectedAll]
  | cons L rest ih =>
    intro n h
    rw [countCmds_cons] at h
    have hn1 : (n + L.CmdBuffer.length) % 2 ^ 32 = n + L.CmdBuffer.length :=
      Nat.mod_eq_of_lt (by omega)
    obtain ⟨i1, i2⟩ := ih ((n + L.CmdBuffer.length) % 2 ^ 32) (by rw [hn1]; omega)
    rw [hn1] at i1 i2
    obtain ⟨j1, j2⟩ := expectedViews_layers env L.CmdBuffer n 0 (by omega)
    simp only [expectedAll, hn1, countCmds_cons]
    refine ⟨?_, List.pairwise_append.2 ⟨j2, i2, ?_⟩⟩
    · intro v hv
      rcases List.mem_append.1 hv with hv | hv
      · have := j1 v hv
        omega
      · have := i1 v hv
        omega
    · intro a ha b hb
      have := j1 a ha
      have := i1 b hb
      omega

theorem layer_mod (H c k M : Nat) : (H + ((0 + c) % M + k) % M) % M = (H + (c + k)) % M := by
  rw [Nat.zero_add, Nat.add_mod H, Nat.mod_mod, Nat.add_mod (c % M), Nat.mod_mod,
    ← Nat.add_mod c, ← Nat.add_mod H]

/-- C12 (layers follow submission order).  In a non-degenerate call of `draw`
on a well-formed object, the command submitted for draw command `k` of the
draw list `L` that stands after the lists `L1` has, when `draw` returns, the
layer `HUD + j` reduced modulo `2 ^ 32`, where `j` is the number of draw
commands of `L1`, culled or not, plus `k`.  When `HUD` plus the number of all
draw commands is below `2 ^ 32`, that layer is `HUD + j`, and the layers of the
commands added to the render queue, read in the order of the `addCommand`
calls, are all at least `HUD` and strictly increasing, hence pairwise
different. -/
theorem layers_follow_submission_order [GLfloatOps F] (HUD : Nat) (drawData : ImDrawData F)
    (ioDisplaySize : ImVec2 F) (self : ImGuiDrawing F) (renderQueue : List Addr)
    (hwf : WellFormed self) (hdim : ¬ degenerate HUD drawData ioDisplaySize) :
    (∀ (L1 L2 : List (ImDrawList F)) (L : ImDrawList F),
      scaledLists drawData = L1 ++ L :: L2 →
      ∃ addrs : List Addr,
        addrs.length = L.CmdBuffer.length ∧
        (drawList (drawEnv HUD drawData ioDisplaySize) L
            (drawLists (drawEnv HUD drawData ioDisplaySize) L1
              (drawStart self renderQueue))).renderQueue =
          (drawLists (drawEnv HUD drawData ioDisplaySize) L1
              (drawStart self renderQueue)).renderQueue ++
            submittedOf (drawEnv HUD drawData ioDisplaySize) addrs L.CmdBuffer ∧
        ∀ k a imCmd, addrs[k]? = some a → L.CmdBuffer[k]? = some imCmd →
          clipTest (drawEnv HUD drawData ioDisplaySize) imCmd = true →
          ∃ c, (draw HUD drawData ioDisplaySize self renderQueue).1.heap[a]? = some c ∧
            c.layer = (HUD + (countCmds L1 + k)) % 2 ^ 32 ∧
            (HUD + countCmds (scaledLists drawData) < 2 ^ 32 →
              c.layer = HUD + (countCmds L1 + k))) ∧
    (HUD + countCmds (scaledLists drawData) < 2 ^ 32 →
      ∃ (seg : List Addr) (layers : List Nat),
        (draw HUD drawData ioDisplaySize self renderQueue).2 = renderQueue ++ seg ∧
        seg.map (fun a =>
            ((draw HUD drawData ioDisplaySize self renderQueue).1.heap[a]?).map
              (fun c => c.layer)) = layers.map some ∧
        (∀ l ∈ layers, HUD ≤ l) ∧
        layers.Pairwise (fun a b => a < b)) := by
  have hwf0 : WellFormed (drawStart self renderQueue).self := reset_WellFormed self hwf
  have hn0 : (drawStart self renderQueue).numCmd < 2 ^ 32 := by
    show 0 < 2 ^ 32
    norm_num
  refine ⟨?_, ?_⟩
  · intro L1 L2 L hL
    obtain ⟨first, addrs, -, -, -, h4, -, h6, -, h8, -⟩ :=
      drawLists_at (drawEnv HUD drawData ioDisplaySize) L1 L2 L _ hwf0 hn0
    obtain ⟨-, -, -, w4, -⟩ := drawLists_frame (drawEnv HUD drawData ioDisplaySize) L1
      (drawStart self renderQueue) hwf0 hn0
    rw [draw_eq HUD drawData ioDisplaySize self renderQueue hdim, hL]
    refine ⟨addrs, h4, h6, ?_⟩
    intro k a imCmd ha hcmd hclip
    obtain ⟨-, c, e2, -, -⟩ := h8 k a imCmd ha hcmd hclip
    have hfld := configureCmd_fields (drawEnv HUD drawData ioDisplaySize) first k imCmd
      (((drawLists (drawEnv HUD drawData ioDisplaySize) L1 (drawStart self renderQueue)).numCmd
        + k) % 2 ^ 32) (elemsBefore L.CmdBuffer k % 2 ^ 16) c
    have hlayer : (configureCmd (drawEnv HUD drawData ioDisplaySize) first k imCmd
        (((drawLists (drawEnv HUD drawData ioDisplaySize) L1
          (drawStart self renderQueue)).numCmd + k) % 2 ^ 32)
        (elemsBefore L.CmdBuffer k % 2 ^ 16) c).layer = (HUD + (countCmds L1 + k)) % 2 ^ 32 := by
      rw [hfld.2.2.1, w4]
      exact layer_mod HUD (countCmds L1) k (2 ^ 32)
    refine ⟨_, e2, hlayer, ?_⟩
    intro hno
    rw [hlayer]
    apply Nat.mod_eq_of_lt
    have hk : k < L.CmdBuffer.length := by
      rcases Nat.lt_or_ge k L.CmdBuffer.length with h | h
      · exact h
      · rw [List.getElem?_eq_none h] at hcmd
        cases hcmd
    rw [countCmds_append, countCmds_cons] at hno
    omega
  · intro hno
    obtain ⟨seg, q, v⟩ := draw_views HUD drawData ioDisplaySize self renderQueue hwf hdim
    obtain ⟨j1, j2⟩ := expectedAll_layers (drawEnv HUD drawData ioDisplaySize)
      (scaledLists drawData) 0 (by show HUD + 0 + _ < _; omega)
    refine ⟨seg, (expectedAll (drawEnv HUD drawData ioDisplaySize)
      (scaledLists drawData) 0).map (fun v => v.layer), q, ?_, ?_, ?_⟩
    · have h1 : seg.map (fun a =>
          ((draw HUD drawData ioDisplaySize self renderQueue).1.heap[a]?).map
            (fun c => c.layer)) =
          (seg.map (viewAt (draw HUD drawData ioDisplaySize self renderQueue).1)).map
            (Option.map (fun v => v.layer)) := by
        rw [List.map_map]
        apply List.map_congr_left
        intro a _
        simp only [Function.comp, viewAt, Option.map_map]
        rfl
      rw [h1, v, List.map_map, List.map_map]
      rfl
    · intro l hl
      obtain ⟨v, hv, rfl⟩ := List.mem_map.1 hl
      have := (j1 v hv).1
      show HUD ≤ v.layer
      have h2 : (drawEnv HUD drawData ioDisplaySize).HUD = HUD := rfl
      omega
    · exact (List.pairwise_map).2 j2

/-- Witness of `layers_follow_submission_order`: two draw lists with five
draw commands, one of them culled. -/
theorem layers_follow_submission_order_witness :
    WellFormed exampleInit ∧
    ¬ degenerate 32767 (exampleData [culledList, twoTextureList]) ⟨100, 100⟩ ∧
    32767 + countCmds (scaledLists (exampleData [culledList, twoTextureList])) < 2 ^ 32 ∧
    ∃ (seg : List Addr) (layers : List Nat),
      (draw 32767 (exampleData [culledList, twoTextureList]) ⟨100, 100⟩ exampleInit []).2 =
        [] ++ seg ∧
      seg.map (fun a =>
          ((draw 32767 (exampleData [culledList, twoTextureList]) ⟨100, 100⟩
            exampleInit []).1.heap[a]?).map (fun c => c.layer)) = layers.map some ∧
      (∀ l ∈ layers, 32767 ≤ l) ∧
      layers.Pairwise (fun a b => a < b) :=
  ⟨by decide, by decide, by decide,
    (layers_follow_submission_order 32767 (exampleData [culledList, twoTextureList])
      ⟨100, 100⟩ exampleInit [] (by decide) (by decide)).2 (by decide)⟩

/-- The code on two draw lists with three and two draw commands, the second
command of the first list culled: the layers of the four submitted commands
are `HUD + 0`, `HUD + 2`, `HUD + 3` and `HUD + 4`. -/
theorem layers_count_culled_commands :
    (draw 32767 (exampleData [culledList, twoTextureList]) ⟨100, 100⟩ exampleInit []).2 =
      [0, 2, 3, 4] ∧
    (draw 32767 (exampleData [culledList, twoTextureList]) ⟨100, 100⟩ exampleInit []).2.map
      (fun a => ((draw 32767 (exampleData [culledList, twoTextureList]) ⟨100, 100⟩
        exampleInit []).1.heap[a]?).map (fun c => c.layer)) =
      [some 32767, some 32769, some 32770, some 32771] := by
  decide

/-! ### C13: the immediate-mode path -/

theorem glStep_foldl_draw (g : GLState × List DrawTuple) (x y w h : Int) (target : Nat)
    (t : Nat) (mode : Nat) (count : Int) (type indices : Nat) :
    ([GLCall.scissorEnable x y w h, GLCall.glBindTexture target t,
      GLCall.glDrawElements mode count type indices].foldl glStep g).2 =
      g.2 ++ [⟨some (x, y, w, h), some t, count, indices⟩] := rfl

theorem drawImmediateCmd_pass [GLfloatOps F] (glHandle : Nat → Nat) (env : DrawEnv F)
    (c : ImDrawCmd F) (st : ImmediateState) (texture : Nat) (hc : clipTest env c = true)
    (ht : c.TextureId = some texture) :
    drawImmediateCmd glHandle env c st =
      some { calls := st.calls ++ drawCmdCalls glHandle env c texture st.firstIndex
             firstIndex := st.firstIndex + c.ElemCount } := by
  simp [drawImmediateCmd, hc, ht, scissorOf, drawCmdCalls]

theorem drawImmediateCmd_null [GLfloatOps F] (glHandle : Nat → Nat) (env : DrawEnv F)
    (c : ImDrawCmd F) (st : ImmediateState) (hc : clipTest env c = true)
    (ht : c.TextureId = none) :
    drawImmediateCmd glHandle env c st = none := by
  simp [drawImmediateCmd, hc, ht]

theorem drawImmediateCmd_culled [GLfloatOps F] (glHandle : Nat → Nat) (env : DrawEnv F)
    (c : ImDrawCmd F) (st : ImmediateState) (hc : clipTest env c = false) :
    drawImmediateCmd glHandle env c st =
      some { calls := st.calls, firstIndex := st.firstIndex + c.ElemCount } := by
  simp [drawImmediateCmd, hc]

/-- The inner loop of `draw()` on draw commands whose `TextureId` is not null
when they pass the clip test: it returns, and these are the calls it adds and
the draw calls among them, whatever the OpenGL state before. -/
theorem drawImmediateCmds_spec [GLfloatOps F] (glHandle : Nat → Nat) (env : DrawEnv F)
    (cmds : List (ImDrawCmd F)) :
    ∀ st : ImmediateState,
      (∀ c ∈ cmds, clipTest env c = true → c.TextureId ≠ none) →
      ∃ (new : List GLCall) (st1 : ImmediateState),
        drawImmediateCmds glHandle env cmds st = some st1 ∧
        st1.calls = st.calls ++ new ∧
        ∀ g : GLState × List DrawTuple,
          (new.foldl glStep g).2 = g.2 ++ immediateTuples glHandle env cmds st.firstIndex := by
  induction cmds with
  | nil =>
    intro st _
    exact ⟨[], st, rfl, by simp, fun g => by simp [immediateTuples]⟩
  | cons c rest ih =>
    intro st hnn
    have hrest : ∀ d ∈ rest, clipTest env d = true → d.TextureId ≠ none :=
      fun d hd => hnn d (List.mem_cons_of_mem _ hd)
    by_cases hc : clipTest env c = true
    · obtain ⟨texture, ht⟩ := Option.ne_none_iff_exists'.1 (hnn c (List.mem_cons_self _ _) hc)
      have hst := drawImmediateCmd_pass glHandle env c st texture hc ht
      obtain ⟨new, st1, h0, h1, h2⟩ := ih
        { calls := st.calls ++ drawCmdCalls glHandle env c texture st.firstIndex
          firstIndex := st.firstIndex + c.ElemCount } hrest
      refine ⟨drawCmdCalls glHandle env c texture st.firstIndex ++ new, st1, ?_, ?_, ?_⟩
      · simp only [drawImmediateCmds]
        rw [hst]
        exact h0
      · rw [h1, List.append_assoc]
      · intro g
        rw [List.foldl_append, h2]
        simp only [drawCmdCalls, glStep_foldl_draw, immediateTuples, hc, if_true,
          List.append_assoc, ht, Option.map_some']
    · simp only [Bool.not_eq_true] at hc
      have hst := drawImmediateCmd_culled glHandle env c st hc
      obtain ⟨new, st1, h0, h1, h2⟩ := ih
        { calls := st.calls, firstIndex := st.firstIndex + c.ElemCount } hrest
      refine ⟨new, st1, ?_, h1, ?_⟩
      · simp only [drawImmediateCmds]
        rw [hst]
        exact h0
      · intro g
        rw [h2]
        simp [immediateTuples, hc]

/-- The inner loop of `draw()` does not return when a draw command passes the
clip test with a null `TextureId`. -/
theorem drawImmediateCmds_null [GLfloatOps F] (glHandle : Nat → Nat) (env : DrawEnv F)
    (cmds : List (ImDrawCmd F)) :
    ∀ st : ImmediateState,
      (∃ c ∈ cmds, clipTest env c = true ∧ c.TextureId = none) →
      drawImmediateCmds glHandle env cmds st = none := by
  induction cmds with
  | nil =>
    intro st h
    obtain ⟨c, hc, _⟩ := h
    exact absurd hc (List.not_mem_nil c)
  | cons c rest ih =>
    intro st h
    obtain ⟨d, hd, hpass, hnull⟩ := h
    simp only [drawImmediateCmds]
    cases hst : drawImmediateCmd glHandle env c st with
    | none => rfl
    | some st1 =>
      rcases List.mem_cons.1 hd with rfl | hmem
      · rw [drawImmediateCmd_null glHandle env d st hpass hnull] at hst
        exact absurd hst (by simp)
      · exact ih st1 ⟨d, hmem, hpass, hnull⟩

theorem drawImmediateList_spec [GLfloatOps F] (glHandle : Nat → Nat) (env : DrawEnv F)
    (self : ImGuiDrawing F) (L : ImDrawList F) (calls : List GLCall) (hb : HasBuffers self)
    (hnn : ∀ c ∈ L.CmdBuffer, clipTest env c = true → c.TextureId ≠ none) :
    ∃ new : List GLCall,
      drawImmediateList glHandle env self L calls = some (calls ++ new) ∧
      ∀ g : GLState × List DrawTuple,
        (new.foldl glStep g).2 = g.2 ++ immediateTuples glHandle env L.CmdBuffer 0 := by
  obtain ⟨hv, hi, hp, ha⟩ := hb
  obtain ⟨v, hv⟩ := Option.ne_none_iff_exists'.1 hv
  obtain ⟨i, hi⟩ := Option.ne_none_iff_exists'.1 hi
  obtain ⟨program, hp⟩ := Option.ne_none_iff_exists'.1 hp
  obtain ⟨a, ha⟩ := Option.ne_none_iff_exists'.1 ha
  obtain ⟨new, st1, h0, h1, h2⟩ := drawImmediateCmds_spec glHandle env L.CmdBuffer
    { calls := calls ++ drawListCalls program L, firstIndex := 0 } hnn
  refine ⟨drawListCalls program L ++ new, ?_, ?_⟩
  · have h0a : drawImmediateCmds glHandle env L.CmdBuffer
        { calls := calls ++
            [GLCall.vboBufferData (L.VtxBuffer.length * sizeofImDrawVert) GL_STREAM_DRAW,
             GLCall.iboBufferData (L.IdxBuffer.length * sizeofImDrawIdx) GL_STREAM_DRAW,
             GLCall.useProgram program,
             GLCall.defineVertexFormat], firstIndex := 0 } = some st1 := h0
    simp only [drawImmediateList, hv, hi, hp, ha, h0a]
    rw [h1, List.append_assoc]
  · intro g
    rw [List.foldl_append, h2]
    rfl

/-- An iteration of the outer loop of `draw()` does not return when one of
the members it dereferences is null. -/
theorem drawImmediateList_no_buffers [GLfloatOps F] (glHandle : Nat → Nat) (env : DrawEnv F)
    (self : ImGuiDrawing F) (L : ImDrawList F) (calls : List GLCall) (hb : ¬ HasBuffers self) :
    drawImmediateList glHandle env self L calls = none := by
  unfold HasBuffers at hb
  unfold drawImmediateList
  cases hv : self.vbo_ <;> cases hi : self.ibo_ <;> cases hp : self.imguiShaderProgram_ <;>
    cases ha : self.imguiShaderAttributes_ <;> simp_all

theorem drawImmediateLists_spec [GLfloatOps F] (glHandle : Nat → Nat) (env : DrawEnv F)
    (self : ImGuiDrawing F) (hb : HasBuffers self) (Ls : List (ImDrawList F)) :
    ∀ calls : List GLCall, TexturesNotNull env Ls →
      ∃ new : List GLCall,
        drawImmediateLists glHandle env self Ls calls = some (calls ++ new) ∧
        ∀ g : GLState × List DrawTuple,
          (new.foldl glStep g).2 = g.2 ++ immediateAll glHandle env Ls := by
  induction Ls with
  | nil =>
    intro calls _
    exact ⟨[], by simp [drawImmediateLists], fun g => by simp [immediateAll]⟩
  | cons L rest ih =>
    intro calls hnn
    obtain ⟨new1, h1, h2⟩ := drawImmediateList_spec glHandle env self L calls hb
      (hnn L (List.mem_cons_self _ _))
    obtain ⟨new2, h3, h4⟩ := ih (calls ++ new1)
      (fun M hM => hnn M (List.mem_cons_of_mem _ hM))
    refine ⟨new1 ++ new2, ?_, ?_⟩
    · simp only [drawImmediateLists]
      rw [h1]
      show drawImmediateLists glHandle env self rest (calls ++ new1) = _
      rw [h3, List.append_assoc]
    · intro g
      rw [List.foldl_append, h4, h2]
      simp only [immediateAll, List.append_assoc]

theorem clipTest_congr [GLfloatOps F] (env env1 : DrawEnv F) (hw : env.fbWidth = env1.fbWidth)
    (hh : env.fbHeight = env1.fbHeight) (hp : env.pos = env1.pos) (c : ImDrawCmd F) :
    clipTest env c = clipTest env1 c ∧ scissorOf env c = scissorOf env1 c := by
  simp [clipTest, scissorOf, clipRectOf, hw, hh, hp]

theorem immediateTuples_congr [GLfloatOps F] (glHandle : Nat → Nat) (env env1 : DrawEnv F)
    (hw : env.fbWidth = env1.fbWidth) (hh : env.fbHeight = env1.fbHeight)
    (hp : env.pos = env1.pos) (cmds : List (ImDrawCmd F)) :
    ∀ f, immediateTuples glHandle env cmds f = immediateTuples glHandle env1 cmds f := by
  induction cmds with
  | nil => intro f; rfl
  | cons c rest ih =>
    intro f
    simp only [immediateTuples, ih, (clipTest_congr env env1 hw hh hp c).1,
      (clipTest_congr env env1 hw hh hp c).2]

theorem immediateAll_congr [GLfloatOps F] (glHandle : Nat → Nat) (env env1 : DrawEnv F)
    (hw : env.fbWidth = env1.fbWidth) (hh : env.fbHeight = env1.fbHeight)
    (hp : env.pos = env1.pos) (Ls : List (ImDrawList F)) :
    immediateAll glHandle env Ls = immediateAll glHandle env1 Ls := by
  induction Ls with
  | nil => rfl
  | cons L rest ih =>
    simp only [immediateAll, ih, immediateTuples_congr glHandle env env1 hw hh hp]

theorem texturesNotNull_congr [GLfloatOps F] (env env1 : DrawEnv F)
    (hw : env.fbWidth = env1.fbWidth) (hh : env.fbHeight = env1.fbHeight)
    (hp : env.pos = env1.pos) (Ls : List (ImDrawList F)) (h : TexturesNotNull env Ls) :
    TexturesNotNull env1 Ls := by
  intro L hL c hc hpass
  exact h L hL c hc (by rw [(clipTest_congr env env1 hw hh hp c).1]; exact hpass)

/-- A non-degenerate call of `draw()` on an object whose buffers exist and on
draw commands whose `TextureId` is not null when they pass the clip test: it
returns, and these are its draw calls. -/
theorem drawImmediate_tuples [GLfloatOps F] (glHandle : Nat → Nat) (HUD : Nat)
    (drawData : ImDrawData F) (ioDisplaySize : ImVec2 F) (self : ImGuiDrawing F)
    (blendWasEnabled : Bool) (hdim : ¬ degenerate HUD drawData ioDisplaySize)
    (hb : HasBuffers self)
    (hnn : TexturesNotNull (drawEnv HUD drawData ioDisplaySize) (scaledLists drawData)) :
    ∃ calls : List GLCall,
      drawImmediate glHandle drawData self blendWasEnabled = some calls ∧
      drawTuples calls =
        immediateAll glHandle (drawEnv HUD drawData ioDisplaySize) (scaledLists drawData) := by
  have hd : ¬ ((immediateEnv drawData).fbWidth ≤ 0 ∨ (immediateEnv drawData).fbHeight ≤ 0) :=
    hdim
  obtain ⟨new, h1, h2⟩ := drawImmediateLists_spec glHandle (immediateEnv drawData) self hb
    (scaledLists drawData)
    [GLCall.glIsEnabled GL_BLEND, GLCall.glEnable GL_BLEND,
      GLCall.glBlendFunc GL_SRC_ALPHA GL_ONE_MINUS_SRC_ALPHA]
    (texturesNotNull_congr (drawEnv HUD drawData ioDisplaySize) (immediateEnv drawData)
      rfl rfl rfl (scaledLists drawData) hnn)
  have h1a : drawImmediateLists glHandle (immediateEnv drawData) self
      (ScaleClipRects drawData drawData.FramebufferScale).CmdLists
      [GLCall.glIsEnabled GL_BLEND, GLCall.glEnable GL_BLEND,
        GLCall.glBlendFunc GL_SRC_ALPHA GL_ONE_MINUS_SRC_ALPHA] = _ := h1
  have hcalls : ∃ last : List GLCall,
      drawImmediate glHandle drawData self blendWasEnabled =
        some ([GLCall.glIsEnabled GL_BLEND, GLCall.glEnable GL_BLEND,
          GLCall.glBlendFunc GL_SRC_ALPHA GL_ONE_MINUS_SRC_ALPHA] ++ new ++ last) ∧
      ∀ g : GLState × List DrawTuple, (last.foldl glStep g).2 = g.2 := by
    cases blendWasEnabled with
    | false =>
      refine ⟨[GLCall.scissorDisable, GLCall.glDisable GL_BLEND], ?_, fun g => rfl⟩
      simp only [drawImmediate, hd, if_false, if_true, h1a]
      simp
    | true =>
      refine ⟨[GLCall.scissorDisable], ?_, fun g => rfl⟩
      simp only [drawImmediate, hd, if_false, Bool.true_eq_false, h1a]
  obtain ⟨last, h3, h4⟩ := hcalls
  refine ⟨_, h3, ?_⟩
  unfold drawTuples
  rw [List.foldl_append, h4, List.foldl_append, h2]
  rw [immediateAll_congr glHandle (immediateEnv drawData) (drawEnv HUD drawData ioDisplaySize)
    rfl rfl rfl]
  rfl

theorem toGLsizei_of_lt (n : Nat) (h : n < 2 ^ 16) : toGLsizei n = (n : Int) := by
  have h1 : n % 2 ^ 32 = n := Nat.mod_eq_of_lt (by omega)
  unfold toGLsizei
  rw [h1, if_pos (by omega)]

theorem expectedViews_tuples [GLfloatOps F] (glHandle : Nat → Nat) (env : DrawEnv F)
    (cmds : List (ImDrawCmd F)) :
    ∀ (n f : Nat), f + (cmds.map (fun (c : ImDrawCmd F) => c.ElemCount)).sum < 2 ^ 16 →
      (expectedViews env cmds n f).map (tupleOfView glHandle) =
        immediateTuples glHandle env cmds f := by
  induction cmds with
  | nil => intro n f _; rfl
  | cons c rest ih =>
    intro n f h
    simp only [List.map_cons, List.sum_cons] at h
    have hf : (f + c.ElemCount) % 2 ^ 16 = f + c.ElemCount := Nat.mod_eq_of_lt (by omega)
    have hr := ih ((n + 1) % 2 ^ 32) (f + c.ElemCount) (by omega)
    simp only [expectedViews, immediateTuples, hf, List.map_append, hr]
    congr 1
    by_cases hc : clipTest env c = true
    · simp only [hc, if_true, List.map_cons, List.map_nil, tupleOfView, expectedView]
      rw [toGLsizei_of_lt c.ElemCount (by omega)]
    · simp only [Bool.not_eq_true] at hc
      simp [hc]

theorem expectedAll_tuples [GLfloatOps F] (glHandle : Nat → Nat) (env : DrawEnv F)
    (Ls : List (ImDrawList F))
    (h : ∀ L ∈ Ls, (L.CmdBuffer.map (fun (c : ImDrawCmd F) => c.ElemCount)).sum < 2 ^ 16) :
    ∀ n, (expectedAll env Ls n).map (tupleOfView glHandle) = immediateAll glHandle env Ls := by
  induction Ls with
  | nil => intro n; rfl
  | cons L rest ih =>
    intro n
    simp only [expectedAll, immediateAll, List.map_append]
    rw [ih (fun M hM => h M (List.mem_cons_of_mem _ hM)),
      expectedViews_tuples glHandle env L.CmdBuffer n 0
        (by rw [Nat.zero_add]; exact h L (List.mem_cons_self _ _))]

theorem scaledLists_sums [GLfloatOps F] (drawData : ImDrawData F)
    (h : ∀ L ∈ drawData.CmdLists,
      (L.CmdBuffer.map (fun (c : ImDrawCmd F) => c.ElemCount)).sum < 2 ^ 16) :
    ∀ L ∈ scaledLists drawData,
      (L.CmdBuffer.map (fun (c : ImDrawCmd F) => c.ElemCount)).sum < 2 ^ 16 := by
  intro L hL
  unfold scaledLists ScaleClipRects at hL
  obtain ⟨L0, hL0, rfl⟩ := List.mem_map.1 hL
  have := h L0 hL0
  simpa [List.map_map, Function.comp, scaleClipRect] using this

theorem drawImmediateList_null [GLfloatOps F] (glHandle : Nat → Nat) (env : DrawEnv F)
    (self : ImGuiDrawing F) (L : ImDrawList F) (calls : List GLCall)
    (h : ∃ c ∈ L.CmdBuffer, clipTest env c = true ∧ c.TextureId = none) :
    drawImmediateList glHandle env self L calls = none := by
  unfold drawImmediateList
  cases self.vbo_ <;> cases self.ibo_ <;> cases self.imguiShaderProgram_ <;>
    cases self.imguiShaderAttributes_ <;>
    simp [drawImmediateCmds_null glHandle env L.CmdBuffer _ h]

theorem drawImmediateLists_null [GLfloatOps F] (glHandle : Nat → Nat) (env : DrawEnv F)
    (self : ImGuiDrawing F) (Ls : List (ImDrawList F)) :
    ∀ calls : List GLCall,
      (∃ L ∈ Ls, ∃ c ∈ L.CmdBuffer, clipTest env c = true ∧ c.TextureId = none) →
      drawImmediateLists glHandle env self Ls calls = none := by
  induction Ls with
  | nil =>
    intro calls h
    obtain ⟨L, hL, _⟩ := h
    exact absurd hL (List.not_mem_nil L)
  | cons M rest ih =>
    intro calls h
    obtain ⟨L, hL, hc⟩ := h
    simp only [drawImmediateLists]
    cases hM : drawImmediateList glHandle env self M calls with
    | none => rfl
    | some calls1 =>
      rcases List.mem_cons.1 hL with rfl | hmem
      · rw [drawImmediateList_null glHandle env self L calls hc] at hM
        exact absurd hM (by simp)
      · exact ih calls1 ⟨L, hmem, hc⟩

/-- A non-degenerate call of `draw()` on draw data with a draw list does not
return when a member it dereferences is null or when a draw command passes
the clip test with a null `TextureId`. -/
theorem drawImmediate_faults [GLfloatOps F] (glHandle : Nat → Nat) (HUD : Nat)
    (drawData : ImDrawData F) (ioDisplaySize : ImVec2 F) (self : ImGuiDrawing F)
    (blendWasEnabled : Bool) (hdim : ¬ degenerate HUD drawData ioDisplaySize)
    (hne : scaledLists drawData ≠ [])
    (h : ¬ HasBuffers self ∨
      ¬ TexturesNotNull (drawEnv HUD drawData ioDisplaySize) (scaledLists drawData)) :
    drawImmediate glHandle drawData self blendWasEnabled = none := by
  have hd : ¬ ((immediateEnv drawData).fbWidth ≤ 0 ∨ (immediateEnv drawData).fbHeight ≤ 0) :=
    hdim
  have hlists : drawImmediateLists glHandle (immediateEnv drawData) self
      (ScaleClipRects drawData drawData.FramebufferScale).CmdLists
      [GLCall.glIsEnabled GL_BLEND, GLCall.glEnable GL_BLEND,
        GLCall.glBlendFunc GL_SRC_ALPHA GL_ONE_MINUS_SRC_ALPHA] = none := by
    show drawImmediateLists glHandle (immediateEnv drawData) self (scaledLists drawData) _ = none
    rcases h with hb | hn
    · cases hL : scaledLists drawData with
      | nil => exact absurd hL hne
      | cons L rest =>
        simp only [drawImmediateLists, drawImmediateList_no_buffers glHandle _ self L _ hb]
    · apply drawImmediateLists_null
      unfold TexturesNotNull at hn
      push_neg at hn
      obtain ⟨L, hL, c, hc, hpass, hnull⟩ := hn
      exact ⟨L, hL, c, hc,
        by rw [(clipTest_congr (immediateEnv drawData) (drawEnv HUD drawData ioDisplaySize)
          rfl rfl rfl c).1]; exact hpass, hnull⟩
  simp only [drawImmediate, hd, if_false, hlists]

/-- C13 (the two drawing paths agree), as amended.  For draw data in which
the `ElemCount` values of every draw list sum to less than `2 ^ 16`, and a
well-formed object: when `fbWidth <= 0` or `fbHeight <= 0`, `draw()` returns
without a call and `draw(RenderQueue &)` changes neither the object nor the
queue; otherwise, when `vbo_`, `ibo_`, `imguiShaderProgram_` and
`imguiShaderAttributes_` are not null and every draw command that passes the
clip test has a non-null `TextureId`, `draw()` returns, and the commands that
`draw(RenderQueue &)` adds to the queue have, in the order in which they are
added and in the state `draw` returns, the (scissor; handle of the texture;
number of indices; first index) of the `glDrawElements` calls of `draw()`
with the scissor rectangle and texture handle in effect, in the same order;
and these are, list by list and in order, the draw commands that pass the
clip test. -/
theorem drawing_paths_agree [GLfloatOps F] (glHandle : Nat → Nat) (HUD : Nat)
    (drawData : ImDrawData F) (ioDisplaySize : ImVec2 F) (self : ImGuiDrawing F)
    (renderQueue : List Addr) (blendWasEnabled : Bool) (hwf : WellFormed self)
    (hsmall : ∀ L ∈ drawData.CmdLists,
      (L.CmdBuffer.map (fun (c : ImDrawCmd F) => c.ElemCount)).sum < 2 ^ 16) :
    (degenerate HUD drawData ioDisplaySize →
      drawImmediate glHandle drawData self blendWasEnabled = some [] ∧
      draw HUD drawData ioDisplaySize self renderQueue = (self, renderQueue)) ∧
    (¬ degenerate HUD drawData ioDisplaySize →
      HasBuffers self →
      TexturesNotNull (drawEnv HUD drawData ioDisplaySize) (scaledLists drawData) →
      ∃ (calls : List GLCall) (seg : List Addr),
        drawImmediate glHandle drawData self blendWasEnabled = some calls ∧
        (draw HUD drawData ioDisplaySize self renderQueue).2 = renderQueue ++ seg ∧
        seg.map (fun a =>
            ((draw HUD drawData ioDisplaySize self renderQueue).1.heap[a]?).map
              (queueTuple glHandle)) =
          (drawTuples calls).map some ∧
        drawTuples calls =
          immediateAll glHandle (drawEnv HUD drawData ioDisplaySize) (scaledLists drawData)) := by
  refine ⟨?_, ?_⟩
  · intro hdeg
    refine ⟨?_, draw_degenerate HUD drawData ioDisplaySize self renderQueue hdeg⟩
    have hd : (immediateEnv drawData).fbWidth ≤ 0 ∨ (immediateEnv drawData).fbHeight ≤ 0 := hdeg
    simp only [drawImmediate, hd, if_true]
  · intro hdim hb hnn
    obtain ⟨seg, q, v⟩ := draw_views HUD drawData ioDisplaySize self renderQueue hwf hdim
    obtain ⟨calls, hcalls, himm⟩ := drawImmediate_tuples glHandle HUD drawData ioDisplaySize
      self blendWasEnabled hdim hb hnn
    refine ⟨calls, seg, hcalls, q, ?_, himm⟩
    have h1 : seg.map (fun a =>
        ((draw HUD drawData ioDisplaySize self renderQueue).1.heap[a]?).map
          (queueTuple glHandle)) =
        (seg.map (viewAt (draw HUD drawData ioDisplaySize self renderQueue).1)).map
          (Option.map (tupleOfView glHandle)) := by
      rw [List.map_map]
      apply List.map_congr_left
      intro a _
      simp only [Function.comp, viewAt, Option.map_map]
      rfl
    rw [h1, v, himm, ← expectedAll_tuples glHandle (drawEnv HUD drawData ioDisplaySize)
      (scaledLists drawData) (scaledLists_sums drawData hsmall) 0, List.map_map, List.map_map]
    rfl

/-- Witness of `drawing_paths_agree`: an object constructed without scene
graph and two draw lists with five draw commands, one of them culled. -/
theorem drawing_paths_agree_witness :
    WellFormed exampleImmediateInit ∧
    (∀ L ∈ (exampleData [culledList, twoTextureList]).CmdLists,
      (L.CmdBuffer.map (fun (c : ImDrawCmd Int) => c.ElemCount)).sum < 2 ^ 16) ∧
    ¬ degenerate 32767 (exampleData [culledList, twoTextureList]) ⟨100, 100⟩ ∧
    HasBuffers exampleImmediateInit ∧
    TexturesNotNull (drawEnv 32767 (exampleData [culledList, twoTextureList]) ⟨100, 100⟩)
      (scaledLists (exampleData [culledList, twoTextureList])) ∧
    ∃ (calls : List GLCall) (seg : List Addr),
      drawImmediate exampleHandle (exampleData [culledList, twoTextureList])
        exampleImmediateInit false = some calls ∧
      (draw 32767 (exampleData [culledList, twoTextureList]) ⟨100, 100⟩
        exampleImmediateInit []).2 = [] ++ seg ∧
      seg.map (fun a =>
          ((draw 32767 (exampleData [culledList, twoTextureList]) ⟨100, 100⟩
            exampleImmediateInit []).1.heap[a]?).map (queueTuple exampleHandle)) =
        (drawTuples calls).map some ∧
      drawTuples calls =
        immediateAll exampleHandle
          (drawEnv 32767 (exampleData [culledList, twoTextureList]) ⟨100, 100⟩)
          (scaledLists (exampleData [culledList, twoTextureList])) :=
  ⟨by decide, by decide, by decide, by decide, by decide,
    (drawing_paths_agree exampleHandle 32767 (exampleData [culledList, twoTextureList])
      ⟨100, 100⟩ exampleImmediateInit [] false (by decide) (by decide)).2
      (by decide) (by decide) (by decide)⟩

/-- C13 fails as stated where `draw()` dereferences a null pointer.  On an
object constructed without scene graph and one draw list whose only draw
command passes the clip test with a null `TextureId`, `draw()` does not
return, and `draw(RenderQueue &)` adds one command with a null texture.  On
an object constructed with scene graph, whose `vbo_` is null, and a draw list
of two draw commands with textures, `draw()` does not return, and
`draw(RenderQueue &)` adds two commands.  In both, the `ElemCount` values sum
to less than `2 ^ 16`. -/
theorem drawing_paths_differ_at_null_pointer :
    ((∀ L ∈ (exampleData [nullTextureList]).CmdLists,
        (L.CmdBuffer.map (fun (c : ImDrawCmd Int) => c.ElemCount)).sum < 2 ^ 16) ∧
      WellFormed exampleImmediateInit ∧ HasBuffers exampleImmediateInit ∧
      drawImmediate exampleHandle (exampleData [nullTextureList]) exampleImmediateInit false =
        none ∧
      (draw 32767 (exampleData [nullTextureList]) ⟨100, 100⟩ exampleImmediateInit []).2.map
        (fun a => ((draw 32767 (exampleData [nullTextureList]) ⟨100, 100⟩
          exampleImmediateInit []).1.heap[a]?).map (queueTuple exampleHandle)) =
        [some ⟨some (0, 90, 10, 10), none, 6, 0⟩]) ∧
    ((∀ L ∈ (exampleData [twoTextureList]).CmdLists,
        (L.CmdBuffer.map (fun (c : ImDrawCmd Int) => c.ElemCount)).sum < 2 ^ 16) ∧
      WellFormed exampleInit ∧ exampleInit.vbo_ = none ∧
      TexturesNotNull (drawEnv 32767 (exampleData [twoTextureList]) ⟨100, 100⟩)
        (scaledLists (exampleData [twoTextureList])) ∧
      drawImmediate exampleHandle (exampleData [twoTextureList]) exampleInit false = none ∧
      (draw 32767 (exampleData [twoTextureList]) ⟨100, 100⟩ exampleInit []).2.map
        (fun a => ((draw 32767 (exampleData [twoTextureList]) ⟨100, 100⟩
          exampleInit []).1.heap[a]?).map (queueTuple exampleHandle)) =
        [some ⟨some (0, 90, 10, 10), some 1001, 6, 0⟩,
         some ⟨some (0, 90, 10, 10), some 1002, 6, 6⟩]) := by
  decide

/-- The two paths on an object constructed without scene graph and draw data
of 100 by 100 pixels with two draw lists of three and two draw commands, the
second command of the first list culled: four draw calls with the same
scissor rectangle, texture handle, element count and first index in both. -/
theorem drawing_paths_on_example :
    (drawImmediate exampleHandle (exampleData [culledList, twoTextureList])
        exampleImmediateInit false).map drawTuples =
      some [⟨some (0, 90, 10, 10), some 1001, 6, 0⟩, ⟨some (0, 90, 10, 10), some 1002, 9, 9⟩,
       ⟨some (0, 90, 10, 10), some 1001, 6, 0⟩, ⟨some (0, 90, 10, 10), some 1002, 6, 6⟩] ∧
    (draw 32767 (exampleData [culledList, twoTextureList]) ⟨100, 100⟩
        exampleImmediateInit []).2.map
      (fun a => ((draw 32767 (exampleData [culledList, twoTextureList]) ⟨100, 100⟩
        exampleImmediateInit []).1.heap[a]?).map (queueTuple exampleHandle)) =
      [some ⟨some (0, 90, 10, 10), some 1001, 6, 0⟩,
       some ⟨some (0, 90, 10, 10), some 1002, 9, 9⟩,
       some ⟨some (0, 90, 10, 10), some 1001, 6, 0⟩,
       some ⟨some (0, 90, 10, 10), some 1002, 6, 6⟩] := by
  decide

/-- Above the bound the two paths differ: for the draw list with `65538` and
`6` indices, `draw()` draws the second command from index offset `65538`,
`draw(RenderQueue &)` gives it the first index `2`. -/
theorem drawing_paths_differ_at_large_list :
    (drawImmediate exampleHandle (exampleData [largeList]) exampleImmediateInit false).map
        drawTuples =
      some [⟨some (0, 90, 10, 10), some 1001, 65538, 0⟩,
        ⟨some (0, 90, 10, 10), some 1001, 6, 65538⟩] ∧
    (draw 32767 (exampleData [largeList]) ⟨100, 100⟩ exampleImmediateInit []).2.map
      (fun a => ((draw 32767 (exampleData [largeList]) ⟨100, 100⟩
        exampleImmediateInit []).1.heap[a]?).map (queueTuple exampleHandle)) =
      [some ⟨some (0, 90, 10, 10), some 1001, 65538, 0⟩,
       some ⟨some (0, 90, 10, 10), some 1001, 6, 2⟩] := by
  decide

end ncine
